import Mathlib

/-!
# user-service: access aggregation, login and password change

A shallow embedding of the repositories and handlers of the Go service
(packages `repositories` and `handlers`) together with a relational store.

## The store

The Go code talks to a MySQL database through `database/sql`.  Every SQL
statement of the source is given a Lean definition that acts on `DB`:

* a table is named by the identifier the SQL text uses.  The source uses eight
  identifiers: `users`, `roles`, `access`, `user_roles`, `access_role` (the
  five tables of the `CreateTable` statements) and `user`, `role`,
  `user_role` (used by `UserRepository.GetAll`, by
  `userRoleRepository.GetAllAccess` and by the foreign key of `access_role`);
* a table that does not exist is `none`; a statement that names it fails with
  `Error.tableMissing`;
* rows are kept in insertion order; `UNIQUE` columns and the composite primary
  keys are checked on `INSERT`, `AUTO_INCREMENT` ids come from a counter that
  successful inserts advance; foreign keys are checked when `foreignKeyChecks`
  is set;
* `strict` is the server's strict SQL mode (an `INSERT` that omits a
  `NOT NULL` column without default fails when set, stores the implicit
  default otherwise); `foundRows` selects whether `RowsAffected` of an
  `UPDATE` counts matched rows or changed rows (the MySQL default);
* a string assigned to a `VARCHAR(n)` column of `users`, `roles` or `access` by
  an `INSERT` or `UPDATE` is cut to its first `n` characters; in strict mode
  the statement fails instead (error 1406) unless the excess consists of
  spaces.  The column `password` only receives digests computed by
  `utils.MD5Hash`, and its width is not modelled;
* a result set is read to its end: `rows.Err()` is `nil` after iterating a
  stored table.  Where a method treats the error of the iteration differently
  from the error of the query, the method is a function of the outcome of the
  statement (`Rows`), which covers every outcome the driver can report;
* collations and date ranges are not modelled: strings are compared exactly.

## Go values

A Go function returning `(T, error)` whose returns are all of the shape
`(zero, err)` or `(value, nil)` is an `Except Error T`, in which a `nil` slice
is the empty list; a function with another return shape is a pair of options,
`none` being `nil`.  Methods that mutate the store return the new store.
`utils.MD5Hash` and `utils.CreateJWT` belong to another module and are
parameters (`Utils`).
-/

set_option autoImplicit false

/-! ## Errors -/

/-- Go `error` values that reach the repositories and handlers. -/
inductive Error where
  /-- The sentinel `sql.ErrNoRows` returned by `Row.Scan`. -/
  | ErrNoRows
  /-- The value of `errors.New(text)`. -/
  | New (text : String)
  /-- MySQL error 1146: the named table does not exist. -/
  | tableMissing (table : String)
  /-- MySQL error 1062: duplicate entry for a primary or unique key. -/
  | duplicateEntry (table : String)
  /-- MySQL error 1364: the column has no default value. -/
  | noDefaultValue (column : String)
  /-- MySQL error 1452: a foreign key constraint fails. -/
  | foreignKeyFails (table : String)
  /-- MySQL error 1451: a row that a foreign key references cannot be deleted. -/
  | rowReferenced (table : String)
  /-- MySQL error 1406: data too long for the named column. -/
  | dataTooLong (column : String)
  /-- An error of the driver or the connection, as `rows.Err()` reports it. -/
  | driver (text : String)
  deriving DecidableEq, Repr

/-! ## `time` -/

/-- A `time.Time`, as nanoseconds since the Unix epoch. -/
abbrev Time := Int

/-- A `time.Duration`, in nanoseconds. -/
abbrev Duration := Int

/-- The constant `time.Hour`. -/
def Time.Hour : Duration := 3600 * 1000000000

/-- The method `Time.Add`. -/
def Time.Add (t : Time) (d : Duration) : Time := t + d

/-- The method `Time.Unix`: whole seconds since the epoch, rounded down. -/
def Time.Unix (t : Time) : Int := Int.fdiv t 1000000000

/-! ## Package `repositories`: entities -/

namespace repositories

/-- Struct `User` of `user.repository.go`. -/
structure User where
  ID : Int
  UserName : String
  Mobile : String
  EmailID : String
  deriving DecidableEq, Repr

/-- Struct `Role` of `role.repository.go`. -/
structure Role where
  ID : Int
  Name : String
  deriving DecidableEq, Repr

/-- Struct `Access` of `access.repository.go`. -/
structure Access where
  ID : Int
  Name : String
  deriving DecidableEq, Repr

/-- Struct `UserRole` of `user_role.repository.go`. -/
structure UserRole where
  UserID : Int
  RoleID : Int
  ExpiryDate : Int
  deriving DecidableEq, Repr

/-- Struct `RoleAccess` of `role_access.repository.go`. -/
structure RoleAccess where
  RoleID : Int
  AccessID : Int
  deriving DecidableEq, Repr

end repositories

/-! ## The relational store -/

/-- A row of table `users` (columns of `UserRepository.CreateTable`). -/
structure UsersRow where
  user_id : Int
  user_name : String
  mobile : String
  email_id : String
  password : String
  created_date : Int
  updated_date : Int
  deriving DecidableEq, Repr

/-- A row of table `roles` (columns of `RoleRepository.CreateTable`). -/
structure RolesRow where
  role_id : Int
  role_name : String
  created_date : Int
  updated_date : Int
  deriving DecidableEq, Repr

/-- A row of table `access` (columns of `AccessRepository.CreateTable`). -/
structure AccessRow where
  access_id : Int
  access_name : String
  created_date : Int
  updated_date : Int
  deriving DecidableEq, Repr

/-- A row of table `user_roles` (columns of `userRoleRepository.CreateTable`). -/
structure UserRolesRow where
  user_id : Int
  role_id : Int
  expiry_date : Int
  created_date : Int
  updated_date : Int
  deriving DecidableEq, Repr

/-- A row of table `access_role` (columns of `RoleAccessRepository.CreateTable`). -/
structure AccessRoleRow where
  role_id : Int
  access_id : Int
  created_date : Int
  updated_date : Int
  deriving DecidableEq, Repr

/-- The database.  One field per table identifier that occurs in the SQL text of
the source; `none` is a table that does not exist.  No statement of the source
creates `user`, `role` or `user_role`; they are given the row type of the table
with the plural name, which has every column the statements read from them. -/
structure DB where
  users : Option (List UsersRow)
  user : Option (List UsersRow)
  roles : Option (List RolesRow)
  role : Option (List RolesRow)
  access : Option (List AccessRow)
  user_roles : Option (List UserRolesRow)
  user_role : Option (List UserRolesRow)
  access_role : Option (List AccessRoleRow)
  /-- Next `AUTO_INCREMENT` value of `users.user_id`. -/
  users_auto : Int
  /-- Next `AUTO_INCREMENT` value of `roles.role_id`. -/
  roles_auto : Int
  /-- Next `AUTO_INCREMENT` value of `access.access_id`. -/
  access_auto : Int
  /-- Strict SQL mode. -/
  strict : Bool
  /-- Server variable `foreign_key_checks`. -/
  foreignKeyChecks : Bool
  /-- Connection flag: `RowsAffected` counts matched rather than changed rows. -/
  foundRows : Bool
  deriving DecidableEq, Repr

/-- Method `QueryRow(...).Scan(...)` for a `SELECT ... FROM table WHERE p`: the first
matching row, `sql.ErrNoRows` when there is none. -/
def queryRow {ρ : Type} (name : String) (table : Option (List ρ)) (p : ρ → Bool) :
    Except Error ρ :=
  match table with
  | none => .error (.tableMissing name)
  | some rows =>
    match rows.find? p with
    | none => .error .ErrNoRows
    | some r => .ok r

/-- Statement `UPDATE table SET ... WHERE p` on the rows of a table: the new rows and
`RowsAffected`. -/
def execUpdate {ρ : Type} [DecidableEq ρ] (foundRows : Bool) (rows : List ρ)
    (p : ρ → Bool) (set : ρ → ρ) : List ρ × Nat :=
  (rows.map (fun r => if p r then set r else r),
   (rows.filter (fun r => p r && (foundRows || decide (set r ≠ r)))).length)

/-- What a `VARCHAR(n)` column keeps of a value: the value itself when it has at most
`n` characters, its first `n` characters otherwise. -/
def cutColumn (n : Nat) (s : String) : String :=
  if s.length ≤ n then s else ⟨s.data.take n⟩

/-- Assignment of a value to a `VARCHAR(n)` column by `INSERT` or `UPDATE`.  A value
longer than `n` characters is cut to `n` (with a warning); in strict mode the statement
fails with error 1406 instead, unless the characters beyond the `n`-th are all
spaces. -/
def fitColumn (strict : Bool) (column : String) (n : Nat) (s : String) : Except Error String :=
  if strict && (s.data.drop n).any (fun c => c != ' ') then .error (.dataTooLong column)
  else .ok (cutColumn n s)

/-- Whether a parent table holds a row with the referenced key (a missing parent
table holds none). -/
def parentHas {ρ : Type} (table : Option (List ρ)) (key : ρ → Int) (v : Int) : Bool :=
  match table with
  | none => false
  | some rows => rows.any (fun r => key r = v)

/-! ## Package `repositories`: operations -/

namespace repositories

/-- Method `UserRepository.Create`:
`INSERT INTO users (user_name, mobile, created_date, updated_date, email_id)
VALUES (?, ?, NOW(), NOW(), ?)`, then `user.ID = int(id)` with the
`LastInsertId`.  The statement gives no value for `password`, which is
`NOT NULL` without default: in strict mode it fails.  Otherwise the values are
cut to the widths of `user_name VARCHAR(255)`, `mobile VARCHAR(10)` and
`email_id VARCHAR(255)`; the struct behind the pointer keeps its strings.  Returns
the store, the entity behind the pointer and the error. -/
def UserRepository.Create (db : DB) (now : Int) (user : User) : DB × User × Option Error :=
  match db.users with
  | none => (db, user, some (.tableMissing "users"))
  | some rows =>
    if db.strict then (db, user, some (.noDefaultValue "password"))
    else
      let user_name := cutColumn 255 user.UserName
      if rows.any (fun r => r.user_name = user_name) then
        (db, user, some (.duplicateEntry "users"))
      else
        let id := db.users_auto
        ({ db with
            users := some (rows ++
              [⟨id, user_name, cutColumn 10 user.Mobile, cutColumn 255 user.EmailID, "",
                now, now⟩]),
            users_auto := id + 1 },
         { user with ID := id }, none)

/-- Method `RoleRepository.Create`:
`INSERT INTO roles (role_name, created_date, updated_date) VALUES (?, NOW(), NOW())`,
then `role.ID = int(id)`.  The column is `role_name VARCHAR(255)`. -/
def RoleRepository.Create (db : DB) (now : Int) (role : Role) : DB × Role × Option Error :=
  match db.roles with
  | none => (db, role, some (.tableMissing "roles"))
  | some rows =>
    match fitColumn db.strict "role_name" 255 role.Name with
    | .error err => (db, role, some err)
    | .ok role_name =>
      if rows.any (fun r => r.role_name = role_name) then
        (db, role, some (.duplicateEntry "roles"))
      else
        let id := db.roles_auto
        ({ db with
            roles := some (rows ++ [⟨id, role_name, now, now⟩]),
            roles_auto := id + 1 },
         { role with ID := id }, none)

/-- Method `AccessRepository.Create`: `INSERT INTO access (access_name) VALUES (?)`
(both dates default to `NOW()`), then `access.ID = int(id)`.  The column is
`access_name VARCHAR(255)`. -/
def AccessRepository.Create (db : DB) (now : Int) (access : Access) :
    DB × Access × Option Error :=
  match db.access with
  | none => (db, access, some (.tableMissing "access"))
  | some rows =>
    match fitColumn db.strict "access_name" 255 access.Name with
    | .error err => (db, access, some err)
    | .ok access_name =>
      if rows.any (fun r => r.access_name = access_name) then
        (db, access, some (.duplicateEntry "access"))
      else
        let id := db.access_auto
        ({ db with
            access := some (rows ++ [⟨id, access_name, now, now⟩]),
            access_auto := id + 1 },
         { access with ID := id }, none)

/-- Method `userRoleRepository.Create`:
`INSERT INTO user_roles (user_id, role_id, expiry_date, created_date, updated_date)
VALUES (?, ?, ?, NOW(), NOW())`.  The table has primary key `(user_id, role_id)` and
foreign keys to `users(user_id)` and `roles(role_id)`. -/
def userRoleRepository.Create (db : DB) (now : Int) (ur : UserRole) : DB × Option Error :=
  match db.user_roles with
  | none => (db, some (.tableMissing "user_roles"))
  | some rows =>
    if rows.any (fun r => r.user_id = ur.UserID ∧ r.role_id = ur.RoleID) then
      (db, some (.duplicateEntry "user_roles"))
    else if db.foreignKeyChecks &&
        !(parentHas db.users UsersRow.user_id ur.UserID &&
          parentHas db.roles RolesRow.role_id ur.RoleID) then
      (db, some (.foreignKeyFails "user_roles"))
    else
      ({ db with
          user_roles := some (rows ++ [⟨ur.UserID, ur.RoleID, ur.ExpiryDate, now, now⟩]) },
       none)

/-- Method `RoleAccessRepository.Create`:
`INSERT INTO access_role (role_id, access_id, created_date, updated_date)
VALUES (?, ?, NOW(), NOW())`.  The table has primary key `(role_id, access_id)` and
foreign keys to `role(role_id)` and `access(access_id)`. -/
def RoleAccessRepository.Create (db : DB) (now : Int) (ra : RoleAccess) : DB × Option Error :=
  match db.access_role with
  | none => (db, some (.tableMissing "access_role"))
  | some rows =>
    if rows.any (fun r => r.role_id = ra.RoleID ∧ r.access_id = ra.AccessID) then
      (db, some (.duplicateEntry "access_role"))
    else if db.foreignKeyChecks &&
        !(parentHas db.role RolesRow.role_id ra.RoleID &&
          parentHas db.access AccessRow.access_id ra.AccessID) then
      (db, some (.foreignKeyFails "access_role"))
    else
      ({ db with
          access_role := some (rows ++ [⟨ra.RoleID, ra.AccessID, now, now⟩]) },
       none)

/-- The query of `userRoleRepository.GetAllAccess`:
`SELECT DISTINCT access.access_id, access.access_name FROM user_role
JOIN role ON user_role.role_id = role.role_id
JOIN access_role ON role.role_id = access_role.role_id
JOIN access ON access_role.access_id = access.access_id
WHERE user_role.user_id = ?`. -/
def userRoleRepository.GetAllAccess.query (db : DB) (userID : Int) :
    Except Error (List (Int × String)) :=
  match db.user_role with
  | none => .error (.tableMissing "user_role")
  | some user_role =>
  match db.role with
  | none => .error (.tableMissing "role")
  | some role =>
  match db.access_role with
  | none => .error (.tableMissing "access_role")
  | some access_role =>
  match db.access with
  | none => .error (.tableMissing "access")
  | some access =>
    .ok (List.dedup
      ((user_role.filter (fun ur => ur.user_id = userID)).flatMap fun ur =>
        (role.filter (fun r => ur.role_id = r.role_id)).flatMap fun r =>
          (access_role.filter (fun ar => r.role_id = ar.role_id)).flatMap fun ar =>
            (access.filter (fun a => ar.access_id = a.access_id)).map fun a =>
              (a.access_id, a.access_name)))

/-- Method `userRoleRepository.GetAllAccess`: run the query, scan every row into an
`Access`, and fail with `"no access found for the user"` when there is none. -/
def userRoleRepository.GetAllAccess (db : DB) (userID : Int) : Except Error (List Access) :=
  match userRoleRepository.GetAllAccess.query db userID with
  | .error err => .error err
  | .ok rows =>
    let accesses := rows.map (fun row => ({ ID := row.1, Name := row.2 } : Access))
    if accesses.length = 0 then .error (.New "no access found for the user")
    else .ok accesses

/-- Method `UserRepository.GetPassword`:
`SELECT password FROM users WHERE user_id = ?`; `sql.ErrNoRows` becomes
`"invalid user id"`. -/
def UserRepository.GetPassword (db : DB) (id : Int) : Except Error String :=
  match queryRow "users" db.users (fun r => r.user_id = id) with
  | .error err =>
    if err = .ErrNoRows then .error (.New "invalid user id") else .error err
  | .ok r => .ok r.password

/-- Method `UserRepository.GetUserByUserName`:
`SELECT user_id, user_name, mobile, email_id FROM users WHERE user_name = ?`;
`sql.ErrNoRows` becomes `"invalid user name"`. -/
def UserRepository.GetUserByUserName (db : DB) (userName : String) : Except Error User :=
  match queryRow "users" db.users (fun r => r.user_name = userName) with
  | .error err =>
    if err = .ErrNoRows then .error (.New "invalid user name") else .error err
  | .ok r => .ok { ID := r.user_id, UserName := r.user_name, Mobile := r.mobile, EmailID := r.email_id }

/-- Method `UserRepository.UpdatePassword`:
`UPDATE users SET password = ?, updated_date = NOW() WHERE user_id = ?`, failing with
`"no rows were affected during the update"` when `RowsAffected` is zero. -/
def UserRepository.UpdatePassword (db : DB) (now : Int) (userID : Int) (password : String) :
    DB × Option Error :=
  match db.users with
  | none => (db, some (.tableMissing "users"))
  | some rows =>
    let result := execUpdate db.foundRows rows (fun r => r.user_id = userID)
      (fun r => { r with password := password, updated_date := now })
    if result.2 = 0 then
      ({ db with users := some result.1 }, some (.New "no rows were affected during the update"))
    else ({ db with users := some result.1 }, none)

end repositories

/-! ## Package `handlers` -/

namespace handlers

open repositories

/-- A Go value held in an `interface{}`, with its dynamic type. -/
inductive GoValue where
  /-- An `int`. -/
  | int (n : Int)
  /-- An `int64`. -/
  | int64 (n : Int)
  /-- A `string`. -/
  | string (s : String)
  /-- A `[]*repositories.Access`. -/
  | accessSlice (l : List Access)
  /-- A `[]string`. -/
  | stringSlice (l : List String)
  deriving DecidableEq, Repr

/-- Type `jwt.MapClaims` (`map[string]interface{}`), as the key/value pairs of the
composite literal. -/
abbrev MapClaims := List (String × GoValue)

/-- The functions of `github.com/princeparmar/go-helpers/utils` the handlers call. -/
structure Utils where
  /-- Function `utils.MD5Hash`. -/
  MD5Hash : String → String
  /-- Function `utils.CreateJWT(secretKey, claims)`. -/
  CreateJWT : String → MapClaims → Except Error String

/-- Struct `LoginExecutor`: the embedded `Login` request and the secret key (the three
repositories share the one store). -/
structure LoginExecutor where
  UserName : String
  Password : String
  SecretKey : String
  deriving DecidableEq, Repr

/-- Method `LoginExecutor.Controller`; `now` is the value of `time.Now()`.  The result is
the `map[string]string` holding the token. -/
def LoginExecutor.Controller (utils : Utils) (e : LoginExecutor) (db : DB) (now : Time) :
    Except Error (List (String × String)) :=
  match UserRepository.GetUserByUserName db e.UserName with
  | .error err => .error err
  | .ok user =>
  match UserRepository.GetPassword db user.ID with
  | .error err => .error err
  | .ok password =>
    if password ≠ utils.MD5Hash e.Password then
      .error (.New "invalid username or password")
    else
      -- `access, _ := e.UserRoleRepo.GetAllAccess(user.ID)`: `nil` when it fails
      let access := match userRoleRepository.GetAllAccess db user.ID with
        | .ok accesses => accesses
        | .error _ => []
      match utils.CreateJWT e.SecretKey
          [("user_id", .int user.ID),
           ("username", .string user.UserName),
           ("access", .accessSlice access),
           ("exp", .int64 ((now.Add (Time.Hour * 24)).Unix))] with
      | .error err => .error err
      | .ok tokenString => .ok [("token", tokenString)]

/-- Struct `UserPassword`, the request of `UpdateUserPasswordExecutor`. -/
structure UserPassword where
  ID : Int
  OldPassword : String
  Password : String
  deriving DecidableEq, Repr

/-- Method `UpdateUserPasswordExecutor.Controller`; `now` is the value of the server's
`NOW()`.  The `interface{}` result is `nil` on every path, so the store and the error are
returned. -/
def UpdateUserPasswordExecutor.Controller (utils : Utils) (e : UserPassword) (db : DB)
    (now : Int) : DB × Option Error :=
  match UserRepository.GetPassword db e.ID with
  | .error err => (db, some err)
  | .ok password =>
    let oldPasswordHash := utils.MD5Hash e.OldPassword
    if oldPasswordHash ≠ password then
      (db, some (.New "incorrect old password"))
    else
      let newPasswordHash := utils.MD5Hash e.Password
      UserRepository.UpdatePassword db now e.ID newPasswordHash

end handlers

/-! ## Package `repositories`: further operations -/

/-- Method `Query` for a `SELECT ... FROM table`: every row of the table. -/
def queryRows {ρ : Type} (name : String) (table : Option (List ρ)) : Except Error (List ρ) :=
  match table with
  | none => .error (.tableMissing name)
  | some rows => .ok rows

/-- What reading a result set reports to the caller: the rows that the loop over
`rows.Next()` scanned before it ended, the error of a `rows.Scan` that failed (the loop
ends there), and the value of `rows.Err()` after the loop. -/
structure Rows (ρ : Type) where
  rows : List ρ
  scanErr : Option Error
  err : Option Error

/-- Method `Query` for a `SELECT ... FROM table` together with the loop over its rows: the
query fails when the table does not exist; otherwise every row of the table is scanned and
the iteration ends without error. -/
def queryAll {ρ : Type} (name : String) (table : Option (List ρ)) : Except Error (Rows ρ) :=
  match queryRows name table with
  | .error err => .error err
  | .ok rows => .ok { rows := rows, scanErr := none, err := none }

/-- Statement `DELETE FROM table WHERE p` on the rows of a table: the remaining rows and
`RowsAffected`. -/
def execDelete {ρ : Type} (rows : List ρ) (p : ρ → Bool) : List ρ × Nat :=
  (rows.filter (fun r => !p r), (rows.filter p).length)

namespace repositories

/-- Method `UserRepository.Get`:
`SELECT user_id, user_name, mobile, email_id FROM users WHERE user_id = ?`; on
`sql.ErrNoRows` it returns `nil, nil`.  The pair is the `*User` and the `error`. -/
def UserRepository.Get (db : DB) (id : Int) : Option User × Option Error :=
  match queryRow "users" db.users (fun r => r.user_id = id) with
  | .error err =>
    if err = .ErrNoRows then (none, none) else (none, some err)
  | .ok r =>
    (some { ID := r.user_id, UserName := r.user_name, Mobile := r.mobile, EmailID := r.email_id },
     none)

/-- Method `RoleRepository.Get`:
`SELECT role_id, role_name FROM roles WHERE role_id = ?`. -/
def RoleRepository.Get (db : DB) (id : Int) : Option Role × Option Error :=
  match queryRow "roles" db.roles (fun r => r.role_id = id) with
  | .error err => (none, some err)
  | .ok r => (some { ID := r.role_id, Name := r.role_name }, none)

/-- Method `AccessRepository.Get`:
`SELECT access_id, access_name FROM access WHERE access_id = ?`; it ends with
`return access, err`, so a failed `Scan` returns the zero `&Access{}` with the error. -/
def AccessRepository.Get (db : DB) (id : Int) : Option Access × Option Error :=
  match queryRow "access" db.access (fun r => r.access_id = id) with
  | .error err => (some { ID := 0, Name := "" }, some err)
  | .ok r => (some { ID := r.access_id, Name := r.access_name }, none)

/-- Method `UserRepository.GetAll`:
`SELECT user_id, user_name, email_id, mobile FROM user`. -/
def UserRepository.GetAll (db : DB) : Except Error (List User) :=
  match queryRows "user" db.user with
  | .error err => .error err
  | .ok rows =>
    .ok (rows.map fun r =>
      { ID := r.user_id, UserName := r.user_name, Mobile := r.mobile, EmailID := r.email_id })

/-- Method `UserRepository.List`:
`SELECT user_id, user_name, mobile, email_id FROM users`. -/
def UserRepository.List (db : DB) : Except Error (List User) :=
  match queryRows "users" db.users with
  | .error err => .error err
  | .ok rows =>
    .ok (rows.map fun r =>
      { ID := r.user_id, UserName := r.user_name, Mobile := r.mobile, EmailID := r.email_id })

/-- Method `RoleRepository.GetAll`: `SELECT role_id, role_name FROM roles`. -/
def RoleRepository.GetAll (db : DB) : Except Error (List Role) :=
  match queryRows "roles" db.roles with
  | .error err => .error err
  | .ok rows => .ok (rows.map fun r => { ID := r.role_id, Name := r.role_name })

/-- The body of `AccessRepository.GetAll` on the outcome of its statement: `return nil, err`
when the query or a `Scan` fails; otherwise `return accesses, rows.Err()`, the accesses
scanned so far beside the error of the iteration, without a test of that error.  The pair
is the slice and the `error`. -/
def AccessRepository.GetAll.scan (result : Except Error (Rows AccessRow)) :
    Option (List Access) × Option Error :=
  match result with
  | .error err => (none, some err)
  | .ok rs =>
    match rs.scanErr with
    | some err => (none, some err)
    | none => (some (rs.rows.map fun r => { ID := r.access_id, Name := r.access_name }), rs.err)

/-- Method `AccessRepository.GetAll`: `SELECT access_id, access_name FROM access`. -/
def AccessRepository.GetAll (db : DB) : Option (List Access) × Option Error :=
  AccessRepository.GetAll.scan (queryAll "access" db.access)

/-- The values a statement assigns to the columns `user_name VARCHAR(255)`,
`mobile VARCHAR(10)` and `email_id VARCHAR(255)` of `users`, in the order in which the
statement names the columns. -/
def fitUser (strict : Bool) (user : User) : Except Error (String × String × String) :=
  match fitColumn strict "user_name" 255 user.UserName with
  | .error err => .error err
  | .ok user_name =>
    match fitColumn strict "mobile" 10 user.Mobile with
    | .error err => .error err
    | .ok mobile =>
      match fitColumn strict "email_id" 255 user.EmailID with
      | .error err => .error err
      | .ok email_id => .ok (user_name, mobile, email_id)

/-- The statement of `UserRepository.Update`:
`UPDATE users SET user_name = ?, mobile = ?, updated_date = NOW(), email_id = ?
WHERE user_id = ?`; the new store and `RowsAffected`.  `user_name` is `UNIQUE`.  The values
are assigned, and checked, only when a row has the id. -/
def UserRepository.Update.exec (db : DB) (now : Int) (user : User) : Except Error (DB × Nat) :=
  match db.users with
  | none => .error (.tableMissing "users")
  | some rows =>
    if rows.any (fun r => r.user_id = user.ID) then
      match fitUser db.strict user with
      | .error err => .error err
      | .ok (user_name, mobile, email_id) =>
        if rows.any (fun r => r.user_id ≠ user.ID ∧ r.user_name = user_name) then
          .error (.duplicateEntry "users")
        else
          let result := execUpdate db.foundRows rows (fun r => r.user_id = user.ID)
            (fun r => { r with user_name := user_name, mobile := mobile,
                               updated_date := now, email_id := email_id })
          .ok ({ db with users := some result.1 }, result.2)
    else .ok (db, 0)

/-- Method `UserRepository.Update`: the statement, then
`"no rows were affected during the update"` when `RowsAffected` is zero. -/
def UserRepository.Update (db : DB) (now : Int) (user : User) : DB × Option Error :=
  match UserRepository.Update.exec db now user with
  | .error err => (db, some err)
  | .ok (db', rowsAffected) =>
    if rowsAffected = 0 then (db', some (.New "no rows were affected during the update"))
    else (db', none)

/-- The statement of `UserRepository.Delete`: `DELETE FROM users WHERE user_id = ?`; the new
store and `RowsAffected`.  `user_roles.user_id` references `users(user_id)` without an
`ON DELETE` action. -/
def UserRepository.Delete.exec (db : DB) (id : Int) : Except Error (DB × Nat) :=
  match db.users with
  | none => .error (.tableMissing "users")
  | some rows =>
    if db.foreignKeyChecks && rows.any (fun r => r.user_id = id) &&
        (db.user_roles.getD []).any (fun ur => ur.user_id = id) then
      .error (.rowReferenced "users")
    else
      let result := execDelete rows (fun r => r.user_id = id)
      .ok ({ db with users := some result.1 }, result.2)

/-- Method `UserRepository.Delete`: the statement, then
`"no rows were affected during the delete"` when `RowsAffected` is zero. -/
def UserRepository.Delete (db : DB) (id : Int) : DB × Option Error :=
  match UserRepository.Delete.exec db id with
  | .error err => (db, some err)
  | .ok (db', rowsAffected) =>
    if rowsAffected = 0 then (db', some (.New "no rows were affected during the delete"))
    else (db', none)

/-- The statement of `RoleRepository.Update`:
`UPDATE roles SET role_name = ?, updated_date = NOW() WHERE role_id = ?`.
`role_name` is `VARCHAR(255)` and `UNIQUE`.  The value is assigned, and checked, only
when a row has the id. -/
def RoleRepository.Update.exec (db : DB) (now : Int) (role : Role) : Except Error (DB × Nat) :=
  match db.roles with
  | none => .error (.tableMissing "roles")
  | some rows =>
    if rows.any (fun r => r.role_id = role.ID) then
      match fitColumn db.strict "role_name" 255 role.Name with
      | .error err => .error err
      | .ok role_name =>
        if rows.any (fun r => r.role_id ≠ role.ID ∧ r.role_name = role_name) then
          .error (.duplicateEntry "roles")
        else
          let result := execUpdate db.foundRows rows (fun r => r.role_id = role.ID)
            (fun r => { r with role_name := role_name, updated_date := now })
          .ok ({ db with roles := some result.1 }, result.2)
    else .ok (db, 0)

/-- Method `RoleRepository.Update`: the statement; its result is discarded
(`_, err := r.db.Exec(...)`) and only the error is returned. -/
def RoleRepository.Update (db : DB) (now : Int) (role : Role) : DB × Option Error :=
  match RoleRepository.Update.exec db now role with
  | .error err => (db, some err)
  | .ok (db', _) => (db', none)

/-- The statement of `RoleRepository.Delete`: `DELETE FROM roles WHERE role_id = ?`.
`user_roles.role_id` references `roles(role_id)` without an `ON DELETE` action; the
foreign key of `access_role.role_id` references `role(role_id)`, another table, so no row
of `access_role` is touched. -/
def RoleRepository.Delete.exec (db : DB) (id : Int) : Except Error (DB × Nat) :=
  match db.roles with
  | none => .error (.tableMissing "roles")
  | some rows =>
    if db.foreignKeyChecks && rows.any (fun r => r.role_id = id) &&
        (db.user_roles.getD []).any (fun ur => ur.role_id = id) then
      .error (.rowReferenced "roles")
    else
      let result := execDelete rows (fun r => r.role_id = id)
      .ok ({ db with roles := some result.1 }, result.2)

/-- Method `RoleRepository.Delete`: the statement; only the error is returned. -/
def RoleRepository.Delete (db : DB) (id : Int) : DB × Option Error :=
  match RoleRepository.Delete.exec db id with
  | .error err => (db, some err)
  | .ok (db', _) => (db', none)

/-- The statement of `AccessRepository.Update`:
`UPDATE access SET access_name = ? WHERE access_id = ?`.  `access_name` is `VARCHAR(255)`
and `UNIQUE`.  The value is assigned, and checked, only when a row has the id. -/
def AccessRepository.Update.exec (db : DB) (access : Access) : Except Error (DB × Nat) :=
  match db.access with
  | none => .error (.tableMissing "access")
  | some rows =>
    if rows.any (fun r => r.access_id = access.ID) then
      match fitColumn db.strict "access_name" 255 access.Name with
      | .error err => .error err
      | .ok access_name =>
        if rows.any (fun r => r.access_id ≠ access.ID ∧ r.access_name = access_name) then
          .error (.duplicateEntry "access")
        else
          let result := execUpdate db.foundRows rows (fun r => r.access_id = access.ID)
            (fun r => { r with access_name := access_name })
          .ok ({ db with access := some result.1 }, result.2)
    else .ok (db, 0)

/-- Method `AccessRepository.Update`: the statement; only the error is returned. -/
def AccessRepository.Update (db : DB) (access : Access) : DB × Option Error :=
  match AccessRepository.Update.exec db access with
  | .error err => (db, some err)
  | .ok (db', _) => (db', none)

/-- The statement of `AccessRepository.Delete`: `DELETE FROM access WHERE access_id = ?`.
`access_role.access_id` references `access(access_id) ON DELETE CASCADE`: with foreign key
checks on, the rows of `access_role` with that access go too. -/
def AccessRepository.Delete.exec (db : DB) (id : Int) : Except Error (DB × Nat) :=
  match db.access with
  | none => .error (.tableMissing "access")
  | some rows =>
    let result := execDelete rows (fun r => r.access_id = id)
    .ok ({ db with
            access := some result.1,
            access_role :=
              if db.foreignKeyChecks && decide (result.2 ≠ 0) then
                db.access_role.map (fun ars => ars.filter (fun ar => ar.access_id ≠ id))
              else db.access_role },
         result.2)

/-- Method `AccessRepository.Delete`: the statement; only the error is returned. -/
def AccessRepository.Delete (db : DB) (id : Int) : DB × Option Error :=
  match AccessRepository.Delete.exec db id with
  | .error err => (db, some err)
  | .ok (db', _) => (db', none)

/-- The query of `RoleRepository.GetAccessesForRole` (file `role_access.repository.go`):
`SELECT a.access_id, a.access_name FROM access a INNER JOIN access_role ar
ON a.access_id = ar.access_id WHERE ar.role_id = ?`. -/
def RoleRepository.GetAccessesForRole.query (db : DB) (roleID : Int) :
    Except Error (List (Int × String)) :=
  match db.access with
  | none => .error (.tableMissing "access")
  | some access =>
  match db.access_role with
  | none => .error (.tableMissing "access_role")
  | some access_role =>
    .ok (access.flatMap fun a =>
      ((access_role.filter (fun ar => a.access_id = ar.access_id ∧ ar.role_id = roleID)).map
        fun _ => (a.access_id, a.access_name)))

/-- Method `RoleRepository.GetAccessesForRole`. -/
def RoleRepository.GetAccessesForRole (db : DB) (roleID : Int) : Except Error (List Access) :=
  match RoleRepository.GetAccessesForRole.query db roleID with
  | .error err => .error err
  | .ok rows => .ok (rows.map fun row => { ID := row.1, Name := row.2 })

/-- Method `userRoleRepository.Get`:
`SELECT user_id, role_id, expiry_date FROM user_roles WHERE user_id = ? AND role_id = ?`. -/
def userRoleRepository.Get (db : DB) (userID roleID : Int) : Option UserRole × Option Error :=
  match queryRow "user_roles" db.user_roles
      (fun r => r.user_id = userID ∧ r.role_id = roleID) with
  | .error err => (none, some err)
  | .ok r => (some { UserID := r.user_id, RoleID := r.role_id, ExpiryDate := r.expiry_date }, none)

/-- The statement of `userRoleRepository.Update`:
`UPDATE user_roles SET expiry_date = ?, updated_date = NOW() WHERE user_id = ? AND role_id = ?`. -/
def userRoleRepository.Update.exec (db : DB) (now : Int) (ur : UserRole) :
    Except Error (DB × Nat) :=
  match db.user_roles with
  | none => .error (.tableMissing "user_roles")
  | some rows =>
    let result := execUpdate db.foundRows rows
      (fun r => r.user_id = ur.UserID ∧ r.role_id = ur.RoleID)
      (fun r => { r with expiry_date := ur.ExpiryDate, updated_date := now })
    .ok ({ db with user_roles := some result.1 }, result.2)

/-- Method `userRoleRepository.Update`: the statement; only the error is returned. -/
def userRoleRepository.Update (db : DB) (now : Int) (ur : UserRole) : DB × Option Error :=
  match userRoleRepository.Update.exec db now ur with
  | .error err => (db, some err)
  | .ok (db', _) => (db', none)

/-- The statement of `userRoleRepository.Delete`:
`DELETE FROM user_roles WHERE user_id = ? AND role_id = ?`. -/
def userRoleRepository.Delete.exec (db : DB) (userID roleID : Int) : Except Error (DB × Nat) :=
  match db.user_roles with
  | none => .error (.tableMissing "user_roles")
  | some rows =>
    let result := execDelete rows (fun r => r.user_id = userID ∧ r.role_id = roleID)
    .ok ({ db with user_roles := some result.1 }, result.2)

/-- Method `userRoleRepository.Delete`: the statement; only the error is returned. -/
def userRoleRepository.Delete (db : DB) (userID roleID : Int) : DB × Option Error :=
  match userRoleRepository.Delete.exec db userID roleID with
  | .error err => (db, some err)
  | .ok (db', _) => (db', none)

/-- Method `userRoleRepository.GetAll`:
`SELECT user_id, role_id, expiry_date FROM user_roles`. -/
def userRoleRepository.GetAll (db : DB) : Except Error (List UserRole) :=
  match queryRows "user_roles" db.user_roles with
  | .error err => .error err
  | .ok rows =>
    .ok (rows.map fun r =>
      { UserID := r.user_id, RoleID := r.role_id, ExpiryDate := r.expiry_date })

/-- The query of `userRoleRepository.GetRolesForUser`:
`SELECT r.role_id, r.role_name FROM roles r INNER JOIN user_roles ur
ON r.role_id = ur.role_id WHERE ur.user_id = ?`. -/
def userRoleRepository.GetRolesForUser.query (db : DB) (userID : Int) :
    Except Error (List (Int × String)) :=
  match db.roles with
  | none => .error (.tableMissing "roles")
  | some roles =>
  match db.user_roles with
  | none => .error (.tableMissing "user_roles")
  | some user_roles =>
    .ok (roles.flatMap fun r =>
      ((user_roles.filter (fun ur => r.role_id = ur.role_id ∧ ur.user_id = userID)).map
        fun _ => (r.role_id, r.role_name)))

/-- Method `userRoleRepository.GetRolesForUser`. -/
def userRoleRepository.GetRolesForUser (db : DB) (userID : Int) : Except Error (List Role) :=
  match userRoleRepository.GetRolesForUser.query db userID with
  | .error err => .error err
  | .ok rows => .ok (rows.map fun row => { ID := row.1, Name := row.2 })

/-- Method `RoleAccessRepository.Get`:
`SELECT role_id, access_id FROM access_role WHERE role_id = ? AND access_id = ?`. -/
def RoleAccessRepository.Get (db : DB) (roleID accessID : Int) :
    Option RoleAccess × Option Error :=
  match queryRow "access_role" db.access_role
      (fun r => r.role_id = roleID ∧ r.access_id = accessID) with
  | .error err => (none, some err)
  | .ok r => (some { RoleID := r.role_id, AccessID := r.access_id }, none)

/-- The statement of `RoleAccessRepository.Delete`:
`DELETE FROM access_role WHERE role_id = ? AND access_id = ?`. -/
def RoleAccessRepository.Delete.exec (db : DB) (roleID accessID : Int) :
    Except Error (DB × Nat) :=
  match db.access_role with
  | none => .error (.tableMissing "access_role")
  | some rows =>
    let result := execDelete rows (fun r => r.role_id = roleID ∧ r.access_id = accessID)
    .ok ({ db with access_role := some result.1 }, result.2)

/-- Method `RoleAccessRepository.Delete`: the statement; only the error is returned. -/
def RoleAccessRepository.Delete (db : DB) (roleID accessID : Int) : DB × Option Error :=
  match RoleAccessRepository.Delete.exec db roleID accessID with
  | .error err => (db, some err)
  | .ok (db', _) => (db', none)

/-- Method `RoleAccessRepository.GetAll`: `SELECT role_id, access_id FROM access_role`. -/
def RoleAccessRepository.GetAll (db : DB) : Except Error (List RoleAccess) :=
  match queryRows "access_role" db.access_role with
  | .error err => .error err
  | .ok rows => .ok (rows.map fun r => { RoleID := r.role_id, AccessID := r.access_id })

end repositories

/-! ## Package `handlers`: requests, validation and the CRUD controllers -/

namespace handlers

/-- The validation functions of `github.com/princeparmar/go-helpers/utils`. -/
structure Validators where
  /-- Function `utils.ValidateEmail`. -/
  ValidateEmail : String → Bool
  /-- Function `utils.ValidateMobile`. -/
  ValidateMobile : String → Bool

/-- Struct `User` of `handlers/user.go`, the request of the user endpoints. -/
structure User where
  ID : Int
  Name : String
  Email : String
  Mobile : String
  deriving DecidableEq, Repr

/-- Function `createUserModel`. -/
def createUserModel (u : User) : repositories.User :=
  { ID := u.ID, UserName := u.Name, Mobile := u.Mobile, EmailID := u.Email }

/-- Method `User.ValidateRequest`: `none` is the `nil` error. -/
def User.ValidateRequest (utils : Validators) (u : User) : Option Error :=
  if u.Email ≠ "" ∧ ¬ utils.ValidateEmail u.Email then
    some (.New "email format is invalid")
  else if u.Mobile ≠ "" ∧ ¬ utils.ValidateMobile u.Mobile then
    some (.New "mobile format is invalid")
  else none

/-- Struct `Role` of `handlers/role.go`. -/
structure Role where
  ID : Int
  Name : String
  deriving DecidableEq, Repr

/-- Function `createRoleModel`. -/
def createRoleModel (r : Role) : repositories.Role :=
  { ID := r.ID, Name := r.Name }

/-- Method `Role.ValidateRequest`: the body is `return nil` under a `TODO` comment. -/
def Role.ValidateRequest (_r : Role) : Option Error := none

/-- Struct `Access` of `handlers/access.go`. -/
structure Access where
  ID : Int
  Name : String
  deriving DecidableEq, Repr

/-- Function `createAccessModel`. -/
def createAccessModel (a : Access) : repositories.Access :=
  { ID := a.ID, Name := a.Name }

/-- Method `Access.ValidateRequest`. -/
def Access.ValidateRequest (a : Access) : Option Error :=
  if a.Name = "" then some (.New "access name is required") else none

/-- Method `CreateUserExecutor.Controller`: the store, the `interface{}` result and the
error. -/
def CreateUserExecutor.Controller (e : User) (db : DB) (now : Int) :
    DB × Option repositories.User × Option Error :=
  let user := createUserModel e
  match repositories.UserRepository.Create db now user with
  | (db', _, some err) => (db', none, some err)
  | (db', user', none) => (db', some user', none)

/-- Method `DeleteUserExecutor.Controller`; the `interface{}` result is `nil` on every
path. -/
def DeleteUserExecutor.Controller (e : User) (db : DB) : DB × Option Error :=
  match repositories.UserRepository.Delete db e.ID with
  | (db', some err) => (db', some err)
  | (db', none) => (db', none)

/-- Method `UpdateUserExecutor.Controller`. -/
def UpdateUserExecutor.Controller (e : User) (db : DB) (now : Int) :
    DB × Option repositories.User × Option Error :=
  let user := createUserModel e
  match repositories.UserRepository.Update db now user with
  | (db', some err) => (db', none, some err)
  | (db', none) => (db', some user, none)

/-- Method `GetUserExecutor.Controller`. -/
def GetUserExecutor.Controller (e : User) (db : DB) :
    Option repositories.User × Option Error :=
  match repositories.UserRepository.Get db e.ID with
  | (_, some err) => (none, some err)
  | (user, none) => (user, none)

/-- Method `GetAllUsersExecutor.Controller`: `return e.UserRepo.GetAll()`. -/
def GetAllUsersExecutor.Controller (db : DB) : Except Error (List repositories.User) :=
  repositories.UserRepository.GetAll db

/-- Method `UserAccessExecutor.Controller`. -/
def UserAccessExecutor.Controller (e : User) (db : DB) :
    Except Error (List repositories.Access) :=
  match repositories.userRoleRepository.GetAllAccess db e.ID with
  | .error err => .error err
  | .ok accesses =>
    if accesses.length = 0 then .error (.New "no accesses found for user")
    else .ok accesses

/-- Method `CreateRoleExecutor.Controller`. -/
def CreateRoleExecutor.Controller (e : Role) (db : DB) (now : Int) :
    DB × Option repositories.Role × Option Error :=
  let role := createRoleModel e
  match repositories.RoleRepository.Create db now role with
  | (db', _, some err) => (db', none, some err)
  | (db', role', none) => (db', some role', none)

/-- Method `DeleteRoleExecutor.Controller`; the `interface{}` result is `nil` on every
path. -/
def DeleteRoleExecutor.Controller (e : Role) (db : DB) : DB × Option Error :=
  match repositories.RoleRepository.Delete db e.ID with
  | (db', some err) => (db', some err)
  | (db', none) => (db', none)

/-- Method `UpdateRoleExecutor.Controller`. -/
def UpdateRoleExecutor.Controller (e : Role) (db : DB) (now : Int) :
    DB × Option repositories.Role × Option Error :=
  let role := createRoleModel e
  match repositories.RoleRepository.Update db now role with
  | (db', some err) => (db', none, some err)
  | (db', none) => (db', some role, none)

/-- Method `GetRoleExecutor.Controller`. -/
def GetRoleExecutor.Controller (e : Role) (db : DB) :
    Option repositories.Role × Option Error :=
  match repositories.RoleRepository.Get db e.ID with
  | (_, some err) => (none, some err)
  | (role, none) => (role, none)

/-- Method `GetAllRolesExecutor.Controller`: `return e.RoleRepo.GetAll()`. -/
def GetAllRolesExecutor.Controller (db : DB) : Except Error (List repositories.Role) :=
  repositories.RoleRepository.GetAll db

/-- Method `CreateAccessExecutor.Controller`. -/
def CreateAccessExecutor.Controller (e : Access) (db : DB) (now : Int) :
    DB × Option repositories.Access × Option Error :=
  let access := createAccessModel e
  match repositories.AccessRepository.Create db now access with
  | (db', _, some err) => (db', none, some err)
  | (db', access', none) => (db', some access', none)

/-- Method `UpdateAccessExecutor.Controller`. -/
def UpdateAccessExecutor.Controller (e : Access) (db : DB) :
    DB × Option repositories.Access × Option Error :=
  let access := createAccessModel e
  match repositories.AccessRepository.Update db access with
  | (db', some err) => (db', none, some err)
  | (db', none) => (db', some access, none)

/-- Method `DeleteAccessExecutor.Controller`; the `interface{}` result is `nil` on every
path. -/
def DeleteAccessExecutor.Controller (e : Access) (db : DB) : DB × Option Error :=
  match repositories.AccessRepository.Delete db e.ID with
  | (db', some err) => (db', some err)
  | (db', none) => (db', none)

/-- Method `GetAccessExecutor.Controller`. -/
def GetAccessExecutor.Controller (e : Access) (db : DB) :
    Option repositories.Access × Option Error :=
  match repositories.AccessRepository.Get db e.ID with
  | (_, some err) => (none, some err)
  | (access, none) => (access, none)

/-- Method `GetAllAccessesExecutor.Controller`: `return e.AccessRepo.GetAll()`, both values
as the repository returns them. -/
def GetAllAccessesExecutor.Controller (db : DB) :
    Option (List repositories.Access) × Option Error :=
  repositories.AccessRepository.GetAll db

end handlers

/-! ## Store constraints and histories of `Create` calls -/

/-- The values of a key are pairwise distinct over the rows of a table
(`PRIMARY KEY`, `UNIQUE`). -/
def uniqueKey {ρ κ : Type} (table : Option (List ρ)) (key : ρ → κ) : Prop :=
  ((table.getD []).map key).Nodup

instance {ρ κ : Type} [DecidableEq κ] (table : Option (List ρ)) (key : ρ → κ) :
    Decidable (uniqueKey table key) := by
  unfold uniqueKey; infer_instance

/-- The key constraints the `CreateTable` statements declare, and the `AUTO_INCREMENT`
counters being above every stored id. -/
def DB.WF (db : DB) : Prop :=
  uniqueKey db.users UsersRow.user_id ∧ uniqueKey db.users UsersRow.user_name ∧
  uniqueKey db.roles RolesRow.role_id ∧ uniqueKey db.roles RolesRow.role_name ∧
  uniqueKey db.access AccessRow.access_id ∧ uniqueKey db.access AccessRow.access_name ∧
  uniqueKey db.user_roles (fun r => (r.user_id, r.role_id)) ∧
  uniqueKey db.access_role (fun r => (r.role_id, r.access_id)) ∧
  (∀ r ∈ db.users.getD [], r.user_id < db.users_auto) ∧
  (∀ r ∈ db.roles.getD [], r.role_id < db.roles_auto) ∧
  (∀ r ∈ db.access.getD [], r.access_id < db.access_auto)

instance (db : DB) : Decidable db.WF := by
  unfold DB.WF; infer_instance

/-- A call of one of the five `Create` methods. -/
inductive CreateCall where
  | user (u : repositories.User)
  | role (r : repositories.Role)
  | access (a : repositories.Access)
  | userRole (ur : repositories.UserRole)
  | roleAccess (ra : repositories.RoleAccess)
  deriving DecidableEq, Repr

/-- The store after one `Create` call made at server time `now`. -/
def CreateCall.run (db : DB) (now : Int) : CreateCall → DB
  | .user u => (repositories.UserRepository.Create db now u).1
  | .role r => (repositories.RoleRepository.Create db now r).1
  | .access a => (repositories.AccessRepository.Create db now a).1
  | .userRole ur => (repositories.userRoleRepository.Create db now ur).1
  | .roleAccess ra => (repositories.RoleAccessRepository.Create db now ra).1

/-- The store after a history of `Create` calls, each with its server time. -/
def createAll (db : DB) (calls : List (Int × CreateCall)) : DB :=
  calls.foldl (fun d c => c.2.run d c.1) db

/-- The store in which the five tables named by the `CreateTable` statements exist and
are empty, and no other table exists. -/
def DB.created (strict foreignKeyChecks foundRows : Bool) : DB :=
  { users := some [], user := none, roles := some [], role := none, access := some [],
    user_roles := some [], user_role := none, access_role := some [],
    users_auto := 1, roles_auto := 1, access_auto := 1,
    strict := strict, foreignKeyChecks := foreignKeyChecks, foundRows := foundRows }

/-- The rows the join of `GetAllAccess` produces before `DISTINCT`, for existing tables. -/
def joinedRows (user_role : List UserRolesRow) (role : List RolesRow)
    (access_role : List AccessRoleRow) (access : List AccessRow) (userID : Int) :
    List (Int × String) :=
  (user_role.filter (fun ur => ur.user_id = userID)).flatMap fun ur =>
    (role.filter (fun r => ur.role_id = r.role_id)).flatMap fun r =>
      (access_role.filter (fun ar => r.role_id = ar.role_id)).flatMap fun ar =>
        (access.filter (fun a => ar.access_id = a.access_id)).map fun a =>
          (a.access_id, a.access_name)

/-- The login reaches token issuance with `claims`: whatever `utils.CreateJWT` is, the
result of `LoginExecutor.Controller` is the result of that function on the secret key
and `claims`, the token wrapped in the response map. -/
def handlers.LoginExecutor.signs (MD5Hash : String → String) (e : handlers.LoginExecutor)
    (db : DB) (now : Time) (claims : handlers.MapClaims) : Prop :=
  ∀ CreateJWT : String → handlers.MapClaims → Except Error String,
    handlers.LoginExecutor.Controller ⟨MD5Hash, CreateJWT⟩ e db now =
      match CreateJWT e.SecretKey claims with
      | .error err => .error err
      | .ok tokenString => .ok [("token", tokenString)]

/-- The users behind the pointers after the successful `UserRepository.Create` calls of a
history, in the order of the calls. -/
def createdUsers (db : DB) : List (Int × CreateCall) → List repositories.User
  | [] => []
  | (now, .user u) :: cs =>
    match repositories.UserRepository.Create db now u with
    | (db', u', none) => u' :: createdUsers db' cs
    | (db', _, some _) => createdUsers db' cs
  | (now, c) :: cs => createdUsers (c.run db now) cs

/-- The roles behind the pointers after the successful `RoleRepository.Create` calls of a
history, in the order of the calls. -/
def createdRoles (db : DB) : List (Int × CreateCall) → List repositories.Role
  | [] => []
  | (now, .role r) :: cs =>
    match repositories.RoleRepository.Create db now r with
    | (db', r', none) => r' :: createdRoles db' cs
    | (db', _, some _) => createdRoles db' cs
  | (now, c) :: cs => createdRoles (c.run db now) cs

/-- The accesses behind the pointers after the successful `AccessRepository.Create` calls
of a history, in the order of the calls. -/
def createdAccesses (db : DB) : List (Int × CreateCall) → List repositories.Access
  | [] => []
  | (now, .access a) :: cs =>
    match repositories.AccessRepository.Create db now a with
    | (db', a', none) => a' :: createdAccesses db' cs
    | (db', _, some _) => createdAccesses db' cs
  | (now, c) :: cs => createdAccesses (c.run db now) cs

/-- The user as a row of `users` holds it: name, mobile and email cut to the widths of
their columns. -/
def repositories.User.stored (u : repositories.User) : repositories.User :=
  { u with UserName := cutColumn 255 u.UserName, Mobile := cutColumn 10 u.Mobile,
           EmailID := cutColumn 255 u.EmailID }

/-- The role as a row of `roles` holds it: the name cut to the width of its column. -/
def repositories.Role.stored (r : repositories.Role) : repositories.Role :=
  { r with Name := cutColumn 255 r.Name }

/-- The access as a row of `access` holds it: the name cut to the width of its column. -/
def repositories.Access.stored (a : repositories.Access) : repositories.Access :=
  { a with Name := cutColumn 255 a.Name }

/-- A table of memberships with the expiry timestamp of every row set to `t`. -/
def withExpiry (t : Int) (table : Option (List UserRolesRow)) : Option (List UserRolesRow) :=
  table.map (List.map fun r => { r with expiry_date := t })

/-- The store in which no membership is expired at time `now`: every row of `user_roles`
and of `user_role` has its expiry timestamp set to `now + 1`. -/
def DB.unexpired (db : DB) (now : Int) : DB :=
  { db with user_roles := withExpiry (now + 1) db.user_roles,
            user_role := withExpiry (now + 1) db.user_role }

/-- Two tables of memberships hold the same rows up to the expiry timestamps. -/
def sameMemberships (t1 t2 : Option (List UserRolesRow)) : Prop :=
  t1.map (List.map fun r => { r with expiry_date := 0 }) =
    t2.map (List.map fun r => { r with expiry_date := 0 })

/-- Two stores differ at most in the expiry timestamps of the rows of `user_roles` and
`user_role`. -/
def DB.sameUpToExpiry (db1 db2 : DB) : Prop :=
  sameMemberships db1.user_roles db2.user_roles ∧
  sameMemberships db1.user_role db2.user_role ∧
  { db1 with user_roles := none, user_role := none } =
    { db2 with user_roles := none, user_role := none }

/-! ## Example stores -/

/-- Stand-ins for the two library functions, used to evaluate the handlers on concrete
requests: a hash that tags its argument and a signer that always succeeds. -/
def exampleUtils : handlers.Utils :=
  { MD5Hash := fun s => "md5:" ++ s,
    CreateJWT := fun secretKey claims => .ok (secretKey ++ "/" ++ toString claims.length) }

/-- The `Create` calls of the example of the specification: alice holds Admin and
Viewer, Admin grants read, write and delete, Viewer grants read and export. -/
def aliceCalls : List (Int × CreateCall) :=
  [(100, .user ⟨0, "alice", "5550100", "alice@example.org"⟩),
   (101, .role ⟨0, "Admin"⟩), (102, .role ⟨0, "Viewer"⟩),
   (103, .access ⟨0, "read"⟩), (104, .access ⟨0, "write"⟩),
   (105, .access ⟨0, "delete"⟩), (106, .access ⟨0, "export"⟩),
   (107, .userRole ⟨1, 1, 999⟩), (108, .userRole ⟨1, 2, 999⟩),
   (109, .roleAccess ⟨1, 1⟩), (110, .roleAccess ⟨1, 2⟩), (111, .roleAccess ⟨1, 3⟩),
   (112, .roleAccess ⟨2, 1⟩), (113, .roleAccess ⟨2, 4⟩)]

/-- A store in which the tables `role` and `user_role` exist and hold the rows of
`roles` and `user_roles` (as views of these would): alice (user 1, password
"wonderland") holds Admin and Viewer, bob (user 2, password "builder") holds no role. -/
def aliceStore : DB :=
  { users := some [⟨1, "alice", "5550100", "alice@example.org", "md5:wonderland", 100, 100⟩,
                   ⟨2, "bob", "5550101", "bob@example.org", "md5:builder", 100, 100⟩],
    user := none,
    roles := some [⟨1, "Admin", 101, 101⟩, ⟨2, "Viewer", 102, 102⟩],
    role := some [⟨1, "Admin", 101, 101⟩, ⟨2, "Viewer", 102, 102⟩],
    access := some [⟨1, "read", 103, 103⟩, ⟨2, "write", 104, 104⟩,
                    ⟨3, "delete", 105, 105⟩, ⟨4, "export", 106, 106⟩],
    user_roles := some [⟨1, 1, 999, 107, 107⟩, ⟨1, 2, 999, 108, 108⟩],
    user_role := some [⟨1, 1, 999, 107, 107⟩, ⟨1, 2, 999, 108, 108⟩],
    access_role := some [⟨1, 1, 109, 109⟩, ⟨1, 2, 110, 110⟩, ⟨1, 3, 111, 111⟩,
                         ⟨2, 1, 112, 112⟩, ⟨2, 4, 113, 113⟩],
    users_auto := 3, roles_auto := 3, access_auto := 5,
    strict := false, foreignKeyChecks := false, foundRows := false }

/-- The store `aliceStore` with foreign key checks on and alice holding Admin only: no
membership refers to the role Viewer (role 2), which grants read and export. -/
def viewerStore : DB :=
  { aliceStore with
    foreignKeyChecks := true,
    user_roles := some [⟨1, 1, 999, 107, 107⟩],
    user_role := some [⟨1, 1, 999, 107, 107⟩] }

/-- Stand-ins for the two validation functions: an email holds an at sign, a mobile has
ten characters. -/
def exampleValidators : handlers.Validators :=
  { ValidateEmail := fun s => s.data.contains '@',
    ValidateMobile := fun s => s.length == 10 }

/-! ## Lemmas: the store and the join of `GetAllAccess` -/

open repositories

open handlers hiding User Role Access

/-- A value that fits the column is kept as it is. -/
theorem cutColumn_of_le {n : Nat} {s : String} (h : s.length ≤ n) : cutColumn n s = s := by
  simp [cutColumn, h]

/-- A value that fits the column is assigned as it is, in either SQL mode. -/
theorem fitColumn_of_le (strict : Bool) (column : String) {n : Nat} {s : String}
    (h : s.length ≤ n) : fitColumn strict column n s = .ok s := by
  have hd : s.data.drop n = [] := List.drop_eq_nil_of_le h
  simp [fitColumn, hd, cutColumn_of_le h]

/-- An assignment that succeeds stores the value cut to the width of the column. -/
theorem fitColumn_ok {strict : Bool} {column : String} {n : Nat} {s v : String}
    (h : fitColumn strict column n s = .ok v) : v = cutColumn n s := by
  unfold fitColumn at h
  split at h
  · cases h
  · simpa using h.symm

/-- Outside strict mode every assignment succeeds. -/
theorem fitColumn_not_strict (column : String) (n : Nat) (s : String) :
    fitColumn false column n s = .ok (cutColumn n s) := by
  simp [fitColumn]

/-- An assignment fails only in strict mode, with error 1406, for a value longer than the
column. -/
theorem fitColumn_error {strict : Bool} {column : String} {n : Nat} {s : String} {err : Error}
    (h : fitColumn strict column n s = .error err) :
    err = .dataTooLong column ∧ strict = true ∧ n < s.length := by
  unfold fitColumn at h
  split at h
  · rename_i hc
    simp only [Bool.and_eq_true, List.any_eq_true] at hc
    obtain ⟨hs, c, hmem, -⟩ := hc
    refine ⟨by simpa using h.symm, hs, ?_⟩
    by_contra hle
    have hd : s.data.drop n = [] := List.drop_eq_nil_of_le (by simpa using hle)
    simp [hd] at hmem
  · cases h

/-- Rows of a table with the same value of a unique key are the same row. -/
theorem uniqueKey.eq_of_key_eq {ρ κ : Type} {rows : List ρ} {key : ρ → κ}
    (h : uniqueKey (some rows) key) {x y : ρ} (hx : x ∈ rows) (hy : y ∈ rows)
    (hk : key x = key y) : x = y :=
  List.inj_on_of_nodup_map h hx hy hk

/-- No `Create` method writes the table `user_role`. -/
theorem CreateCall.run_user_role (db : DB) (now : Int) (c : CreateCall) :
    (c.run db now).user_role = db.user_role := by
  cases c <;>
    simp only [CreateCall.run, UserRepository.Create, RoleRepository.Create,
      AccessRepository.Create, userRoleRepository.Create, RoleAccessRepository.Create] <;>
    split <;> (try rfl) <;> split <;> (try rfl) <;> split <;> rfl

/-- A history of `Create` calls leaves the table `user_role` as it was. -/
theorem createAll_user_role (db : DB) (calls : List (Int × CreateCall)) :
    (createAll db calls).user_role = db.user_role := by
  induction calls generalizing db with
  | nil => rfl
  | cons c cs ih =>
    show (createAll (c.2.run db c.1) cs).user_role = db.user_role
    rw [ih, CreateCall.run_user_role]

/-- With `user_role` missing or empty, `GetAllAccess` fails for every user. -/
theorem GetAllAccess_error_of_user_role (db : DB) (u : Int)
    (h : db.user_role = none ∨ db.user_role = some []) :
    ∃ err, userRoleRepository.GetAllAccess db u = .error err := by
  unfold userRoleRepository.GetAllAccess userRoleRepository.GetAllAccess.query
  rcases h with h | h <;> rw [h]
  · exact ⟨_, rfl⟩
  · cases db.role <;> cases db.access_role <;> cases db.access <;> simp

theorem mem_joinedRows {user_role : List UserRolesRow} {role : List RolesRow}
    {access_role : List AccessRoleRow} {access : List AccessRow} {userID : Int}
    {x : Int × String} :
    x ∈ joinedRows user_role role access_role access userID ↔
      ∃ ur ∈ user_role, ur.user_id = userID ∧ ∃ r ∈ role, ur.role_id = r.role_id ∧
        ∃ ar ∈ access_role, r.role_id = ar.role_id ∧
          ∃ a ∈ access, ar.access_id = a.access_id ∧ (a.access_id, a.access_name) = x := by
  simp only [joinedRows, List.mem_flatMap, List.mem_filter, List.mem_map, decide_eq_true_eq]
  constructor
  · rintro ⟨ur, ⟨h1, h2⟩, r, ⟨h3, h4⟩, ar, ⟨h5, h6⟩, a, ⟨h7, h8⟩, h9⟩
    exact ⟨ur, h1, h2, r, h3, h4, ar, h5, h6, a, h7, h8, h9⟩
  · rintro ⟨ur, h1, h2, r, h3, h4, ar, h5, h6, a, h7, h8, h9⟩
    exact ⟨ur, ⟨h1, h2⟩, r, ⟨h3, h4⟩, ar, ⟨h5, h6⟩, a, ⟨h7, h8⟩, h9⟩

theorem query_eq {db : DB} {user_role : List UserRolesRow} {role : List RolesRow}
    {access_role : List AccessRoleRow} {access : List AccessRow}
    (h1 : db.user_role = some user_role) (h2 : db.role = some role)
    (h3 : db.access_role = some access_role) (h4 : db.access = some access) (u : Int) :
    userRoleRepository.GetAllAccess.query db u =
      .ok (joinedRows user_role role access_role access u).dedup := by
  simp only [userRoleRepository.GetAllAccess.query, h1, h2, h3, h4, joinedRows]

theorem query_ok_iff {db : DB} {u : Int} {rows : List (Int × String)} :
    userRoleRepository.GetAllAccess.query db u = .ok rows ↔
      ∃ user_role role access_role access,
        db.user_role = some user_role ∧ db.role = some role ∧
        db.access_role = some access_role ∧ db.access = some access ∧
        rows = (joinedRows user_role role access_role access u).dedup := by
  constructor
  · intro h
    cases h1 : db.user_role with
    | none => simp [userRoleRepository.GetAllAccess.query, h1] at h
    | some ur =>
    cases h2 : db.role with
    | none => simp [userRoleRepository.GetAllAccess.query, h1, h2] at h
    | some r =>
    cases h3 : db.access_role with
    | none => simp [userRoleRepository.GetAllAccess.query, h1, h2, h3] at h
    | some ar =>
    cases h4 : db.access with
    | none => simp [userRoleRepository.GetAllAccess.query, h1, h2, h3, h4] at h
    | some a =>
      rw [query_eq h1 h2 h3 h4] at h
      injection h with h
      exact ⟨ur, r, ar, a, rfl, rfl, rfl, rfl, h.symm⟩
  · rintro ⟨ur, r, ar, a, h1, h2, h3, h4, rfl⟩
    exact query_eq h1 h2 h3 h4 u

theorem GetAllAccess_ok_iff {db : DB} {u : Int} {accesses : List Access} :
    userRoleRepository.GetAllAccess db u = .ok accesses ↔
      ∃ rows, userRoleRepository.GetAllAccess.query db u = .ok rows ∧ rows ≠ [] ∧
        accesses = rows.map (fun row => ({ ID := row.1, Name := row.2 } : Access)) := by
  unfold userRoleRepository.GetAllAccess
  cases hq : userRoleRepository.GetAllAccess.query db u with
  | error err => simp
  | ok rows =>
    by_cases hr : rows = []
    · subst hr; simp
    · simp [hr, eq_comm]

theorem joinedRows_fst_inj {user_role : List UserRolesRow} {role : List RolesRow}
    {access_role : List AccessRoleRow} {access : List AccessRow} {u : Int}
    (hpk : uniqueKey (some access) AccessRow.access_id) {x y : Int × String}
    (hx : x ∈ joinedRows user_role role access_role access u)
    (hy : y ∈ joinedRows user_role role access_role access u) (h : x.1 = y.1) : x = y := by
  obtain ⟨_, _, _, _, _, _, _, _, _, a, ha, _, rfl⟩ := mem_joinedRows.1 hx
  obtain ⟨_, _, _, _, _, _, _, _, _, b, hb, _, rfl⟩ := mem_joinedRows.1 hy
  have : a = b := hpk.eq_of_key_eq ha hb h
  rw [this]

theorem query_nodup_ids {db : DB} {u : Int} {rows : List (Int × String)}
    (hpk : uniqueKey db.access AccessRow.access_id)
    (h : userRoleRepository.GetAllAccess.query db u = .ok rows) :
    (rows.map Prod.fst).Nodup := by
  obtain ⟨ur, r, ar, a, -, -, -, h4, rfl⟩ := query_ok_iff.1 h
  rw [h4] at hpk
  refine List.Nodup.map_on ?_ (List.nodup_dedup _)
  intro x hx y hy hxy
  exact joinedRows_fst_inj hpk (List.mem_dedup.1 hx) (List.mem_dedup.1 hy) hxy

theorem GetAllAccess_nodup_ids {db : DB} {u : Int} {accesses : List Access}
    (hpk : uniqueKey db.access AccessRow.access_id)
    (h : userRoleRepository.GetAllAccess db u = .ok accesses) :
    (accesses.map repositories.Access.ID).Nodup := by
  obtain ⟨rows, hq, -, rfl⟩ := GetAllAccess_ok_iff.1 h
  have := query_nodup_ids hpk hq
  simpa [List.map_map, Function.comp_def] using this

theorem mem_GetAllAccess {db : DB} {u : Int} {accesses : List Access}
    (h : userRoleRepository.GetAllAccess db u = .ok accesses) (x : Access) :
    x ∈ accesses ↔
      ∃ ur ∈ db.user_role.getD [], ur.user_id = u ∧
        ∃ r ∈ db.role.getD [], ur.role_id = r.role_id ∧
          ∃ ar ∈ db.access_role.getD [], r.role_id = ar.role_id ∧
            ∃ a ∈ db.access.getD [], ar.access_id = a.access_id ∧
              x = ⟨a.access_id, a.access_name⟩ := by
  obtain ⟨rows, hq, -, rfl⟩ := GetAllAccess_ok_iff.1 h
  obtain ⟨ur, r, ar, a, h1, h2, h3, h4, rfl⟩ := query_ok_iff.1 hq
  simp only [h1, h2, h3, h4, Option.getD_some, List.mem_map, List.mem_dedup, mem_joinedRows]
  constructor
  · rintro ⟨_, ⟨ur, hur, hu, r, hr, hrr, ar, har, harr, a, ha, haa, rfl⟩, rfl⟩
    exact ⟨ur, hur, hu, r, hr, hrr, ar, har, harr, a, ha, haa, rfl⟩
  · rintro ⟨ur, hur, hu, r, hr, hrr, ar, har, harr, a, ha, haa, rfl⟩
    exact ⟨_, ⟨ur, hur, hu, r, hr, hrr, ar, har, harr, a, ha, haa, rfl⟩, rfl⟩

/-- When the four joined tables exist and the join has a row, `GetAllAccess` succeeds. -/
theorem GetAllAccess_ok_of_mem {db : DB} {u : Int} {ur : UserRolesRow} {r : RolesRow}
    {ar : AccessRoleRow} {a : AccessRow}
    (hur : ur ∈ db.user_role.getD []) (hu : ur.user_id = u)
    (hr : r ∈ db.role.getD []) (hrr : ur.role_id = r.role_id)
    (har : ar ∈ db.access_role.getD []) (harr : r.role_id = ar.role_id)
    (ha : a ∈ db.access.getD []) (haa : ar.access_id = a.access_id) :
    ∃ accesses, userRoleRepository.GetAllAccess db u = .ok accesses := by
  cases h1 : db.user_role with
  | none => simp [h1] at hur
  | some urs =>
  cases h2 : db.role with
  | none => simp [h2] at hr
  | some rs =>
  cases h3 : db.access_role with
  | none => simp [h3] at har
  | some ars =>
  cases h4 : db.access with
  | none => simp [h4] at ha
  | some as =>
    rw [h1] at hur; rw [h2] at hr; rw [h3] at har; rw [h4] at ha
    simp only [Option.getD_some] at hur hr har ha
    have hmem : (a.access_id, a.access_name) ∈ (joinedRows urs rs ars as u).dedup :=
      List.mem_dedup.2 (mem_joinedRows.2 ⟨ur, hur, hu, r, hr, hrr, ar, har, harr, a, ha, haa, rfl⟩)
    refine ⟨_, GetAllAccess_ok_iff.2 ⟨_, query_eq h1 h2 h3 h4 u, ?_, rfl⟩⟩
    exact List.ne_nil_of_mem hmem

/-! ## Lemmas: lookups in `users` -/

/-- In a table with a unique key, looking a stored row up by its key finds that row. -/
theorem find?_key_of_mem {ρ κ : Type} [DecidableEq κ] {rows : List ρ} {key : ρ → κ}
    (h : uniqueKey (some rows) key) {r : ρ} (hr : r ∈ rows) :
    rows.find? (fun x => decide (key x = key r)) = some r := by
  cases hf : rows.find? (fun x => decide (key x = key r)) with
  | none =>
    rw [List.find?_eq_none] at hf
    exact absurd (by simp) (hf r hr)
  | some x =>
    have hx : key x = key r := by simpa using List.find?_some hf
    rw [h.eq_of_key_eq (List.mem_of_find?_eq_some hf) hr hx]

theorem GetUserByUserName_eq (db : DB) (userName : String) :
    UserRepository.GetUserByUserName db userName =
      match db.users with
      | none => .error (.tableMissing "users")
      | some rows =>
        match rows.find? (fun r => decide (r.user_name = userName)) with
        | none => .error (.New "invalid user name")
        | some r => .ok ⟨r.user_id, r.user_name, r.mobile, r.email_id⟩ := by
  unfold UserRepository.GetUserByUserName queryRow
  cases db.users with
  | none => simp
  | some rows =>
    cases hf : rows.find? (fun r => decide (r.user_name = userName)) <;> simp [hf]

theorem GetPassword_eq (db : DB) (id : Int) :
    UserRepository.GetPassword db id =
      match db.users with
      | none => .error (.tableMissing "users")
      | some rows =>
        match rows.find? (fun r => decide (r.user_id = id)) with
        | none => .error (.New "invalid user id")
        | some r => .ok r.password := by
  unfold UserRepository.GetPassword queryRow
  cases db.users with
  | none => simp
  | some rows =>
    cases hf : rows.find? (fun r => decide (r.user_id = id)) <;> simp [hf]

/-- Under the unique key on `user_name`, a stored row is the one its name looks up. -/
theorem GetUserByUserName_of_mem {db : DB} {r : UsersRow}
    (hname : uniqueKey db.users UsersRow.user_name) (hr : r ∈ db.users.getD []) :
    UserRepository.GetUserByUserName db r.user_name =
      .ok ⟨r.user_id, r.user_name, r.mobile, r.email_id⟩ := by
  rw [GetUserByUserName_eq]
  cases hu : db.users with
  | none => simp [hu] at hr
  | some rows =>
    rw [hu] at hname hr
    simp only [Option.getD_some] at hr
    simp only [find?_key_of_mem hname hr]

/-- Under the primary key on `user_id`, a stored row is the one its id looks up. -/
theorem GetPassword_of_mem {db : DB} {r : UsersRow}
    (hid : uniqueKey db.users UsersRow.user_id) (hr : r ∈ db.users.getD []) :
    UserRepository.GetPassword db r.user_id = .ok r.password := by
  rw [GetPassword_eq]
  cases hu : db.users with
  | none => simp [hu] at hr
  | some rows =>
    rw [hu] at hid hr
    simp only [Option.getD_some] at hr
    simp only [find?_key_of_mem hid hr]

/-- A successful `GetUserByUserName` returns the columns of a stored row with that name. -/
theorem GetUserByUserName_ok {db : DB} {userName : String} {user : User}
    (h : UserRepository.GetUserByUserName db userName = .ok user) :
    ∃ r ∈ db.users.getD [], r.user_name = userName ∧
      user = ⟨r.user_id, r.user_name, r.mobile, r.email_id⟩ := by
  rw [GetUserByUserName_eq] at h
  cases hu : db.users with
  | none => simp [hu] at h
  | some rows =>
    simp only [hu] at h
    cases hf : rows.find? (fun r => decide (r.user_name = userName)) with
    | none => simp [hf] at h
    | some r =>
      simp only [hf] at h
      injection h with h
      exact ⟨r, by simpa using List.mem_of_find?_eq_some hf,
        by simpa using List.find?_some hf, h.symm⟩

/-- When no stored row has the name, `GetUserByUserName` fails; with the table present
the error is "invalid user name". -/
theorem GetUserByUserName_of_not_mem {db : DB} {userName : String} {rows : List UsersRow}
    (hu : db.users = some rows) (h : ∀ r ∈ rows, r.user_name ≠ userName) :
    UserRepository.GetUserByUserName db userName = .error (.New "invalid user name") := by
  rw [GetUserByUserName_eq]
  simp only [hu]
  have : rows.find? (fun r => decide (r.user_name = userName)) = none := by
    rw [List.find?_eq_none]
    intro r hr
    simpa using h r hr
  simp only [this]

/-! ## Lemmas: login -/

/-- Twenty-four hours later the Unix timestamp is 86400 larger. -/
theorem Time.unix_add_day (now : Time) :
    (now.Add (Time.Hour * 24)).Unix = now.Unix + 86400 := by
  unfold Time.Add Time.Unix Time.Hour
  rw [Int.fdiv_eq_ediv _ (by decide), Int.fdiv_eq_ediv _ (by decide)]
  omega

/-- The accesses `LoginExecutor.Controller` holds after
`access, _ := e.UserRoleRepo.GetAllAccess(user.ID)`. -/
theorem login_access_eq (r : Except Error (List Access)) :
    (match r with
      | .ok accesses => accesses
      | .error _ => []) = r.toOption.getD [] := by
  cases r <;> rfl

/-- With the user found and the stored hash equal to the hash of the supplied password,
the login calls the signer on the four claims. -/
theorem Controller_of_credentials {MD5Hash : String → String} {e : LoginExecutor} {db : DB}
    {user : User} (now : Time)
    (huser : UserRepository.GetUserByUserName db e.UserName = .ok user)
    (hpw : UserRepository.GetPassword db user.ID = .ok (MD5Hash e.Password)) :
    LoginExecutor.signs MD5Hash e db now
      [("user_id", .int user.ID), ("username", .string user.UserName),
       ("access", .accessSlice ((userRoleRepository.GetAllAccess db user.ID).toOption.getD [])),
       ("exp", .int64 (now.Unix + 86400))] := by
  intro CreateJWT
  simp only [LoginExecutor.Controller, huser, hpw, ne_eq, not_true_eq_false, if_false,
    login_access_eq, Time.unix_add_day]

/-- A failed lookup of the user name is the result of the login. -/
theorem Controller_of_user_error {utils : Utils} {e : LoginExecutor} {db : DB} {err : Error}
    (now : Time) (huser : UserRepository.GetUserByUserName db e.UserName = .error err) :
    LoginExecutor.Controller utils e db now = .error err := by
  simp only [LoginExecutor.Controller, huser]

/-- A stored hash that differs from the hash of the supplied password ends the login
with "invalid username or password". -/
theorem Controller_of_mismatch {utils : Utils} {e : LoginExecutor} {db : DB} {user : User}
    {password : String} (now : Time)
    (huser : UserRepository.GetUserByUserName db e.UserName = .ok user)
    (hpw : UserRepository.GetPassword db user.ID = .ok password)
    (hne : password ≠ utils.MD5Hash e.Password) :
    LoginExecutor.Controller utils e db now = .error (.New "invalid username or password") := by
  simp only [LoginExecutor.Controller, huser, hpw, ne_eq, hne, not_false_eq_true, if_true]

/-- A login that reaches token issuance does not fail when the signer succeeds. -/
theorem signs_not_error {MD5Hash : String → String} {e : LoginExecutor} {db : DB} {now : Time}
    {claims : MapClaims} (h : LoginExecutor.signs MD5Hash e db now claims) (err : Error) :
    LoginExecutor.Controller ⟨MD5Hash, fun _ _ => .ok ""⟩ e db now ≠ .error err := by
  rw [h]
  simp

/-- The claims a login reaches token issuance with are determined. -/
theorem signs_unique {MD5Hash : String → String} {e : LoginExecutor} {db : DB} {now : Time}
    {c1 c2 : MapClaims} (h1 : LoginExecutor.signs MD5Hash e db now c1)
    (h2 : LoginExecutor.signs MD5Hash e db now c2) : c1 = c2 := by
  by_contra hne
  have h := (h1 (fun _ c => if c = c1 then .ok "1" else .ok "2")).symm.trans
    (h2 (fun _ c => if c = c1 then .ok "1" else .ok "2"))
  simp [Ne.symm hne] at h

/-- A successful login found the user and the stored hash of the supplied password. -/
theorem Controller_ok {utils : Utils} {e : LoginExecutor} {db : DB} {now : Time}
    {tok : List (String × String)}
    (h : LoginExecutor.Controller utils e db now = .ok tok) :
    ∃ user, UserRepository.GetUserByUserName db e.UserName = .ok user ∧
      UserRepository.GetPassword db user.ID = .ok (utils.MD5Hash e.Password) := by
  cases hu : UserRepository.GetUserByUserName db e.UserName with
  | error err => rw [Controller_of_user_error now hu] at h; cases h
  | ok user =>
    cases hp : UserRepository.GetPassword db user.ID with
    | error err => simp [LoginExecutor.Controller, hu, hp] at h
    | ok password =>
      by_cases hne : password = utils.MD5Hash e.Password
      · exact ⟨user, rfl, hne ▸ hp⟩
      · rw [Controller_of_mismatch now hu hp hne] at h; cases h

/-! ## Lemmas: password change -/

/-- The row `UPDATE users SET password = ?, updated_date = NOW()` writes. -/
theorem UpdatePassword_eq (db : DB) (now userID : Int) (password : String) :
    UserRepository.UpdatePassword db now userID password =
      match db.users with
      | none => (db, some (.tableMissing "users"))
      | some rows =>
        ({ db with users := some (rows.map fun r =>
            if r.user_id = userID then { r with password := password, updated_date := now }
            else r) },
         if (rows.filter fun r => decide (r.user_id = userID) &&
              (db.foundRows ||
                decide ({ r with password := password, updated_date := now } ≠ r))).length = 0
         then some (.New "no rows were affected during the update") else none) := by
  unfold UserRepository.UpdatePassword execUpdate
  cases db.users with
  | none => rfl
  | some rows =>
    simp only [decide_eq_true_eq]
    split <;> rfl

/-- After a successful `UpdatePassword` the stored hash of the user is the new one, and
user names are looked up as before. -/
theorem UpdatePassword_ok {db db' : DB} {now userID : Int} {password : String}
    (h : UserRepository.UpdatePassword db now userID password = (db', none)) :
    UserRepository.GetPassword db' userID = .ok password ∧
    ∀ userName, UserRepository.GetUserByUserName db' userName =
      UserRepository.GetUserByUserName db userName := by
  rw [UpdatePassword_eq] at h
  cases hu : db.users with
  | none => simp [hu] at h
  | some rows =>
    simp only [hu, Prod.mk.injEq] at h
    obtain ⟨hdb, herr⟩ := h
    have hex : ∃ r ∈ rows, r.user_id = userID := by
      by_contra hno
      simp only [not_exists, not_and] at hno
      have : (rows.filter fun r => decide (r.user_id = userID) &&
          (db.foundRows ||
            decide ({ r with password := password, updated_date := now } ≠ r))) = [] := by
        rw [List.filter_eq_nil_iff]
        intro r hr
        simp [hno r hr]
      rw [this] at herr
      simp at herr
    subst hdb
    constructor
    · rw [GetPassword_eq]
      simp only [List.find?_map]
      obtain ⟨r, hr, hrid⟩ := hex
      cases hf : rows.find? ((fun r : UsersRow => decide (r.user_id = userID)) ∘ fun r =>
          if r.user_id = userID then { r with password := password, updated_date := now }
          else r) with
      | none =>
        rw [List.find?_eq_none] at hf
        exact absurd (by simp [hrid]) (hf r hr)
      | some x =>
        have hx := List.find?_some hf
        by_cases hxid : x.user_id = userID
        · simp [hxid]
        · simp [hxid] at hx
    · intro userName
      rw [GetUserByUserName_eq, GetUserByUserName_eq]
      simp only [hu, List.find?_map]
      have hp : ((fun r : UsersRow => decide (r.user_name = userName)) ∘ fun r =>
          if r.user_id = userID then { r with password := password, updated_date := now }
          else r) = fun r => decide (r.user_name = userName) := by
        funext r
        by_cases hr : r.user_id = userID <;> simp [hr]
      rw [hp]
      cases rows.find? (fun r => decide (r.user_name = userName)) with
      | none => rfl
      | some x => by_cases hx : x.user_id = userID <;> simp [hx]

/-- A successful password change passed the check of the old password and ran
`UpdatePassword` with the hash of the new one. -/
theorem UpdateUserPassword_ok {utils : Utils} {e : UserPassword} {db db' : DB} {now : Int}
    (h : UpdateUserPasswordExecutor.Controller utils e db now = (db', none)) :
    UserRepository.GetPassword db e.ID = .ok (utils.MD5Hash e.OldPassword) ∧
    UserRepository.UpdatePassword db now e.ID (utils.MD5Hash e.Password) = (db', none) := by
  unfold UpdateUserPasswordExecutor.Controller at h
  cases hp : UserRepository.GetPassword db e.ID with
  | error err => simp [hp] at h
  | ok password =>
    simp only [hp] at h
    by_cases hne : utils.MD5Hash e.OldPassword = password
    · simp only [hne, ne_eq, not_true_eq_false, if_false] at h
      exact ⟨by rw [hne], h⟩
    · simp [hne] at h

/-! ## Lemmas: the key constraints are invariants -/

/-- Appending a row whose key no stored row has keeps the key unique. -/
theorem uniqueKey_append {ρ κ : Type} {rows : List ρ} {key : ρ → κ} {x : ρ}
    (h : uniqueKey (some rows) key) (hx : ∀ r ∈ rows, key r ≠ key x) :
    uniqueKey (some (rows ++ [x])) key := by
  unfold uniqueKey at *
  simp only [Option.getD_some, List.map_append, List.map_cons, List.map_nil] at *
  rw [List.nodup_append]
  refine ⟨h, List.nodup_singleton _, ?_⟩
  intro a ha hb
  obtain ⟨r, hr, rfl⟩ := List.mem_map.1 ha
  exact hx r hr (by simpa using hb)

/-- The store right after the `CreateTable` statements satisfies the constraints. -/
theorem DB.created_WF (strict foreignKeyChecks foundRows : Bool) :
    (DB.created strict foreignKeyChecks foundRows).WF := by
  simp [DB.created, DB.WF, uniqueKey]

/-- Method `UserRepository.Create` keeps the constraints. -/
theorem UserRepository.Create_user_WF {db : DB} (now : Int) (user : User) (hwf : db.WF) :
    (UserRepository.Create db now user).1.WF := by
  unfold UserRepository.Create
  cases hu : db.users with
  | none => simpa using hwf
  | some rows =>
    simp only
    split
    · exact hwf
    split
    · exact hwf
    rename_i hs hdup
    obtain ⟨h1, h2, h3, h4, h5, h6, h7, h8, h9, h10, h11⟩ := hwf
    rw [hu] at h1 h2 h9
    simp only [Option.getD_some] at h9
    simp only [List.any_eq_true, decide_eq_true_eq, not_exists, not_and] at hdup
    refine ⟨uniqueKey_append h1 ?_, uniqueKey_append h2 ?_, h3, h4, h5, h6, h7, h8, ?_, h10, h11⟩
    · intro r hr
      exact ne_of_lt (h9 r hr)
    · intro r hr
      exact hdup r hr
    · intro r hr
      simp only [Option.getD_some, List.mem_append, List.mem_singleton] at hr
      rcases hr with hr | rfl
      · have := h9 r hr
        show r.user_id < db.users_auto + 1
        omega
      · show db.users_auto < db.users_auto + 1
        omega

/-- Method `RoleRepository.Create` keeps the constraints. -/
theorem RoleRepository.Create_role_WF {db : DB} (now : Int) (role : Role) (hwf : db.WF) :
    (RoleRepository.Create db now role).1.WF := by
  unfold RoleRepository.Create
  cases hu : db.roles with
  | none => simpa using hwf
  | some rows =>
    split
    · exact hwf
    rename_i rows' hrows
    cases hrows
    split
    · exact hwf
    split
    · exact hwf
    rename_i hdup
    obtain ⟨h1, h2, h3, h4, h5, h6, h7, h8, h9, h10, h11⟩ := hwf
    rw [hu] at h3 h4 h10
    simp only [Option.getD_some] at h10
    simp only [List.any_eq_true, decide_eq_true_eq, not_exists, not_and] at hdup
    refine ⟨h1, h2, uniqueKey_append h3 ?_, uniqueKey_append h4 ?_, h5, h6, h7, h8, h9, ?_, h11⟩
    · intro r hr
      exact ne_of_lt (h10 r hr)
    · intro r hr
      exact hdup r hr
    · intro r hr
      simp only [Option.getD_some, List.mem_append, List.mem_singleton] at hr
      rcases hr with hr | rfl
      · have := h10 r hr
        show r.role_id < db.roles_auto + 1
        omega
      · show db.roles_auto < db.roles_auto + 1
        omega

/-- Method `AccessRepository.Create` keeps the constraints. -/
theorem AccessRepository.Create_access_WF {db : DB} (now : Int) (access : Access) (hwf : db.WF) :
    (AccessRepository.Create db now access).1.WF := by
  unfold AccessRepository.Create
  cases hu : db.access with
  | none => simpa using hwf
  | some rows =>
    split
    · exact hwf
    rename_i rows' hrows
    cases hrows
    split
    · exact hwf
    split
    · exact hwf
    rename_i hdup
    obtain ⟨h1, h2, h3, h4, h5, h6, h7, h8, h9, h10, h11⟩ := hwf
    rw [hu] at h5 h6 h11
    simp only [Option.getD_some] at h11
    simp only [List.any_eq_true, decide_eq_true_eq, not_exists, not_and] at hdup
    refine ⟨h1, h2, h3, h4, uniqueKey_append h5 ?_, uniqueKey_append h6 ?_, h7, h8, h9, h10, ?_⟩
    · intro r hr
      exact ne_of_lt (h11 r hr)
    · intro r hr
      exact hdup r hr
    · intro r hr
      simp only [Option.getD_some, List.mem_append, List.mem_singleton] at hr
      rcases hr with hr | rfl
      · have := h11 r hr
        show r.access_id < db.access_auto + 1
        omega
      · show db.access_auto < db.access_auto + 1
        omega

/-- Method `userRoleRepository.Create` keeps the constraints. -/
theorem userRoleRepository.Create_membership_WF {db : DB} (now : Int) (ur : UserRole) (hwf : db.WF) :
    (userRoleRepository.Create db now ur).1.WF := by
  unfold userRoleRepository.Create
  cases hu : db.user_roles with
  | none => simpa using hwf
  | some rows =>
    simp only
    split
    · exact hwf
    split
    · exact hwf
    rename_i hdup _
    obtain ⟨h1, h2, h3, h4, h5, h6, h7, h8, h9, h10, h11⟩ := hwf
    rw [hu] at h7
    simp only [List.any_eq_true, decide_eq_true_eq, not_exists, not_and] at hdup
    refine ⟨h1, h2, h3, h4, h5, h6, uniqueKey_append h7 ?_, h8, h9, h10, h11⟩
    intro r hr heq
    simp only [Prod.mk.injEq] at heq
    exact hdup r hr heq.1 heq.2

/-- Method `RoleAccessRepository.Create` keeps the constraints. -/
theorem RoleAccessRepository.Create_grant_WF {db : DB} (now : Int) (ra : RoleAccess)
    (hwf : db.WF) : (RoleAccessRepository.Create db now ra).1.WF := by
  unfold RoleAccessRepository.Create
  cases hu : db.access_role with
  | none => simpa using hwf
  | some rows =>
    simp only
    split
    · exact hwf
    split
    · exact hwf
    rename_i hdup _
    obtain ⟨h1, h2, h3, h4, h5, h6, h7, h8, h9, h10, h11⟩ := hwf
    rw [hu] at h8
    simp only [List.any_eq_true, decide_eq_true_eq, not_exists, not_and] at hdup
    refine ⟨h1, h2, h3, h4, h5, h6, h7, uniqueKey_append h8 ?_, h9, h10, h11⟩
    intro r hr heq
    simp only [Prod.mk.injEq] at heq
    exact hdup r hr heq.1 heq.2

/-- Every `Create` call keeps the constraints. -/
theorem CreateCall.run_WF {db : DB} (now : Int) (c : CreateCall) (hwf : db.WF) :
    (c.run db now).WF := by
  cases c with
  | user u => exact UserRepository.Create_user_WF now u hwf
  | role r => exact RoleRepository.Create_role_WF now r hwf
  | access a => exact AccessRepository.Create_access_WF now a hwf
  | userRole ur => exact userRoleRepository.Create_membership_WF now ur hwf
  | roleAccess ra => exact RoleAccessRepository.Create_grant_WF now ra hwf

/-- A history of `Create` calls keeps the constraints. -/
theorem createAll_WF {db : DB} (calls : List (Int × CreateCall)) (hwf : db.WF) :
    (createAll db calls).WF := by
  induction calls generalizing db with
  | nil => exact hwf
  | cons c cs ih => exact ih (CreateCall.run_WF c.1 c.2 hwf)

/-- Method `UserRepository.UpdatePassword` keeps the constraints. -/
theorem UserRepository.UpdatePassword_WF {db : DB} (now userID : Int) (password : String)
    (hwf : db.WF) : (UserRepository.UpdatePassword db now userID password).1.WF := by
  rw [UpdatePassword_eq]
  cases hu : db.users with
  | none => simpa using hwf
  | some rows =>
    obtain ⟨h1, h2, h3, h4, h5, h6, h7, h8, h9, h10, h11⟩ := hwf
    rw [hu] at h1 h2 h9
    have hid : (rows.map fun r =>
        if r.user_id = userID then { r with password := password, updated_date := now }
        else r).map UsersRow.user_id = rows.map UsersRow.user_id := by
      rw [List.map_map]
      apply List.map_congr_left
      intro r _
      by_cases hr : r.user_id = userID <;> simp [hr]
    have hnm : (rows.map fun r =>
        if r.user_id = userID then { r with password := password, updated_date := now }
        else r).map UsersRow.user_name = rows.map UsersRow.user_name := by
      rw [List.map_map]
      apply List.map_congr_left
      intro r _
      by_cases hr : r.user_id = userID <;> simp [hr]
    refine ⟨?_, ?_, h3, h4, h5, h6, h7, h8, ?_, h10, h11⟩
    · simpa [uniqueKey, hid] using h1
    · simpa [uniqueKey, hnm] using h2
    · intro r hr
      simp only [Option.getD_some, List.mem_map] at hr
      obtain ⟨r0, hr0, rfl⟩ := hr
      have := h9 r0 (by simpa using hr0)
      by_cases hr : r0.user_id = userID <;> simpa [hr] using this

/-! ## Claims -/

/-- Claim C1, on the code: `GetAllAccess` does not read what `Create` writes.  The query
joins the tables `user_role` and `role`, while `userRoleRepository.Create` inserts into
`user_roles` and `RoleRepository.Create` into `roles`.  From any store in which
`user_role` is missing or empty (no `CreateTable` statement creates that table),
after any history of `Create` calls, `GetAllAccess` fails for every user: it never
returns the accesses granted through the created memberships. -/
theorem getAllAccess_blind_to_created_memberships (db : DB) (calls : List (Int × CreateCall))
    (u : Int) (h : db.user_role = none ∨ db.user_role = some []) :
    ∃ err, userRoleRepository.GetAllAccess (createAll db calls) u = .error err :=
  GetAllAccess_error_of_user_role _ u (by rw [createAll_user_role]; exact h)

/-- The example of the specification, built by `Create` calls: alice's two
memberships and the five grants are stored, and `GetAllAccess` for alice fails with
the missing table `user_role` instead of returning read, write, delete and export. -/
theorem getAllAccess_blind_to_created_memberships_witness :
    ((DB.created false false false).user_role = none ∨
      (DB.created false false false).user_role = some []) ∧
    (createAll (DB.created false false false) aliceCalls).user_roles =
      some [⟨1, 1, 999, 107, 107⟩, ⟨1, 2, 999, 108, 108⟩] ∧
    (createAll (DB.created false false false) aliceCalls).access_role =
      some [⟨1, 1, 109, 109⟩, ⟨1, 2, 110, 110⟩, ⟨1, 3, 111, 111⟩,
            ⟨2, 1, 112, 112⟩, ⟨2, 4, 113, 113⟩] ∧
    userRoleRepository.GetAllAccess (createAll (DB.created false false false) aliceCalls) 1 =
      .error (.tableMissing "user_role") ∧
    ∃ err, userRoleRepository.GetAllAccess
      (createAll (DB.created false false false) aliceCalls) 1 = .error err :=
  ⟨Or.inl rfl, rfl, rfl, rfl,
    getAllAccess_blind_to_created_memberships _ aliceCalls 1 (Or.inl rfl)⟩

/-- Claim C2: when the primary key of `access` holds, a successful `GetAllAccess` has
no two entries with the same access id; and a user who holds two distinct roles that
both grant an access gets a successful result in which that access occurs exactly
once.  Memberships and grants are rows of the tables the query reads. -/
theorem getAllAccess_distinct_by_id (db : DB) (u : Int)
    (hpk : uniqueKey db.access AccessRow.access_id) :
    (∀ accesses, userRoleRepository.GetAllAccess db u = .ok accesses →
      (accesses.map repositories.Access.ID).Nodup) ∧
    (∀ (ur1 ur2 : UserRolesRow) (r1 r2 : RolesRow) (ar1 ar2 : AccessRoleRow) (a : AccessRow),
      ur1 ∈ db.user_role.getD [] → ur1.user_id = u →
      ur2 ∈ db.user_role.getD [] → ur2.user_id = u →
      r1 ∈ db.role.getD [] → ur1.role_id = r1.role_id →
      r2 ∈ db.role.getD [] → ur2.role_id = r2.role_id →
      r1.role_id ≠ r2.role_id →
      ar1 ∈ db.access_role.getD [] → r1.role_id = ar1.role_id →
      ar2 ∈ db.access_role.getD [] → r2.role_id = ar2.role_id →
      a ∈ db.access.getD [] → ar1.access_id = a.access_id → ar2.access_id = a.access_id →
      ∃ accesses, userRoleRepository.GetAllAccess db u = .ok accesses ∧
        accesses.count ⟨a.access_id, a.access_name⟩ = 1 ∧
        (accesses.map repositories.Access.ID).count a.access_id = 1) := by
  refine ⟨fun accesses h => GetAllAccess_nodup_ids hpk h, ?_⟩
  intro ur1 ur2 r1 r2 ar1 ar2 a hur1 hu1 _ _ hr1 hrr1 _ _ _ har1 harr1 _ _ ha haa1 _
  obtain ⟨accesses, hok⟩ := GetAllAccess_ok_of_mem hur1 hu1 hr1 hrr1 har1 harr1 ha haa1
  have hnd := GetAllAccess_nodup_ids hpk hok
  have hmem : (⟨a.access_id, a.access_name⟩ : Access) ∈ accesses :=
    (mem_GetAllAccess hok _).2 ⟨ur1, hur1, hu1, r1, hr1, hrr1, ar1, har1, harr1, a, ha, haa1, rfl⟩
  refine ⟨accesses, hok, ?_, ?_⟩
  · exact List.count_eq_one_of_mem (List.Nodup.of_map _ hnd) hmem
  · exact List.count_eq_one_of_mem hnd (List.mem_map.2 ⟨_, hmem, rfl⟩)

/-- In `aliceStore` alice reaches "read" through Admin and through Viewer; the result
has four entries with distinct ids and "read" once. -/
theorem getAllAccess_distinct_by_id_witness :
    uniqueKey aliceStore.access AccessRow.access_id ∧
    userRoleRepository.GetAllAccess aliceStore 1 =
      .ok [⟨2, "write"⟩, ⟨3, "delete"⟩, ⟨1, "read"⟩, ⟨4, "export"⟩] ∧
    ∃ accesses, userRoleRepository.GetAllAccess aliceStore 1 = .ok accesses ∧
      accesses.count ⟨1, "read"⟩ = 1 ∧ (accesses.map repositories.Access.ID).count 1 = 1 :=
  ⟨by decide, rfl,
    (getAllAccess_distinct_by_id aliceStore 1 (by decide)).2
      ⟨1, 1, 999, 107, 107⟩ ⟨1, 2, 999, 108, 108⟩ ⟨1, "Admin", 101, 101⟩ ⟨2, "Viewer", 102, 102⟩
      ⟨1, 1, 109, 109⟩ ⟨2, 1, 112, 112⟩ ⟨1, "read", 103, 103⟩
      (by decide) rfl (by decide) rfl (by decide) rfl (by decide) rfl (by decide)
      (by decide) rfl (by decide) rfl (by decide) rfl rfl⟩

/-- Claim C3, on the code: on the stores that the repositories build, a user with zero
memberships does not get "no access found for the user".  The query of `GetAllAccess` reads
the table `user_role`, which no `CreateTable` statement creates and no `Create` writes (the
memberships are rows of `user_roles`): after any history of `Create` calls on the created
tables `GetAllAccess` returns the missing-table error for every user.  On every store,
whenever the query yields no row the result is the error "no access found for the user",
`GetAllAccess` never returns a successful empty list, and every successful result is
non-empty. -/
theorem getAllAccess_without_membership (db : DB) (u : Int) :
    (∀ strict foreignKeyChecks foundRows calls,
      db = createAll (DB.created strict foreignKeyChecks foundRows) calls →
      userRoleRepository.GetAllAccess db u = .error (.tableMissing "user_role") ∧
      userRoleRepository.GetAllAccess db u ≠ .error (.New "no access found for the user")) ∧
    (userRoleRepository.GetAllAccess.query db u = .ok [] →
      userRoleRepository.GetAllAccess db u = .error (.New "no access found for the user")) ∧
    userRoleRepository.GetAllAccess db u ≠ .ok [] ∧
    (∀ accesses, userRoleRepository.GetAllAccess db u = .ok accesses → accesses ≠ []) := by
  have hne : ∀ accesses, userRoleRepository.GetAllAccess db u = .ok accesses →
      accesses ≠ [] := by
    intro accesses h
    obtain ⟨rows, -, hr, rfl⟩ := GetAllAccess_ok_iff.1 h
    simpa using hr
  have hempty : userRoleRepository.GetAllAccess.query db u = .ok [] →
      userRoleRepository.GetAllAccess db u = .error (.New "no access found for the user") := by
    intro h
    simp [userRoleRepository.GetAllAccess, h]
  refine ⟨?_, hempty, fun h => hne [] h rfl, hne⟩
  intro strict foreignKeyChecks foundRows calls hdb
  have hur : db.user_role = none := by
    rw [hdb, createAll_user_role]
    rfl
  have hres : userRoleRepository.GetAllAccess db u = .error (.tableMissing "user_role") := by
    simp [userRoleRepository.GetAllAccess, userRoleRepository.GetAllAccess.query, hur]
  rw [hres]
  exact ⟨rfl, by simp⟩

/-- The example of the specification built by `Create` calls, followed by the creation of
bob: bob is user 2 and no row of `user_roles` is his, and `GetAllAccess` for bob returns the
missing-table error.  In `aliceStore`, where the table `user_role` exists, the query for bob
yields no row and the result is "no access found for the user". -/
theorem getAllAccess_without_membership_witness :
    (createAll (DB.created false false false)
        (aliceCalls ++ [(114, .user ⟨0, "bob", "5550101", "bob@example.org"⟩)])).users =
      some [⟨1, "alice", "5550100", "alice@example.org", "", 100, 100⟩,
            ⟨2, "bob", "5550101", "bob@example.org", "", 114, 114⟩] ∧
    (∀ ur ∈ (createAll (DB.created false false false)
        (aliceCalls ++ [(114, .user ⟨0, "bob", "5550101", "bob@example.org"⟩)])).user_roles.getD [],
      ur.user_id ≠ 2) ∧
    userRoleRepository.GetAllAccess
        (createAll (DB.created false false false)
          (aliceCalls ++ [(114, .user ⟨0, "bob", "5550101", "bob@example.org"⟩)])) 2 =
      .error (.tableMissing "user_role") ∧
    userRoleRepository.GetAllAccess.query aliceStore 2 = .ok [] ∧
    userRoleRepository.GetAllAccess aliceStore 2 =
      .error (.New "no access found for the user") :=
  ⟨rfl, by decide,
    ((getAllAccess_without_membership _ 2).1 false false false
      (aliceCalls ++ [(114, .user ⟨0, "bob", "5550101", "bob@example.org"⟩)]) rfl).1,
    rfl, (getAllAccess_without_membership aliceStore 2).2.1 rfl⟩

/-- Claim C4: under the key constraints of `users`, the login reaches token issuance
exactly when a stored user has the supplied user name and a stored hash equal to
`MD5Hash` of the supplied password; when the user exists and the hashes differ the
result is the error "invalid username or password", whatever the signer. -/
theorem login_credential_check (MD5Hash : String → String) (e : LoginExecutor) (db : DB)
    (now : Time) (hid : uniqueKey db.users UsersRow.user_id)
    (hname : uniqueKey db.users UsersRow.user_name) :
    ((∃ claims, LoginExecutor.signs MD5Hash e db now claims) ↔
      ∃ r ∈ db.users.getD [], r.user_name = e.UserName ∧ r.password = MD5Hash e.Password) ∧
    (∀ r ∈ db.users.getD [], r.user_name = e.UserName → r.password ≠ MD5Hash e.Password →
      ∀ CreateJWT, LoginExecutor.Controller ⟨MD5Hash, CreateJWT⟩ e db now =
        .error (.New "invalid username or password")) := by
  have key : ∀ r ∈ db.users.getD [], r.user_name = e.UserName →
      UserRepository.GetUserByUserName db e.UserName =
        .ok ⟨r.user_id, r.user_name, r.mobile, r.email_id⟩ ∧
      UserRepository.GetPassword db r.user_id = .ok r.password := by
    intro r hr hn
    exact ⟨hn ▸ GetUserByUserName_of_mem hname hr, GetPassword_of_mem hid hr⟩
  refine ⟨⟨?_, ?_⟩, ?_⟩
  · rintro ⟨claims, hs⟩
    cases hu : UserRepository.GetUserByUserName db e.UserName with
    | error err => exact absurd (Controller_of_user_error now hu) (signs_not_error hs err)
    | ok user =>
      obtain ⟨r, hr, hn, rfl⟩ := GetUserByUserName_ok hu
      refine ⟨r, hr, hn, ?_⟩
      by_contra hne
      exact absurd (Controller_of_mismatch now hu (key r hr hn).2 hne) (signs_not_error hs _)
  · rintro ⟨r, hr, hn, hp⟩
    exact ⟨_, Controller_of_credentials now (key r hr hn).1 (hp ▸ (key r hr hn).2)⟩
  · intro r hr hn hne CreateJWT
    exact Controller_of_mismatch now (key r hr hn).1 (key r hr hn).2 hne

/-- In `aliceStore` alice logs in with "wonderland" and is refused with "wrong". -/
theorem login_credential_check_witness :
    uniqueKey aliceStore.users UsersRow.user_id ∧
    uniqueKey aliceStore.users UsersRow.user_name ∧
    (∃ claims, LoginExecutor.signs exampleUtils.MD5Hash ⟨"alice", "wonderland", "key"⟩
      aliceStore 1700000000000000000 claims) ∧
    LoginExecutor.Controller exampleUtils ⟨"alice", "wonderland", "key"⟩ aliceStore
      1700000000000000000 = .ok [("token", "key/4")] ∧
    LoginExecutor.Controller exampleUtils ⟨"alice", "wrong", "key"⟩ aliceStore
      1700000000000000000 = .error (.New "invalid username or password") :=
  ⟨by decide, by decide,
    (login_credential_check exampleUtils.MD5Hash ⟨"alice", "wonderland", "key"⟩ aliceStore
      1700000000000000000 (by decide) (by decide)).1.2
      ⟨⟨1, "alice", "5550100", "alice@example.org", "md5:wonderland", 100, 100⟩,
        by decide, rfl, by decide⟩,
    rfl,
    (login_credential_check exampleUtils.MD5Hash ⟨"alice", "wrong", "key"⟩ aliceStore
      1700000000000000000 (by decide) (by decide)).2
      ⟨1, "alice", "5550100", "alice@example.org", "md5:wonderland", 100, 100⟩
      (by decide) rfl (by decide) exampleUtils.CreateJWT⟩

/-- Claim C5, on the code: the two failures are told apart.  With an existing user name
and a wrong password the login returns "invalid username or password"; with a user
name that no stored row has it returns the error of `GetUserByUserName`,
"invalid user name".  The two error values differ. -/
theorem login_errors_differ (utils : Utils) (db : DB) (known unknown : LoginExecutor)
    (now : Time) (hid : uniqueKey db.users UsersRow.user_id)
    (hname : uniqueKey db.users UsersRow.user_name)
    (hknown : ∃ r ∈ db.users.getD [], r.user_name = known.UserName ∧
      r.password ≠ utils.MD5Hash known.Password)
    (hunknown : ∀ r ∈ db.users.getD [], r.user_name ≠ unknown.UserName) :
    LoginExecutor.Controller utils known db now =
      .error (.New "invalid username or password") ∧
    LoginExecutor.Controller utils unknown db now = .error (.New "invalid user name") ∧
    LoginExecutor.Controller utils known db now ≠
      LoginExecutor.Controller utils unknown db now := by
  obtain ⟨r, hr, hn, hp⟩ := hknown
  have h1 : LoginExecutor.Controller utils known db now =
      .error (.New "invalid username or password") :=
    Controller_of_mismatch now (hn ▸ GetUserByUserName_of_mem hname hr)
      (GetPassword_of_mem hid hr) hp
  have h2 : LoginExecutor.Controller utils unknown db now =
      .error (.New "invalid user name") := by
    cases hu : db.users with
    | none => simp [hu] at hr
    | some rows =>
      rw [hu] at hunknown
      exact Controller_of_user_error now (GetUserByUserName_of_not_mem hu hunknown)
  refine ⟨h1, h2, ?_⟩
  rw [h1, h2]
  simp

/-- In `aliceStore`: alice with a wrong password against carol, who is not stored. -/
theorem login_errors_differ_witness :
    LoginExecutor.Controller exampleUtils ⟨"alice", "wrong", "key"⟩ aliceStore 0 =
      .error (.New "invalid username or password") ∧
    LoginExecutor.Controller exampleUtils ⟨"carol", "wrong", "key"⟩ aliceStore 0 =
      .error (.New "invalid user name") ∧
    LoginExecutor.Controller exampleUtils ⟨"alice", "wrong", "key"⟩ aliceStore 0 ≠
      LoginExecutor.Controller exampleUtils ⟨"carol", "wrong", "key"⟩ aliceStore 0 :=
  login_errors_differ exampleUtils aliceStore ⟨"alice", "wrong", "key"⟩
    ⟨"carol", "wrong", "key"⟩ 0 (by decide) (by decide)
    ⟨⟨1, "alice", "5550100", "alice@example.org", "md5:wonderland", 100, 100⟩,
      by decide, rfl, by decide⟩
    (by decide)

/-- Claim C6: when the credentials are correct and `GetAllAccess` fails, the login still
calls the signer, with the access claim holding the empty list, and returns the token
the signer produces. -/
theorem login_survives_access_failure (MD5Hash : String → String) (e : LoginExecutor)
    (db : DB) (now : Time) (user : User) (err : Error)
    (huser : UserRepository.GetUserByUserName db e.UserName = .ok user)
    (hpw : UserRepository.GetPassword db user.ID = .ok (MD5Hash e.Password))
    (hacc : userRoleRepository.GetAllAccess db user.ID = .error err) :
    LoginExecutor.signs MD5Hash e db now
      [("user_id", .int user.ID), ("username", .string user.UserName),
       ("access", .accessSlice []), ("exp", .int64 (now.Unix + 86400))] ∧
    (∀ CreateJWT tokenString,
      CreateJWT e.SecretKey
        [("user_id", GoValue.int user.ID), ("username", .string user.UserName),
         ("access", .accessSlice []), ("exp", .int64 (now.Unix + 86400))] = .ok tokenString →
      LoginExecutor.Controller ⟨MD5Hash, CreateJWT⟩ e db now = .ok [("token", tokenString)]) := by
  have hs := Controller_of_credentials now huser hpw
  rw [hacc] at hs
  refine ⟨hs, ?_⟩
  intro CreateJWT tokenString ht
  have := hs CreateJWT
  simp only [Except.toOption, Option.getD_none] at this
  rw [this, ht]

/-- In `aliceStore` bob holds no role: `GetAllAccess` fails and bob still gets a
token. -/
theorem login_survives_access_failure_witness :
    userRoleRepository.GetAllAccess aliceStore 2 =
      .error (.New "no access found for the user") ∧
    LoginExecutor.Controller exampleUtils ⟨"bob", "builder", "key"⟩ aliceStore 0 =
      .ok [("token", "key/4")] :=
  ⟨rfl,
    (login_survives_access_failure exampleUtils.MD5Hash ⟨"bob", "builder", "key"⟩ aliceStore 0
      ⟨2, "bob", "5550101", "bob@example.org"⟩ _ rfl rfl rfl).2 exampleUtils.CreateJWT _ rfl⟩

/-- Claim C7: a successful login at time `now` passed to the signer claims with exactly
the keys user_id, username, access and exp; user_id and username are the id and the
user name of the stored user that the supplied user name looks up, and exp is the Unix
timestamp of `now` plus 86400. -/
theorem login_claims (MD5Hash : String → String)
    (CreateJWT : String → MapClaims → Except Error String) (e : LoginExecutor) (db : DB)
    (now : Time) (tok : List (String × String))
    (h : LoginExecutor.Controller ⟨MD5Hash, CreateJWT⟩ e db now = .ok tok) :
    ∃ user claims,
      UserRepository.GetUserByUserName db e.UserName = .ok user ∧
      LoginExecutor.signs MD5Hash e db now claims ∧
      (∃ tokenString, CreateJWT e.SecretKey claims = .ok tokenString ∧
        tok = [("token", tokenString)]) ∧
      claims.map Prod.fst = ["user_id", "username", "access", "exp"] ∧
      claims.lookup "user_id" = some (.int user.ID) ∧
      claims.lookup "username" = some (.string user.UserName) ∧
      claims.lookup "exp" = some (.int64 (now.Unix + 86400)) := by
  obtain ⟨user, hu, hp⟩ := Controller_ok h
  have hs := Controller_of_credentials now hu hp
  refine ⟨user, _, hu, hs, ?_, rfl, rfl, rfl, rfl⟩
  rw [hs CreateJWT] at h
  split at h
  · cases h
  · rename_i tokenString ht
    injection h with h
    exact ⟨tokenString, ht, h.symm⟩

/-- Alice logs in half a second after Unix time 1700000000: the login succeeds and exp
is 1700086400. -/
theorem login_claims_witness :
    LoginExecutor.Controller exampleUtils ⟨"alice", "wonderland", "key"⟩ aliceStore
      1700000000500000000 = .ok [("token", "key/4")] ∧
    Time.Unix 1700000000500000000 + 86400 = 1700086400 ∧
    ∃ user claims,
      UserRepository.GetUserByUserName aliceStore "alice" = .ok user ∧
      LoginExecutor.signs exampleUtils.MD5Hash ⟨"alice", "wonderland", "key"⟩ aliceStore
        1700000000500000000 claims ∧
      (∃ tokenString, exampleUtils.CreateJWT "key" claims = .ok tokenString ∧
        [("token", "key/4")] = [("token", tokenString)]) ∧
      claims.map Prod.fst = ["user_id", "username", "access", "exp"] ∧
      claims.lookup "user_id" = some (.int user.ID) ∧
      claims.lookup "username" = some (.string user.UserName) ∧
      claims.lookup "exp" = some (.int64 (Time.Unix 1700000000500000000 + 86400)) :=
  ⟨rfl, by decide,
    login_claims exampleUtils.MD5Hash exampleUtils.CreateJWT ⟨"alice", "wonderland", "key"⟩
      aliceStore 1700000000500000000 [("token", "key/4")] rfl⟩

/-- Claim C8 as stated fails: alice logs in successfully; the access claim passed to the
signer holds the four `Access` records, with their ids, and not the list of the four
access names; the login does not sign the claims in which access is that list. -/
theorem access_claim_holds_records_not_names :
    LoginExecutor.Controller exampleUtils ⟨"alice", "wonderland", "key"⟩ aliceStore 0 =
      .ok [("token", "key/4")] ∧
    userRoleRepository.GetAllAccess aliceStore 1 =
      .ok [⟨2, "write"⟩, ⟨3, "delete"⟩, ⟨1, "read"⟩, ⟨4, "export"⟩] ∧
    (∃ claims, LoginExecutor.signs exampleUtils.MD5Hash ⟨"alice", "wonderland", "key"⟩
        aliceStore 0 claims ∧
      claims.lookup "access" =
        some (.accessSlice [⟨2, "write"⟩, ⟨3, "delete"⟩, ⟨1, "read"⟩, ⟨4, "export"⟩]) ∧
      claims.lookup "access" ≠ some (.stringSlice ["write", "delete", "read", "export"])) ∧
    ¬ LoginExecutor.signs exampleUtils.MD5Hash ⟨"alice", "wonderland", "key"⟩ aliceStore 0
        [("user_id", .int 1), ("username", .string "alice"),
         ("access", .stringSlice ["write", "delete", "read", "export"]),
         ("exp", .int64 86400)] :=
  ⟨rfl, rfl,
    ⟨_, @Controller_of_credentials exampleUtils.MD5Hash ⟨"alice", "wonderland", "key"⟩
        aliceStore ⟨1, "alice", "5550100", "alice@example.org"⟩ 0 rfl rfl,
      rfl, by decide⟩,
    fun h => absurd
      (signs_unique h
        (@Controller_of_credentials exampleUtils.MD5Hash ⟨"alice", "wonderland", "key"⟩
          aliceStore ⟨1, "alice", "5550100", "alice@example.org"⟩ 0 rfl rfl))
      (by decide)⟩

/-- Claim C8, amended: a successful login passed to the signer, as the access claim, the
slice of `Access` records (id and name) that `GetAllAccess` returned for the user, the
empty slice when `GetAllAccess` failed; under the primary key of `access` no two of the
records have the same id. -/
theorem login_access_claim (MD5Hash : String → String)
    (CreateJWT : String → MapClaims → Except Error String) (e : LoginExecutor) (db : DB)
    (now : Time) (tok : List (String × String))
    (hpk : uniqueKey db.access AccessRow.access_id)
    (h : LoginExecutor.Controller ⟨MD5Hash, CreateJWT⟩ e db now = .ok tok) :
    ∃ user claims accesses,
      UserRepository.GetUserByUserName db e.UserName = .ok user ∧
      LoginExecutor.signs MD5Hash e db now claims ∧
      claims.lookup "access" = some (.accessSlice accesses) ∧
      accesses = (userRoleRepository.GetAllAccess db user.ID).toOption.getD [] ∧
      (accesses.map repositories.Access.ID).Nodup := by
  obtain ⟨user, hu, hp⟩ := Controller_ok h
  refine ⟨user, _, _, hu, Controller_of_credentials now hu hp, rfl, rfl, ?_⟩
  cases hg : userRoleRepository.GetAllAccess db user.ID with
  | error err => simp [Except.toOption]
  | ok accesses => simpa [Except.toOption] using GetAllAccess_nodup_ids hpk hg

/-- Alice's login in `aliceStore`. -/
theorem login_access_claim_witness :
    uniqueKey aliceStore.access AccessRow.access_id ∧
    ∃ user claims accesses,
      UserRepository.GetUserByUserName aliceStore "alice" = .ok user ∧
      LoginExecutor.signs exampleUtils.MD5Hash ⟨"alice", "wonderland", "key"⟩ aliceStore 0
        claims ∧
      claims.lookup "access" = some (.accessSlice accesses) ∧
      accesses = (userRoleRepository.GetAllAccess aliceStore user.ID).toOption.getD [] ∧
      (accesses.map repositories.Access.ID).Nodup :=
  ⟨by decide,
    login_access_claim exampleUtils.MD5Hash exampleUtils.CreateJWT
      ⟨"alice", "wonderland", "key"⟩ aliceStore 0 [("token", "key/4")] (by decide) rfl⟩

/-- Claim C9: when the stored hash of the user is not `MD5Hash` of the supplied old
password, or `GetPassword` fails because the user has no row, the controller returns
an error and the store is the one before the call. -/
theorem password_update_rejected (utils : Utils) (e : UserPassword) (db : DB) (now : Int)
    (h : UserRepository.GetPassword db e.ID ≠ .ok (utils.MD5Hash e.OldPassword)) :
    (∃ err, UpdateUserPasswordExecutor.Controller utils e db now = (db, some err)) ∧
    (∀ password, UserRepository.GetPassword db e.ID = .ok password →
      UpdateUserPasswordExecutor.Controller utils e db now =
        (db, some (.New "incorrect old password"))) ∧
    ((∀ r ∈ db.users.getD [], r.user_id ≠ e.ID) → db.users ≠ none →
      UpdateUserPasswordExecutor.Controller utils e db now =
        (db, some (.New "invalid user id"))) := by
  have hmis : ∀ password, UserRepository.GetPassword db e.ID = .ok password →
      UpdateUserPasswordExecutor.Controller utils e db now =
        (db, some (.New "incorrect old password")) := by
    intro password hp
    have hne : utils.MD5Hash e.OldPassword ≠ password := by
      intro heq
      exact h (heq ▸ hp)
    simp only [UpdateUserPasswordExecutor.Controller, hp, ne_eq, hne, not_false_eq_true,
      if_true]
  refine ⟨?_, hmis, ?_⟩
  · cases hp : UserRepository.GetPassword db e.ID with
    | error err => exact ⟨err, by simp only [UpdateUserPasswordExecutor.Controller, hp]⟩
    | ok password => exact ⟨_, hmis password hp⟩
  · intro hno hex
    have hp : UserRepository.GetPassword db e.ID = .error (.New "invalid user id") := by
      rw [GetPassword_eq]
      cases hu : db.users with
      | none => exact absurd hu hex
      | some rows =>
        rw [hu] at hno
        have : rows.find? (fun r => decide (r.user_id = e.ID)) = none := by
          rw [List.find?_eq_none]
          intro r hr
          simpa using hno r hr
        simp only [this]
    simp only [UpdateUserPasswordExecutor.Controller, hp]

/-- In `aliceStore`: alice (user 1) with a wrong old password, and user 7, who has no
row. -/
theorem password_update_rejected_witness :
    UserRepository.GetPassword aliceStore 1 ≠ .ok (exampleUtils.MD5Hash "wrong") ∧
    UpdateUserPasswordExecutor.Controller exampleUtils ⟨1, "wrong", "rabbit"⟩ aliceStore 200 =
      (aliceStore, some (.New "incorrect old password")) ∧
    UpdateUserPasswordExecutor.Controller exampleUtils ⟨7, "wonderland", "rabbit"⟩ aliceStore
      200 = (aliceStore, some (.New "invalid user id")) :=
  ⟨by simp [UserRepository.GetPassword, queryRow, aliceStore, exampleUtils],
    (password_update_rejected exampleUtils ⟨1, "wrong", "rabbit"⟩ aliceStore 200
      (by simp [UserRepository.GetPassword, queryRow, aliceStore, exampleUtils])).2.1
      "md5:wonderland" rfl,
    (password_update_rejected exampleUtils ⟨7, "wonderland", "rabbit"⟩ aliceStore 200
      (by simp [UserRepository.GetPassword, queryRow, aliceStore, exampleUtils])).2.2
      (by decide) (by decide)⟩

/-- Claim C10: a successful password change of a stored user found the stored hash equal
to `MD5Hash` of the old password and leaves it equal to `MD5Hash` of the new one; a
later login with the user's name and the new password reaches
token issuance, and a login with the old password, when the two hashes differ, fails
with "invalid username or password".  The check of the old password, the stored value
and the check at login all use `utils.MD5Hash`. -/
theorem password_change_then_login (utils : Utils) (e : UserPassword) (db db' : DB)
    (now : Int) (r : UsersRow) (secretKey : String)
    (hname : uniqueKey db.users UsersRow.user_name)
    (hr : r ∈ db.users.getD []) (hrid : r.user_id = e.ID)
    (h : UpdateUserPasswordExecutor.Controller utils e db now = (db', none)) :
    UserRepository.GetPassword db e.ID = .ok (utils.MD5Hash e.OldPassword) ∧
    UserRepository.GetPassword db' e.ID = .ok (utils.MD5Hash e.Password) ∧
    (∀ now', ∃ claims, LoginExecutor.signs utils.MD5Hash
      ⟨r.user_name, e.Password, secretKey⟩ db' now' claims) ∧
    (utils.MD5Hash e.OldPassword ≠ utils.MD5Hash e.Password →
      ∀ CreateJWT now', LoginExecutor.Controller ⟨utils.MD5Hash, CreateJWT⟩
        ⟨r.user_name, e.OldPassword, secretKey⟩ db' now' =
          .error (.New "invalid username or password")) := by
  obtain ⟨hpw, hlook⟩ := UpdatePassword_ok (UpdateUserPassword_ok h).2
  have huser : UserRepository.GetUserByUserName db' r.user_name =
      .ok ⟨e.ID, r.user_name, r.mobile, r.email_id⟩ := by
    rw [hlook, GetUserByUserName_of_mem hname hr, hrid]
  refine ⟨(UpdateUserPassword_ok h).1, hpw, ?_, ?_⟩
  · intro now'
    exact ⟨_, @Controller_of_credentials utils.MD5Hash ⟨r.user_name, e.Password, secretKey⟩
      db' _ now' huser hpw⟩
  · intro hne CreateJWT now'
    exact @Controller_of_mismatch ⟨utils.MD5Hash, CreateJWT⟩
      ⟨r.user_name, e.OldPassword, secretKey⟩ db' _ _ now' huser hpw (Ne.symm hne)

/-- Alice changes her password from "wonderland" to "rabbit" in `aliceStore`: the change
succeeds, "rabbit" logs her in and "wonderland" no longer does. -/
theorem password_change_then_login_witness :
    uniqueKey aliceStore.users UsersRow.user_name ∧
    (UpdateUserPasswordExecutor.Controller exampleUtils ⟨1, "wonderland", "rabbit"⟩
      aliceStore 200).2 = none ∧
    UserRepository.GetPassword
      (UpdateUserPasswordExecutor.Controller exampleUtils ⟨1, "wonderland", "rabbit"⟩
        aliceStore 200).1 1 = .ok "md5:rabbit" ∧
    LoginExecutor.Controller exampleUtils ⟨"alice", "rabbit", "key"⟩
      (UpdateUserPasswordExecutor.Controller exampleUtils ⟨1, "wonderland", "rabbit"⟩
        aliceStore 200).1 0 = .ok [("token", "key/4")] ∧
    LoginExecutor.Controller exampleUtils ⟨"alice", "wonderland", "key"⟩
      (UpdateUserPasswordExecutor.Controller exampleUtils ⟨1, "wonderland", "rabbit"⟩
        aliceStore 200).1 0 = .error (.New "invalid username or password") :=
  ⟨by decide, rfl,
    (password_change_then_login exampleUtils ⟨1, "wonderland", "rabbit"⟩ aliceStore _ 200
      ⟨1, "alice", "5550100", "alice@example.org", "md5:wonderland", 100, 100⟩ "key"
      (by decide) (by decide) rfl rfl).2.1,
    rfl,
    (password_change_then_login exampleUtils ⟨1, "wonderland", "rabbit"⟩ aliceStore _ 200
      ⟨1, "alice", "5550100", "alice@example.org", "md5:wonderland", 100, 100⟩ "key"
      (by decide) (by decide) rfl rfl).2.2.2 (by decide) exampleUtils.CreateJWT 0⟩

/-! ## Lemmas: the `Create` methods -/

/-- `UserRepository.Create` on a non-strict server with a fresh name. -/
theorem userCreate_of_fresh {db : DB} {rows : List UsersRow} (now : Int) (user : User)
    (hu : db.users = some rows) (hs : db.strict = false)
    (hfresh : ∀ r ∈ rows, r.user_name ≠ cutColumn 255 user.UserName) :
    UserRepository.Create db now user =
      ({ db with
          users := some (rows ++
            [⟨db.users_auto, cutColumn 255 user.UserName, cutColumn 10 user.Mobile,
              cutColumn 255 user.EmailID, "", now, now⟩]),
          users_auto := db.users_auto + 1 },
       { user with ID := db.users_auto }, none) := by
  have hany : rows.any (fun r => decide (r.user_name = cutColumn 255 user.UserName)) = false := by
    rw [List.any_eq_false]
    intro r hr
    simpa using hfresh r hr
  simp only [UserRepository.Create, hu, hs, hany]
  rfl

/-- `UserRepository.Create` on a non-strict server with a stored name. -/
theorem userCreate_of_dup {db : DB} {rows : List UsersRow} (now : Int) (user : User)
    (hu : db.users = some rows) (hs : db.strict = false)
    (hdup : ∃ r ∈ rows, r.user_name = cutColumn 255 user.UserName) :
    UserRepository.Create db now user = (db, user, some (.duplicateEntry "users")) := by
  have hany : rows.any (fun r => decide (r.user_name = cutColumn 255 user.UserName)) = true := by
    rw [List.any_eq_true]
    obtain ⟨r, hr, hn⟩ := hdup
    exact ⟨r, hr, by simpa using hn⟩
  simp only [UserRepository.Create, hu, hs, hany]
  rfl

/-- `UserRepository.Create` on a strict server: the statement names no value for
`password`. -/
theorem userCreate_of_strict {db : DB} {rows : List UsersRow} (now : Int) (user : User)
    (hu : db.users = some rows) (hs : db.strict = true) :
    UserRepository.Create db now user = (db, user, some (.noDefaultValue "password")) := by
  simp [UserRepository.Create, hu, hs]

/-- A successful `UserRepository.Create`. -/
theorem userCreate_ok {db db' : DB} {now : Int} {user user' : User}
    (h : UserRepository.Create db now user = (db', user', none)) :
    ∃ rows, db.users = some rows ∧ db.strict = false ∧
      (∀ r ∈ rows, r.user_name ≠ cutColumn 255 user.UserName) ∧
      db' = { db with
          users := some (rows ++
            [⟨db.users_auto, cutColumn 255 user.UserName, cutColumn 10 user.Mobile,
              cutColumn 255 user.EmailID, "", now, now⟩]),
          users_auto := db.users_auto + 1 } ∧
      user' = { user with ID := db.users_auto } := by
  cases hu : db.users with
  | none => simp [UserRepository.Create, hu] at h
  | some rows =>
    rcases Bool.eq_false_or_eq_true db.strict with hs | hs
    · rw [userCreate_of_strict now user hu hs] at h; simp at h
    · by_cases hdup : ∃ r ∈ rows, r.user_name = cutColumn 255 user.UserName
      · rw [userCreate_of_dup now user hu hs hdup] at h; simp at h
      · have hfresh : ∀ r ∈ rows, r.user_name ≠ cutColumn 255 user.UserName := by
          intro r hr hn
          exact hdup ⟨r, hr, hn⟩
        rw [userCreate_of_fresh now user hu hs hfresh] at h
        simp only [Prod.mk.injEq, and_true] at h
        exact ⟨rows, rfl, hs, hfresh, h.1.symm, h.2.symm⟩

/-- `RoleRepository.Create` with a name that the column rejects. -/
theorem roleCreate_of_long {db : DB} {rows : List RolesRow} {err : Error} (now : Int)
    (role : Role) (hu : db.roles = some rows)
    (hfit : fitColumn db.strict "role_name" 255 role.Name = .error err) :
    RoleRepository.Create db now role = (db, role, some err) := by
  simp only [RoleRepository.Create, hu, hfit]

/-- `RoleRepository.Create` with a fresh name. -/
theorem roleCreate_of_fresh {db : DB} {rows : List RolesRow} {name : String} (now : Int)
    (role : Role) (hu : db.roles = some rows)
    (hfit : fitColumn db.strict "role_name" 255 role.Name = .ok name)
    (hfresh : ∀ r ∈ rows, r.role_name ≠ name) :
    RoleRepository.Create db now role =
      ({ db with
          roles := some (rows ++ [⟨db.roles_auto, name, now, now⟩]),
          roles_auto := db.roles_auto + 1 },
       { role with ID := db.roles_auto }, none) := by
  have hany : rows.any (fun r => decide (r.role_name = name)) = false := by
    rw [List.any_eq_false]
    intro r hr
    simpa using hfresh r hr
  simp only [RoleRepository.Create, hu, hfit, hany]
  rfl

/-- `RoleRepository.Create` with a stored name. -/
theorem roleCreate_of_dup {db : DB} {rows : List RolesRow} {name : String} (now : Int)
    (role : Role) (hu : db.roles = some rows)
    (hfit : fitColumn db.strict "role_name" 255 role.Name = .ok name)
    (hdup : ∃ r ∈ rows, r.role_name = name) :
    RoleRepository.Create db now role = (db, role, some (.duplicateEntry "roles")) := by
  have hany : rows.any (fun r => decide (r.role_name = name)) = true := by
    rw [List.any_eq_true]
    obtain ⟨r, hr, hn⟩ := hdup
    exact ⟨r, hr, by simpa using hn⟩
  simp only [RoleRepository.Create, hu, hfit, hany]
  rfl

/-- A successful `RoleRepository.Create`. -/
theorem roleCreate_ok {db db' : DB} {now : Int} {role role' : Role}
    (h : RoleRepository.Create db now role = (db', role', none)) :
    ∃ rows, db.roles = some rows ∧
      fitColumn db.strict "role_name" 255 role.Name = .ok (cutColumn 255 role.Name) ∧
      (∀ r ∈ rows, r.role_name ≠ cutColumn 255 role.Name) ∧
      db' = { db with
          roles := some (rows ++ [⟨db.roles_auto, cutColumn 255 role.Name, now, now⟩]),
          roles_auto := db.roles_auto + 1 } ∧
      role' = { role with ID := db.roles_auto } := by
  cases hu : db.roles with
  | none => simp [RoleRepository.Create, hu] at h
  | some rows =>
    cases hfit : fitColumn db.strict "role_name" 255 role.Name with
    | error err => rw [roleCreate_of_long now role hu hfit] at h; simp at h
    | ok name =>
      obtain rfl := fitColumn_ok hfit
      by_cases hdup : ∃ r ∈ rows, r.role_name = cutColumn 255 role.Name
      · rw [roleCreate_of_dup now role hu hfit hdup] at h; simp at h
      · have hfresh : ∀ r ∈ rows, r.role_name ≠ cutColumn 255 role.Name := by
          intro r hr hn
          exact hdup ⟨r, hr, hn⟩
        rw [roleCreate_of_fresh now role hu hfit hfresh] at h
        simp only [Prod.mk.injEq, and_true] at h
        exact ⟨rows, rfl, rfl, hfresh, h.1.symm, h.2.symm⟩

/-- `AccessRepository.Create` with a name that the column rejects. -/
theorem accessCreate_of_long {db : DB} {rows : List AccessRow} {err : Error} (now : Int)
    (access : Access) (hu : db.access = some rows)
    (hfit : fitColumn db.strict "access_name" 255 access.Name = .error err) :
    AccessRepository.Create db now access = (db, access, some err) := by
  simp only [AccessRepository.Create, hu, hfit]

/-- `AccessRepository.Create` with a fresh name. -/
theorem accessCreate_of_fresh {db : DB} {rows : List AccessRow} {name : String} (now : Int)
    (access : Access) (hu : db.access = some rows)
    (hfit : fitColumn db.strict "access_name" 255 access.Name = .ok name)
    (hfresh : ∀ r ∈ rows, r.access_name ≠ name) :
    AccessRepository.Create db now access =
      ({ db with
          access := some (rows ++ [⟨db.access_auto, name, now, now⟩]),
          access_auto := db.access_auto + 1 },
       { access with ID := db.access_auto }, none) := by
  have hany : rows.any (fun r => decide (r.access_name = name)) = false := by
    rw [List.any_eq_false]
    intro r hr
    simpa using hfresh r hr
  simp only [AccessRepository.Create, hu, hfit, hany]
  rfl

/-- `AccessRepository.Create` with a stored name. -/
theorem accessCreate_of_dup {db : DB} {rows : List AccessRow} {name : String} (now : Int)
    (access : Access) (hu : db.access = some rows)
    (hfit : fitColumn db.strict "access_name" 255 access.Name = .ok name)
    (hdup : ∃ r ∈ rows, r.access_name = name) :
    AccessRepository.Create db now access = (db, access, some (.duplicateEntry "access")) := by
  have hany : rows.any (fun r => decide (r.access_name = name)) = true := by
    rw [List.any_eq_true]
    obtain ⟨r, hr, hn⟩ := hdup
    exact ⟨r, hr, by simpa using hn⟩
  simp only [AccessRepository.Create, hu, hfit, hany]
  rfl

/-- A successful `AccessRepository.Create`. -/
theorem accessCreate_ok {db db' : DB} {now : Int} {access access' : Access}
    (h : AccessRepository.Create db now access = (db', access', none)) :
    ∃ rows, db.access = some rows ∧
      fitColumn db.strict "access_name" 255 access.Name = .ok (cutColumn 255 access.Name) ∧
      (∀ r ∈ rows, r.access_name ≠ cutColumn 255 access.Name) ∧
      db' = { db with
          access := some (rows ++ [⟨db.access_auto, cutColumn 255 access.Name, now, now⟩]),
          access_auto := db.access_auto + 1 } ∧
      access' = { access with ID := db.access_auto } := by
  cases hu : db.access with
  | none => simp [AccessRepository.Create, hu] at h
  | some rows =>
    cases hfit : fitColumn db.strict "access_name" 255 access.Name with
    | error err => rw [accessCreate_of_long now access hu hfit] at h; simp at h
    | ok name =>
      obtain rfl := fitColumn_ok hfit
      by_cases hdup : ∃ r ∈ rows, r.access_name = cutColumn 255 access.Name
      · rw [accessCreate_of_dup now access hu hfit hdup] at h; simp at h
      · have hfresh : ∀ r ∈ rows, r.access_name ≠ cutColumn 255 access.Name := by
          intro r hr hn
          exact hdup ⟨r, hr, hn⟩
        rw [accessCreate_of_fresh now access hu hfit hfresh] at h
        simp only [Prod.mk.injEq, and_true] at h
        exact ⟨rows, rfl, rfl, hfresh, h.1.symm, h.2.symm⟩

/-- Looking up a key that only the appended row has finds the appended row. -/
theorem find?_append_fresh {ρ : Type} {rows : List ρ} {p : ρ → Bool} {x : ρ}
    (hrows : ∀ r ∈ rows, p r = false) (hx : p x = true) :
    (rows ++ [x]).find? p = some x := by
  have : rows.find? p = none := by
    rw [List.find?_eq_none]
    intro r hr
    simp [hrows r hr]
  simp [List.find?_append, this, hx]

/-! ## Lemmas: `Get` -/

/-- A `QueryRow` on a missing table fails with the missing table. -/
theorem queryRow_missing {ρ : Type} (name : String) (p : ρ → Bool) :
    queryRow name (none : Option (List ρ)) p = .error (.tableMissing name) := rfl

/-- A `QueryRow` that no row matches fails with `sql.ErrNoRows`. -/
theorem queryRow_no_row {ρ : Type} (name : String) {rows : List ρ} {p : ρ → Bool}
    (h : ∀ r ∈ rows, p r = false) : queryRow name (some rows) p = .error .ErrNoRows := by
  have : rows.find? p = none := by
    rw [List.find?_eq_none]
    intro r hr
    simp [h r hr]
  simp [queryRow, this]

/-- A `QueryRow` that some row matches returns a matching row of the table. -/
theorem queryRow_row {ρ : Type} (name : String) {rows : List ρ} {p : ρ → Bool}
    (h : ∃ r ∈ rows, p r = true) :
    ∃ r ∈ rows, p r = true ∧ queryRow name (some rows) p = .ok r := by
  cases hf : rows.find? p with
  | none =>
    rw [List.find?_eq_none] at hf
    obtain ⟨r, hr, hp⟩ := h
    exact absurd hp (hf r hr)
  | some r =>
    exact ⟨r, List.mem_of_find?_eq_some hf, List.find?_some hf, by simp [queryRow, hf]⟩

/-- The three outcomes of a `QueryRow`. -/
theorem queryRow_cases {ρ : Type} (name : String) (table : Option (List ρ)) (p : ρ → Bool) :
    (table = none ∧ queryRow name table p = .error (.tableMissing name)) ∨
    ((∀ r ∈ table.getD [], p r = false) ∧ table ≠ none ∧
      queryRow name table p = .error .ErrNoRows) ∨
    (∃ r ∈ table.getD [], p r = true ∧ queryRow name table p = .ok r) := by
  cases table with
  | none => exact Or.inl ⟨rfl, rfl⟩
  | some rows =>
    by_cases h : ∃ r ∈ rows, p r = true
    · exact Or.inr (Or.inr (queryRow_row name h))
    · refine Or.inr (Or.inl ⟨?_, by simp, ?_⟩)
      · intro r hr
        simp only [Option.getD_some] at hr
        by_contra hp
        exact h ⟨r, hr, by simpa using hp⟩
      · apply queryRow_no_row
        intro r hr
        by_contra hp
        exact h ⟨r, hr, by simpa using hp⟩

/-! ## Lemmas: `Update` and `Delete` -/

/-- An `UPDATE` that affects no row leaves the rows as they are. -/
theorem execUpdate_zero {ρ : Type} [DecidableEq ρ] {foundRows : Bool} {rows : List ρ}
    {p : ρ → Bool} {set : ρ → ρ} (h : (execUpdate foundRows rows p set).2 = 0) :
    (execUpdate foundRows rows p set).1 = rows := by
  simp only [execUpdate, List.length_eq_zero, List.filter_eq_nil_iff, Bool.and_eq_true,
    Bool.or_eq_true, decide_eq_true_eq, not_and, not_or] at h
  simp only [execUpdate]
  have : rows.map (fun r => if p r = true then set r else r) = rows.map id := by
    apply List.map_congr_left
    intro r hr
    by_cases hp : p r = true
    · have := (h r hr hp).2
      simp only [ne_eq, not_not] at this
      simp [hp, this]
    · simp [hp]
  rw [this, List.map_id]

/-- An `UPDATE` whose condition no row meets affects no row. -/
theorem execUpdate_no_match {ρ : Type} [DecidableEq ρ] {foundRows : Bool} {rows : List ρ}
    {p : ρ → Bool} {set : ρ → ρ} (h : ∀ r ∈ rows, p r = false) :
    execUpdate foundRows rows p set = (rows, 0) := by
  have h2 : (execUpdate foundRows rows p set).2 = 0 := by
    simp only [execUpdate, List.length_eq_zero, List.filter_eq_nil_iff]
    intro r hr
    simp [h r hr]
  have h1 := execUpdate_zero h2
  exact Prod.ext h1 h2

/-- A `DELETE` that affects no row leaves the rows as they are. -/
theorem execDelete_zero {ρ : Type} {rows : List ρ} {p : ρ → Bool}
    (h : (execDelete rows p).2 = 0) : (execDelete rows p).1 = rows := by
  simp only [execDelete, List.length_eq_zero, List.filter_eq_nil_iff] at h
  simp only [execDelete, List.filter_eq_self]
  intro r hr
  simpa using h r hr

/-- A `DELETE` whose condition no row meets affects no row. -/
theorem execDelete_no_match {ρ : Type} {rows : List ρ} {p : ρ → Bool}
    (h : ∀ r ∈ rows, p r = false) : execDelete rows p = (rows, 0) := by
  have h2 : (execDelete rows p).2 = 0 := by
    simp only [execDelete, List.length_eq_zero, List.filter_eq_nil_iff]
    intro r hr
    simp [h r hr]
  exact Prod.ext (execDelete_zero h2) h2

/-- Writing back the rows a table holds is no change. -/
theorem DB.set_users_self {db : DB} {rows : List UsersRow} (h : db.users = some rows) :
    { db with users := some rows } = db := by
  cases db
  simp_all

/-- Writing back the rows a table holds is no change. -/
theorem DB.set_roles_self {db : DB} {rows : List RolesRow} (h : db.roles = some rows) :
    { db with roles := some rows } = db := by
  cases db
  simp_all

/-- Writing back the rows a table holds is no change. -/
theorem DB.set_access_self {db : DB} {rows : List AccessRow} (h : db.access = some rows) :
    { db with access := some rows } = db := by
  cases db
  simp_all

/-- When `UserRepository.Update` affects no row the store is unchanged. -/
theorem userUpdate_exec_zero {db db' : DB} {now : Int} {user : User}
    (h : UserRepository.Update.exec db now user = .ok (db', 0)) : db' = db := by
  unfold UserRepository.Update.exec at h
  cases hu : db.users with
  | none => simp [hu] at h
  | some rows =>
    simp only [hu] at h
    split at h
    · split at h
      · cases h
      · split at h
        · cases h
        · injection h with h
          simp only [Prod.mk.injEq] at h
          obtain ⟨hdb, hn⟩ := h
          rw [execUpdate_zero hn] at hdb
          rw [← hdb, DB.set_users_self hu]
    · injection h with h
      simp only [Prod.mk.injEq] at h
      exact h.1.symm

/-- When `UserRepository.Delete` affects no row the store is unchanged. -/
theorem userDelete_exec_zero {db db' : DB} {id : Int}
    (h : UserRepository.Delete.exec db id = .ok (db', 0)) : db' = db := by
  unfold UserRepository.Delete.exec at h
  cases hu : db.users with
  | none => simp [hu] at h
  | some rows =>
    simp only [hu] at h
    split at h
    · cases h
    · injection h with h
      simp only [Prod.mk.injEq] at h
      obtain ⟨hdb, hn⟩ := h
      rw [execDelete_zero hn] at hdb
      rw [← hdb, DB.set_users_self hu]

/-! ## Lemmas: expiry timestamps -/

/-- The join of `GetAllAccess` does not read the expiry timestamps. -/
theorem joinedRows_clear_expiry (user_role : List UserRolesRow) (role : List RolesRow)
    (access_role : List AccessRoleRow) (access : List AccessRow) (u : Int) :
    joinedRows (user_role.map fun r => { r with expiry_date := 0 }) role access_role access u =
      joinedRows user_role role access_role access u := by
  induction user_role with
  | nil => rfl
  | cons x l ih =>
    unfold joinedRows at ih ⊢
    by_cases hx : x.user_id = u
    · simp only [List.map_cons, List.filter_cons, hx, decide_True, if_true, List.flatMap_cons, ih]
    · simp only [List.map_cons, List.filter_cons, hx, decide_False, Bool.false_eq_true,
        if_false, ih]

/-- Tables of memberships that agree up to the expiry timestamps give the same join. -/
theorem joinedRows_of_sameMemberships {l1 l2 : List UserRolesRow}
    (h : sameMemberships (some l1) (some l2)) (role : List RolesRow)
    (access_role : List AccessRoleRow) (access : List AccessRow) (u : Int) :
    joinedRows l1 role access_role access u = joinedRows l2 role access_role access u := by
  simp only [sameMemberships, Option.map_some', Option.some.injEq] at h
  rw [← joinedRows_clear_expiry l1, ← joinedRows_clear_expiry l2, h]

/-- Stores that differ at most in expiry timestamps have the same other tables. -/
theorem DB.sameUpToExpiry.tables {db1 db2 : DB} (h : db1.sameUpToExpiry db2) :
    db1.users = db2.users ∧ db1.role = db2.role ∧ db1.access_role = db2.access_role ∧
    db1.access = db2.access := by
  have h3 := h.2.2
  exact ⟨by simpa using congrArg DB.users h3, by simpa using congrArg DB.role h3,
    by simpa using congrArg DB.access_role h3, by simpa using congrArg DB.access h3⟩

/-- The query of `GetAllAccess` gives the same result on stores that differ at most in
expiry timestamps. -/
theorem query_of_sameUpToExpiry {db1 db2 : DB} (h : db1.sameUpToExpiry db2) (u : Int) :
    userRoleRepository.GetAllAccess.query db1 u = userRoleRepository.GetAllAccess.query db2 u := by
  obtain ⟨-, hr, har, ha⟩ := h.tables
  have hm := h.2.1
  unfold userRoleRepository.GetAllAccess.query
  rw [← hr, ← har, ← ha]
  cases h1 : db1.user_role with
  | none =>
    cases h2 : db2.user_role with
    | none => rfl
    | some l2 => simp [sameMemberships, h1, h2] at hm
  | some l1 =>
    cases h2 : db2.user_role with
    | none => simp [sameMemberships, h1, h2] at hm
    | some l2 =>
      rw [h1, h2] at hm
      cases db1.role with
      | none => rfl
      | some role =>
      cases db1.access_role with
      | none => rfl
      | some access_role =>
      cases db1.access with
      | none => rfl
      | some access =>
        have := joinedRows_of_sameMemberships hm role access_role access u
        simp only [joinedRows] at this
        simp only [this]

/-- Setting every expiry timestamp changes the memberships in nothing else. -/
theorem sameMemberships_withExpiry (t : Int) (table : Option (List UserRolesRow)) :
    sameMemberships table (withExpiry t table) := by
  cases table with
  | none => rfl
  | some rows =>
    simp only [sameMemberships, withExpiry, Option.map_some', Option.some.injEq, List.map_map]
    apply List.map_congr_left
    intro r _
    rfl

/-- The store with every membership unexpired differs from the store at most in expiry
timestamps. -/
theorem DB.sameUpToExpiry_unexpired (db : DB) (now : Int) :
    db.sameUpToExpiry (db.unexpired now) :=
  ⟨sameMemberships_withExpiry _ _, sameMemberships_withExpiry _ _, rfl⟩

/-- In the store with every membership unexpired no membership is expired. -/
theorem DB.unexpired_not_expired (db : DB) (now : Int) :
    (∀ ur ∈ (db.unexpired now).user_roles.getD [], now < ur.expiry_date) ∧
    (∀ ur ∈ (db.unexpired now).user_role.getD [], now < ur.expiry_date) := by
  constructor
  · intro ur hur
    cases h : db.user_roles with
    | none => simp [DB.unexpired, withExpiry, h] at hur
    | some rows =>
      simp only [DB.unexpired, withExpiry, h, Option.map_some', Option.getD_some,
        List.mem_map] at hur
      obtain ⟨r, -, rfl⟩ := hur
      show now < now + 1
      omega
  · intro ur hur
    cases h : db.user_role with
    | none => simp [DB.unexpired, withExpiry, h] at hur
    | some rows =>
      simp only [DB.unexpired, withExpiry, h, Option.map_some', Option.getD_some,
        List.mem_map] at hur
      obtain ⟨r, -, rfl⟩ := hur
      show now < now + 1
      omega

/-! ## Lemmas: `GetAll` after a history of `Create` calls -/

/-- No `Create` method writes the table `user`. -/
theorem CreateCall.run_user (db : DB) (now : Int) (c : CreateCall) :
    (c.run db now).user = db.user := by
  cases c <;>
    simp only [CreateCall.run, UserRepository.Create, RoleRepository.Create,
      AccessRepository.Create, userRoleRepository.Create, RoleAccessRepository.Create] <;>
    split <;> (try rfl) <;> split <;> (try rfl) <;> split <;> rfl

/-- A history of `Create` calls leaves the table `user` as it was. -/
theorem createAll_user (db : DB) (calls : List (Int × CreateCall)) :
    (createAll db calls).user = db.user := by
  induction calls generalizing db with
  | nil => rfl
  | cons c cs ih =>
    show (createAll (c.2.run db c.1) cs).user = db.user
    rw [ih, CreateCall.run_user]

/-- Only `RoleRepository.Create` writes the table `roles`. -/
theorem CreateCall.run_roles (db : DB) (now : Int) (c : CreateCall)
    (h : ∀ r, c ≠ .role r) : (c.run db now).roles = db.roles := by
  cases c <;> first
    | exact absurd rfl (h _)
    | (simp only [CreateCall.run, UserRepository.Create, RoleRepository.Create,
        AccessRepository.Create, userRoleRepository.Create, RoleAccessRepository.Create]
       repeat' split
       all_goals rfl)

/-- Only `AccessRepository.Create` writes the table `access`. -/
theorem CreateCall.run_access (db : DB) (now : Int) (c : CreateCall)
    (h : ∀ a, c ≠ .access a) : (c.run db now).access = db.access := by
  cases c <;> first
    | exact absurd rfl (h _)
    | (simp only [CreateCall.run, UserRepository.Create, RoleRepository.Create,
        AccessRepository.Create, userRoleRepository.Create, RoleAccessRepository.Create]
       repeat' split
       all_goals rfl)

/-- Only `UserRepository.Create` writes the table `users`. -/
theorem CreateCall.run_users (db : DB) (now : Int) (c : CreateCall)
    (h : ∀ u, c ≠ .user u) : (c.run db now).users = db.users := by
  cases c <;> first
    | exact absurd rfl (h _)
    | (simp only [CreateCall.run, UserRepository.Create, RoleRepository.Create,
        AccessRepository.Create, userRoleRepository.Create, RoleAccessRepository.Create]
       repeat' split
       all_goals rfl)

/-- After a history of `Create` calls `RoleRepository.GetAll` returns the stored roles
followed by the created ones, as stored. -/
theorem getAll_roles_createAll (calls : List (Int × CreateCall)) (db : DB)
    (rows : List RolesRow) (hu : db.roles = some rows) :
    RoleRepository.GetAll (createAll db calls) =
      .ok (rows.map (fun r => ({ ID := r.role_id, Name := r.role_name } : Role)) ++
        (createdRoles db calls).map Role.stored) := by
  induction calls generalizing db rows with
  | nil => simp [createAll, createdRoles, RoleRepository.GetAll, queryRows, hu]
  | cons c cs ih =>
    obtain ⟨now, c⟩ := c
    show RoleRepository.GetAll (createAll (c.run db now) cs) = _
    by_cases hc : ∃ r, c = .role r
    · obtain ⟨r, rfl⟩ := hc
      cases hfit : fitColumn db.strict "role_name" 255 r.Name with
      | error err =>
        have hcr := roleCreate_of_long now r hu hfit
        simp only [CreateCall.run, createdRoles, hcr]
        exact ih db rows hu
      | ok name =>
        obtain rfl := fitColumn_ok hfit
        by_cases hdup : ∃ x ∈ rows, x.role_name = cutColumn 255 r.Name
        · have hcr := roleCreate_of_dup now r hu hfit hdup
          simp only [CreateCall.run, createdRoles, hcr]
          exact ih db rows hu
        · have hfresh : ∀ x ∈ rows, x.role_name ≠ cutColumn 255 r.Name :=
            fun x hx hn => hdup ⟨x, hx, hn⟩
          have hcr := roleCreate_of_fresh now r hu hfit hfresh
          simp only [CreateCall.run, createdRoles, hcr]
          rw [ih _ (rows ++ [⟨db.roles_auto, cutColumn 255 r.Name, now, now⟩]) rfl]
          simp [Role.stored]
    · have hne : ∀ r, c ≠ .role r := fun r hr => hc ⟨r, hr⟩
      have hroles := CreateCall.run_roles db now c hne
      have hcr : createdRoles db ((now, c) :: cs) = createdRoles (c.run db now) cs := by
        cases c with
        | role r => exact absurd rfl (hne r)
        | user u => rfl
        | access a => rfl
        | userRole ur => rfl
        | roleAccess ra => rfl
      rw [hcr]
      exact ih (c.run db now) rows (hroles.trans hu)

/-- Method `AccessRepository.GetAll` on a store whose table `access` exists. -/
theorem AccessRepository.GetAll_of_table {db : DB} {rows : List AccessRow}
    (hu : db.access = some rows) :
    AccessRepository.GetAll db =
      (some (rows.map (fun r => ({ ID := r.access_id, Name := r.access_name } : Access))),
        none) := by
  simp [AccessRepository.GetAll, AccessRepository.GetAll.scan, queryAll, queryRows, hu]

/-- After a history of `Create` calls `AccessRepository.GetAll` returns the stored accesses
followed by the created ones, as stored. -/
theorem getAll_access_createAll (calls : List (Int × CreateCall)) (db : DB)
    (rows : List AccessRow) (hu : db.access = some rows) :
    AccessRepository.GetAll (createAll db calls) =
      (some (rows.map (fun r => ({ ID := r.access_id, Name := r.access_name } : Access)) ++
        (createdAccesses db calls).map Access.stored), none) := by
  induction calls generalizing db rows with
  | nil => simp [createAll, createdAccesses, AccessRepository.GetAll_of_table hu]
  | cons c cs ih =>
    obtain ⟨now, c⟩ := c
    show AccessRepository.GetAll (createAll (c.run db now) cs) = _
    by_cases hc : ∃ a, c = .access a
    · obtain ⟨a, rfl⟩ := hc
      cases hfit : fitColumn db.strict "access_name" 255 a.Name with
      | error err =>
        have hcr := accessCreate_of_long now a hu hfit
        simp only [CreateCall.run, createdAccesses, hcr]
        exact ih db rows hu
      | ok name =>
        obtain rfl := fitColumn_ok hfit
        by_cases hdup : ∃ x ∈ rows, x.access_name = cutColumn 255 a.Name
        · have hcr := accessCreate_of_dup now a hu hfit hdup
          simp only [CreateCall.run, createdAccesses, hcr]
          exact ih db rows hu
        · have hfresh : ∀ x ∈ rows, x.access_name ≠ cutColumn 255 a.Name :=
            fun x hx hn => hdup ⟨x, hx, hn⟩
          have hcr := accessCreate_of_fresh now a hu hfit hfresh
          simp only [CreateCall.run, createdAccesses, hcr]
          rw [ih _ (rows ++ [⟨db.access_auto, cutColumn 255 a.Name, now, now⟩]) rfl]
          simp [Access.stored]
    · have hne : ∀ a, c ≠ .access a := fun a ha => hc ⟨a, ha⟩
      have haccess := CreateCall.run_access db now c hne
      have hcr : createdAccesses db ((now, c) :: cs) =
          createdAccesses (c.run db now) cs := by
        cases c with
        | access a => exact absurd rfl (hne a)
        | user u => rfl
        | role r => rfl
        | userRole ur => rfl
        | roleAccess ra => rfl
      rw [hcr]
      exact ih (c.run db now) rows (haccess.trans hu)

/-- After a history of `Create` calls `UserRepository.List` returns the stored users
followed by the created ones, as stored. -/
theorem list_users_createAll (calls : List (Int × CreateCall)) (db : DB)
    (rows : List UsersRow) (hu : db.users = some rows) :
    UserRepository.List (createAll db calls) =
      .ok (rows.map (fun r => (⟨r.user_id, r.user_name, r.mobile, r.email_id⟩ : User)) ++
        (createdUsers db calls).map User.stored) := by
  induction calls generalizing db rows with
  | nil => simp [createAll, createdUsers, UserRepository.List, queryRows, hu]
  | cons c cs ih =>
    obtain ⟨now, c⟩ := c
    show UserRepository.List (createAll (c.run db now) cs) = _
    by_cases hc : ∃ u, c = .user u
    · obtain ⟨u, rfl⟩ := hc
      rcases Bool.eq_false_or_eq_true db.strict with hs | hs
      · have hcr := userCreate_of_strict now u hu hs
        simp only [CreateCall.run, createdUsers, hcr]
        exact ih db rows hu
      · by_cases hdup : ∃ x ∈ rows, x.user_name = cutColumn 255 u.UserName
        · have hcr := userCreate_of_dup now u hu hs hdup
          simp only [CreateCall.run, createdUsers, hcr]
          exact ih db rows hu
        · have hfresh : ∀ x ∈ rows, x.user_name ≠ cutColumn 255 u.UserName :=
            fun x hx hn => hdup ⟨x, hx, hn⟩
          have hcr := userCreate_of_fresh now u hu hs hfresh
          simp only [CreateCall.run, createdUsers, hcr]
          rw [ih _ (rows ++
            [⟨db.users_auto, cutColumn 255 u.UserName, cutColumn 10 u.Mobile,
              cutColumn 255 u.EmailID, "", now, now⟩]) rfl]
          simp [User.stored]
    · have hne : ∀ u, c ≠ .user u := fun u hu' => hc ⟨u, hu'⟩
      have husers := CreateCall.run_users db now c hne
      have hcr : createdUsers db ((now, c) :: cs) = createdUsers (c.run db now) cs := by
        cases c with
        | user u => exact absurd rfl (hne u)
        | access a => rfl
        | role r => rfl
        | userRole ur => rfl
        | roleAccess ra => rfl
      rw [hcr]
      exact ih (c.run db now) rows (husers.trans hu)

/-- Users whose fields fit the columns are stored as they are. -/
theorem map_stored_users {l : List User}
    (h : ∀ u ∈ l, u.UserName.length ≤ 255 ∧ u.Mobile.length ≤ 10 ∧ u.EmailID.length ≤ 255) :
    l.map User.stored = l := by
  have : l.map User.stored = l.map id := by
    apply List.map_congr_left
    intro u hu
    obtain ⟨h1, h2, h3⟩ := h u hu
    simp [User.stored, cutColumn_of_le h1, cutColumn_of_le h2, cutColumn_of_le h3]
  rw [this, List.map_id]

/-- Roles whose names fit the column are stored as they are. -/
theorem map_stored_roles {l : List Role} (h : ∀ r ∈ l, r.Name.length ≤ 255) :
    l.map Role.stored = l := by
  have : l.map Role.stored = l.map id := by
    apply List.map_congr_left
    intro r hr
    simp [Role.stored, cutColumn_of_le (h r hr)]
  rw [this, List.map_id]

/-- Accesses whose names fit the column are stored as they are. -/
theorem map_stored_accesses {l : List Access} (h : ∀ a ∈ l, a.Name.length ≤ 255) :
    l.map Access.stored = l := by
  have : l.map Access.stored = l.map id := by
    apply List.map_congr_left
    intro a ha
    simp [Access.stored, cutColumn_of_le (h a ha)]
  rw [this, List.map_id]

/-! ## Lemmas: where errors come from -/

/-- The five `Create` methods return no error of their own making. -/
theorem create_error_not_new (db : DB) (now : Int) (text : String) :
    (∀ x, (UserRepository.Create db now x).2.2 ≠ some (.New text)) ∧
    (∀ x, (RoleRepository.Create db now x).2.2 ≠ some (.New text)) ∧
    (∀ x, (AccessRepository.Create db now x).2.2 ≠ some (.New text)) ∧
    (∀ x, (userRoleRepository.Create db now x).2 ≠ some (.New text)) ∧
    (∀ x, (RoleAccessRepository.Create db now x).2 ≠ some (.New text)) := by
  refine ⟨?_, ?_, ?_, ?_, ?_⟩ <;> intro x
  · intro h
    cases hu : db.users with
    | none => simp [UserRepository.Create, hu] at h
    | some rows =>
      rcases Bool.eq_false_or_eq_true db.strict with hs | hs
      · rw [userCreate_of_strict now x hu hs] at h
        simp at h
      · by_cases hdup : ∃ r ∈ rows, r.user_name = cutColumn 255 x.UserName
        · rw [userCreate_of_dup now x hu hs hdup] at h
          simp at h
        · rw [userCreate_of_fresh now x hu hs (fun r hr hn => hdup ⟨r, hr, hn⟩)] at h
          simp at h
  · intro h
    cases hu : db.roles with
    | none => simp [RoleRepository.Create, hu] at h
    | some rows =>
      cases hfit : fitColumn db.strict "role_name" 255 x.Name with
      | error err =>
        rw [roleCreate_of_long now x hu hfit, (fitColumn_error hfit).1] at h
        simp at h
      | ok name =>
        by_cases hdup : ∃ r ∈ rows, r.role_name = name
        · rw [roleCreate_of_dup now x hu hfit hdup] at h
          simp at h
        · rw [roleCreate_of_fresh now x hu hfit (fun r hr hn => hdup ⟨r, hr, hn⟩)] at h
          simp at h
  · intro h
    cases hu : db.access with
    | none => simp [AccessRepository.Create, hu] at h
    | some rows =>
      cases hfit : fitColumn db.strict "access_name" 255 x.Name with
      | error err =>
        rw [accessCreate_of_long now x hu hfit, (fitColumn_error hfit).1] at h
        simp at h
      | ok name =>
        by_cases hdup : ∃ r ∈ rows, r.access_name = name
        · rw [accessCreate_of_dup now x hu hfit hdup] at h
          simp at h
        · rw [accessCreate_of_fresh now x hu hfit (fun r hr hn => hdup ⟨r, hr, hn⟩)] at h
          simp at h
  · unfold userRoleRepository.Create
    repeat' split
    all_goals simp
  · unfold RoleAccessRepository.Create
    repeat' split
    all_goals simp

/-- The only error `UpdatePassword` makes itself is the one for zero affected rows. -/
theorem updatePassword_error (db : DB) (now userID : Int) (password text : String)
    (h : (UserRepository.UpdatePassword db now userID password).2 = some (.New text)) :
    text = "no rows were affected during the update" := by
  unfold UserRepository.UpdatePassword at h
  cases hu : db.users with
  | none => simp [hu] at h
  | some rows =>
    simp only [hu] at h
    split at h
    · simpa using h.symm
    · simp at h

/-! ## Claims C11 to C20 -/

/-- Claim C11 as stated fails.  `aliceStore` is a server that is not in strict mode.
`Create` of a user whose mobile has eleven characters succeeds and assigns id 3; the column
`mobile VARCHAR(10)` keeps the first ten, and `Get` of id 3 returns that mobile, which is
not the one of the argument. -/
theorem get_after_create_returns_cut_mobile :
    (UserRepository.Create aliceStore 200
        ⟨0, "carol", "55501020000", "carol@example.org"⟩).2 =
      (⟨3, "carol", "55501020000", "carol@example.org"⟩, none) ∧
    UserRepository.Get
        (UserRepository.Create aliceStore 200
          ⟨0, "carol", "55501020000", "carol@example.org"⟩).1 3 =
      (some ⟨3, "carol", "5550102000", "carol@example.org"⟩, none) ∧
    (⟨3, "carol", "5550102000", "carol@example.org"⟩ : User).Mobile ≠ "55501020000" :=
  ⟨rfl, rfl, by decide⟩

/-- Claim C11, amended: in a store that satisfies the key constraints, when `Create`
succeeds the entity behind the pointer has the fields of the argument and the assigned id,
and `Get` of that id on the resulting store succeeds and returns the row as stored: the
assigned id with the user name, the mobile and the email (the name, for a role or an access)
of the argument cut to the widths of their columns, 255, 10 and 255 characters.  When the
fields of the argument fit these widths `Get` returns the entity behind the pointer. -/
theorem create_then_get (db : DB) (now : Int) (hwf : db.WF) :
    (∀ (e e' : User) (db' : DB), UserRepository.Create db now e = (db', e', none) →
      (e'.UserName = e.UserName ∧ e'.Mobile = e.Mobile ∧ e'.EmailID = e.EmailID) ∧
      UserRepository.Get db' e'.ID =
        (some ⟨e'.ID, cutColumn 255 e.UserName, cutColumn 10 e.Mobile,
          cutColumn 255 e.EmailID⟩, none) ∧
      (e.UserName.length ≤ 255 → e.Mobile.length ≤ 10 → e.EmailID.length ≤ 255 →
        UserRepository.Get db' e'.ID = (some e', none))) ∧
    (∀ (e e' : Role) (db' : DB), RoleRepository.Create db now e = (db', e', none) →
      e'.Name = e.Name ∧
      RoleRepository.Get db' e'.ID = (some ⟨e'.ID, cutColumn 255 e.Name⟩, none) ∧
      (e.Name.length ≤ 255 → RoleRepository.Get db' e'.ID = (some e', none))) ∧
    (∀ (e e' : Access) (db' : DB), AccessRepository.Create db now e = (db', e', none) →
      e'.Name = e.Name ∧
      AccessRepository.Get db' e'.ID = (some ⟨e'.ID, cutColumn 255 e.Name⟩, none) ∧
      (e.Name.length ≤ 255 → AccessRepository.Get db' e'.ID = (some e', none))) := by
  obtain ⟨-, -, -, -, -, -, -, -, h9, h10, h11⟩ := hwf
  refine ⟨?_, ?_, ?_⟩
  · intro e e' db' h
    obtain ⟨rows, hu, -, -, rfl, rfl⟩ := userCreate_ok h
    rw [hu] at h9
    have hf := @find?_append_fresh UsersRow rows
      (fun r => decide (r.user_id = db.users_auto))
      ⟨db.users_auto, cutColumn 255 e.UserName, cutColumn 10 e.Mobile,
        cutColumn 255 e.EmailID, "", now, now⟩
      (fun r hr => by simpa using ne_of_lt (h9 r hr)) (by simp)
    have hget : UserRepository.Get
        { db with
          users := some (rows ++
            [⟨db.users_auto, cutColumn 255 e.UserName, cutColumn 10 e.Mobile,
              cutColumn 255 e.EmailID, "", now, now⟩]),
          users_auto := db.users_auto + 1 } db.users_auto =
        (some ⟨db.users_auto, cutColumn 255 e.UserName, cutColumn 10 e.Mobile,
          cutColumn 255 e.EmailID⟩, none) := by
      simp [UserRepository.Get, queryRow, hf]
    refine ⟨⟨rfl, rfl, rfl⟩, hget, fun h1 h2 h3 => ?_⟩
    rw [hget, cutColumn_of_le h1, cutColumn_of_le h2, cutColumn_of_le h3]
  · intro e e' db' h
    obtain ⟨rows, hu, -, -, rfl, rfl⟩ := roleCreate_ok h
    rw [hu] at h10
    have hf := @find?_append_fresh RolesRow rows
      (fun r => decide (r.role_id = db.roles_auto))
      ⟨db.roles_auto, cutColumn 255 e.Name, now, now⟩
      (fun r hr => by simpa using ne_of_lt (h10 r hr)) (by simp)
    have hget : RoleRepository.Get
        { db with
          roles := some (rows ++ [⟨db.roles_auto, cutColumn 255 e.Name, now, now⟩]),
          roles_auto := db.roles_auto + 1 } db.roles_auto =
        (some ⟨db.roles_auto, cutColumn 255 e.Name⟩, none) := by
      simp [RoleRepository.Get, queryRow, hf]
    refine ⟨rfl, hget, fun h1 => ?_⟩
    rw [hget, cutColumn_of_le h1]
  · intro e e' db' h
    obtain ⟨rows, hu, -, -, rfl, rfl⟩ := accessCreate_ok h
    rw [hu] at h11
    have hf := @find?_append_fresh AccessRow rows
      (fun r => decide (r.access_id = db.access_auto))
      ⟨db.access_auto, cutColumn 255 e.Name, now, now⟩
      (fun r hr => by simpa using ne_of_lt (h11 r hr)) (by simp)
    have hget : AccessRepository.Get
        { db with
          access := some (rows ++ [⟨db.access_auto, cutColumn 255 e.Name, now, now⟩]),
          access_auto := db.access_auto + 1 } db.access_auto =
        (some ⟨db.access_auto, cutColumn 255 e.Name⟩, none) := by
      simp [AccessRepository.Get, queryRow, hf]
    refine ⟨rfl, hget, fun h1 => ?_⟩
    rw [hget, cutColumn_of_le h1]

/-- In `aliceStore`: carol becomes user 3, Editor role 3 and "share" access 5, and `Get`
returns each of them; a mobile of eleven characters comes back with ten. -/
theorem create_then_get_witness :
    aliceStore.WF ∧
    UserRepository.Get
        (UserRepository.Create aliceStore 200 ⟨0, "carol", "5550102", "carol@example.org"⟩).1 3 =
      (some ⟨3, "carol", "5550102", "carol@example.org"⟩, none) ∧
    RoleRepository.Get (RoleRepository.Create aliceStore 200 ⟨0, "Editor"⟩).1 3 =
      (some ⟨3, "Editor"⟩, none) ∧
    AccessRepository.Get (AccessRepository.Create aliceStore 200 ⟨0, "share"⟩).1 5 =
      (some ⟨5, "share"⟩, none) ∧
    UserRepository.Get
        (UserRepository.Create aliceStore 200
          ⟨0, "carol", "55501020000", "carol@example.org"⟩).1 3 =
      (some ⟨3, cutColumn 255 "carol", cutColumn 10 "55501020000",
        cutColumn 255 "carol@example.org"⟩, none) ∧
    cutColumn 10 "55501020000" = "5550102000" :=
  ⟨by decide,
    ((create_then_get aliceStore 200 (by decide)).1
      ⟨0, "carol", "5550102", "carol@example.org"⟩ _ _ rfl).2.2
      (by decide) (by decide) (by decide),
    ((create_then_get aliceStore 200 (by decide)).2.1 ⟨0, "Editor"⟩ _ _ rfl).2.2 (by decide),
    ((create_then_get aliceStore 200 (by decide)).2.2 ⟨0, "share"⟩ _ _ rfl).2.2 (by decide),
    ((create_then_get aliceStore 200 (by decide)).1
      ⟨0, "carol", "55501020000", "carol@example.org"⟩ _ _ rfl).2.1,
    rfl⟩

/-- Claim C12 as stated fails for the user store: user 7 has no row in `aliceStore` and
`UserRepository.Get` returns `nil, nil`, a successful result that carries no entity and
no not-found error. -/
theorem user_get_missing_row_is_nil_nil :
    (∀ r ∈ aliceStore.users.getD [], r.user_id ≠ 7) ∧
    UserRepository.Get aliceStore 7 = (none, none) ∧
    GetUserExecutor.Controller ⟨7, "", "", ""⟩ aliceStore = (none, none) :=
  ⟨by decide, rfl, rfl⟩

/-- Claim C12, amended: for an id with no stored row, `RoleRepository.Get` returns
`sql.ErrNoRows` and `AccessRepository.Get` returns `sql.ErrNoRows` beside a zero `Access`,
while `UserRepository.Get` returns `nil, nil`; each of the three returns an entity without
error exactly when a row with the id is stored, and that entity has the id; the role and
access stores never return a successful result without an entity. -/
theorem get_by_id (db : DB) (id : Int) :
    ((∀ rows, db.roles = some rows → (∀ r ∈ rows, r.role_id ≠ id) →
        RoleRepository.Get db id = (none, some .ErrNoRows)) ∧
      ((∃ role, RoleRepository.Get db id = (some role, none) ∧ role.ID = id) ↔
        ∃ r ∈ db.roles.getD [], r.role_id = id) ∧
      ((RoleRepository.Get db id).2 = none → (RoleRepository.Get db id).1 ≠ none)) ∧
    ((∀ rows, db.access = some rows → (∀ r ∈ rows, r.access_id ≠ id) →
        AccessRepository.Get db id = (some ⟨0, ""⟩, some .ErrNoRows)) ∧
      ((∃ access, AccessRepository.Get db id = (some access, none) ∧ access.ID = id) ↔
        ∃ r ∈ db.access.getD [], r.access_id = id) ∧
      (AccessRepository.Get db id).1 ≠ none) ∧
    ((∀ rows, db.users = some rows → (∀ r ∈ rows, r.user_id ≠ id) →
        UserRepository.Get db id = (none, none)) ∧
      ((∃ user, UserRepository.Get db id = (some user, none) ∧ user.ID = id) ↔
        ∃ r ∈ db.users.getD [], r.user_id = id)) := by
  refine ⟨⟨?_, ?_, ?_⟩, ⟨?_, ?_, ?_⟩, ⟨?_, ?_⟩⟩
  · intro rows hu hno
    have := @queryRow_no_row RolesRow "roles" rows (fun r => decide (r.role_id = id))
      (fun r hr => by simpa using hno r hr)
    simp only [RoleRepository.Get, hu, this]
  · rcases queryRow_cases "roles" db.roles (fun r => decide (r.role_id = id)) with
      ⟨hn, hq⟩ | ⟨hno, -, hq⟩ | ⟨r, hr, hp, hq⟩
    · simp only [RoleRepository.Get, hq]
      simp [hn]
    · simp only [RoleRepository.Get, hq]
      constructor
      · rintro ⟨role, h, -⟩
        simp at h
      · rintro ⟨r, hr, hrid⟩
        simpa [hrid] using hno r hr
    · simp only [decide_eq_true_eq] at hp
      simp only [RoleRepository.Get, hq]
      exact ⟨fun _ => ⟨r, hr, hp⟩, fun _ => ⟨_, rfl, hp⟩⟩
  · rcases queryRow_cases "roles" db.roles (fun r => decide (r.role_id = id)) with
      ⟨-, hq⟩ | ⟨-, -, hq⟩ | ⟨r, -, -, hq⟩ <;>
      simp [RoleRepository.Get, hq]
  · intro rows hu hno
    have := @queryRow_no_row AccessRow "access" rows (fun r => decide (r.access_id = id))
      (fun r hr => by simpa using hno r hr)
    simp only [AccessRepository.Get, hu, this]
  · rcases queryRow_cases "access" db.access (fun r => decide (r.access_id = id)) with
      ⟨hn, hq⟩ | ⟨hno, -, hq⟩ | ⟨r, hr, hp, hq⟩
    · simp only [AccessRepository.Get, hq]
      simp [hn]
    · simp only [AccessRepository.Get, hq]
      constructor
      · rintro ⟨access, h, -⟩
        simp at h
      · rintro ⟨r, hr, hrid⟩
        simpa [hrid] using hno r hr
    · simp only [decide_eq_true_eq] at hp
      simp only [AccessRepository.Get, hq]
      exact ⟨fun _ => ⟨r, hr, hp⟩, fun _ => ⟨_, rfl, hp⟩⟩
  · rcases queryRow_cases "access" db.access (fun r => decide (r.access_id = id)) with
      ⟨-, hq⟩ | ⟨-, -, hq⟩ | ⟨r, -, -, hq⟩ <;>
      simp [AccessRepository.Get, hq]
  · intro rows hu hno
    have := @queryRow_no_row UsersRow "users" rows (fun r => decide (r.user_id = id))
      (fun r hr => by simpa using hno r hr)
    simp only [UserRepository.Get, hu, this, if_true]
  · rcases queryRow_cases "users" db.users (fun r => decide (r.user_id = id)) with
      ⟨hn, hq⟩ | ⟨hno, -, hq⟩ | ⟨r, hr, hp, hq⟩
    · simp only [UserRepository.Get, hq]
      simp [hn]
    · simp only [UserRepository.Get, hq]
      constructor
      · rintro ⟨user, h, -⟩
        simp at h
      · rintro ⟨r, hr, hrid⟩
        simpa [hrid] using hno r hr
    · simp only [decide_eq_true_eq] at hp
      simp only [UserRepository.Get, hq]
      exact ⟨fun _ => ⟨r, hr, hp⟩, fun _ => ⟨_, rfl, hp⟩⟩

/-- In `aliceStore`: role 2, access 4 and user 2 are stored, id 7 is not. -/
theorem get_by_id_witness :
    RoleRepository.Get aliceStore 7 = (none, some .ErrNoRows) ∧
    AccessRepository.Get aliceStore 7 = (some ⟨0, ""⟩, some .ErrNoRows) ∧
    UserRepository.Get aliceStore 7 = (none, none) ∧
    RoleRepository.Get aliceStore 2 = (some ⟨2, "Viewer"⟩, none) ∧
    AccessRepository.Get aliceStore 4 = (some ⟨4, "export"⟩, none) ∧
    UserRepository.Get aliceStore 2 = (some ⟨2, "bob", "5550101", "bob@example.org"⟩, none) ∧
    (∃ role, RoleRepository.Get aliceStore 2 = (some role, none) ∧ role.ID = 2) :=
  ⟨(get_by_id aliceStore 7).1.1 _ rfl (by decide),
    (get_by_id aliceStore 7).2.1.1 _ rfl (by decide),
    (get_by_id aliceStore 7).2.2.1 _ rfl (by decide),
    rfl, rfl, rfl,
    (get_by_id aliceStore 2).1.2.1.2 ⟨⟨2, "Viewer", 102, 102⟩, by decide, rfl⟩⟩

/-- Claim C13, on the code: only the user store reports an `Update` or `Delete` that
affects no row.  `UserRepository.Update` and `UserRepository.Delete` return "no rows were
affected during the update" (or "delete") and leave the store unchanged; the methods of
`RoleRepository` and `AccessRepository` discard `RowsAffected`: for an id that no row has
they leave the store unchanged and return no error. -/
theorem update_delete_without_row (db : DB) (now : Int) :
    (∀ user db', UserRepository.Update.exec db now user = .ok (db', 0) →
      UserRepository.Update db now user =
        (db, some (.New "no rows were affected during the update"))) ∧
    (∀ id db', UserRepository.Delete.exec db id = .ok (db', 0) →
      UserRepository.Delete db id =
        (db, some (.New "no rows were affected during the delete"))) ∧
    (∀ (user : User) rows, db.users = some rows → (∀ r ∈ rows, r.user_id ≠ user.ID) →
      UserRepository.Update db now user =
        (db, some (.New "no rows were affected during the update"))) ∧
    (∀ id rows, db.users = some rows → (∀ r ∈ rows, r.user_id ≠ id) →
      UserRepository.Delete db id =
        (db, some (.New "no rows were affected during the delete"))) ∧
    (∀ (role : Role) rows, db.roles = some rows → (∀ r ∈ rows, r.role_id ≠ role.ID) →
      RoleRepository.Update db now role = (db, none)) ∧
    (∀ id rows, db.roles = some rows → (∀ r ∈ rows, r.role_id ≠ id) →
      RoleRepository.Delete db id = (db, none)) ∧
    (∀ (access : Access) rows, db.access = some rows →
      (∀ r ∈ rows, r.access_id ≠ access.ID) →
      AccessRepository.Update db access = (db, none)) ∧
    (∀ id rows, db.access = some rows → (∀ r ∈ rows, r.access_id ≠ id) →
      AccessRepository.Delete db id = (db, none)) := by
  have hU : ∀ user db', UserRepository.Update.exec db now user = .ok (db', 0) →
      UserRepository.Update db now user =
        (db, some (.New "no rows were affected during the update")) := by
    intro user db' h
    have hdb := userUpdate_exec_zero h
    subst hdb
    simp [UserRepository.Update, h]
  have hD : ∀ id db', UserRepository.Delete.exec db id = .ok (db', 0) →
      UserRepository.Delete db id =
        (db, some (.New "no rows were affected during the delete")) := by
    intro id db' h
    have hdb := userDelete_exec_zero h
    subst hdb
    simp [UserRepository.Delete, h]
  refine ⟨hU, hD, ?_, ?_, ?_, ?_, ?_, ?_⟩
  · intro user rows hu hno
    apply hU user db
    have hany : rows.any (fun r => decide (r.user_id = user.ID)) = false := by
      rw [List.any_eq_false]
      intro r hr
      simpa using hno r hr
    have hex := @execUpdate_no_match UsersRow _ db.foundRows rows
      (fun r => decide (r.user_id = user.ID))
      (fun r => { r with user_name := user.UserName, mobile := user.Mobile,
                         updated_date := now, email_id := user.EmailID })
      (fun r hr => by simpa using hno r hr)
    simp only [UserRepository.Update.exec, hu, hany, Bool.false_and, hex]
    simp [DB.set_users_self hu]
  · intro id rows hu hno
    apply hD id db
    have hany : rows.any (fun r => decide (r.user_id = id)) = false := by
      rw [List.any_eq_false]
      intro r hr
      simpa using hno r hr
    have hex := @execDelete_no_match UsersRow rows (fun r => decide (r.user_id = id))
      (fun r hr => by simpa using hno r hr)
    simp only [UserRepository.Delete.exec, hu, hany, Bool.and_false, Bool.false_and, hex]
    simp [DB.set_users_self hu]
  · intro role rows hu hno
    have hany : rows.any (fun r => decide (r.role_id = role.ID)) = false := by
      rw [List.any_eq_false]
      intro r hr
      simpa using hno r hr
    have hex := @execUpdate_no_match RolesRow _ db.foundRows rows
      (fun r => decide (r.role_id = role.ID))
      (fun r => { r with role_name := role.Name, updated_date := now })
      (fun r hr => by simpa using hno r hr)
    simp only [RoleRepository.Update, RoleRepository.Update.exec, hu, hany, Bool.false_and, hex]
    simp [DB.set_roles_self hu]
  · intro id rows hu hno
    have hany : rows.any (fun r => decide (r.role_id = id)) = false := by
      rw [List.any_eq_false]
      intro r hr
      simpa using hno r hr
    have hex := @execDelete_no_match RolesRow rows (fun r => decide (r.role_id = id))
      (fun r hr => by simpa using hno r hr)
    simp only [RoleRepository.Delete, RoleRepository.Delete.exec, hu, hany, Bool.and_false,
      Bool.false_and, hex]
    simp [DB.set_roles_self hu]
  · intro access rows hu hno
    have hany : rows.any (fun r => decide (r.access_id = access.ID)) = false := by
      rw [List.any_eq_false]
      intro r hr
      simpa using hno r hr
    have hex := @execUpdate_no_match AccessRow _ db.foundRows rows
      (fun r => decide (r.access_id = access.ID))
      (fun r => { r with access_name := access.Name })
      (fun r hr => by simpa using hno r hr)
    simp only [AccessRepository.Update, AccessRepository.Update.exec, hu, hany,
      Bool.false_and, hex]
    simp [DB.set_access_self hu]
  · intro id rows hu hno
    have hex := @execDelete_no_match AccessRow rows (fun r => decide (r.access_id = id))
      (fun r hr => by simpa using hno r hr)
    simp only [AccessRepository.Delete, AccessRepository.Delete.exec, hu, hex]
    simp [DB.set_access_self hu]

/-- In `aliceStore` no user, role or access has id 7: the user store reports it, the role
and access stores return `nil`. -/
theorem update_delete_without_row_witness :
    UserRepository.Update aliceStore 200 ⟨7, "dave", "5550103", "dave@example.org"⟩ =
      (aliceStore, some (.New "no rows were affected during the update")) ∧
    UserRepository.Delete aliceStore 7 =
      (aliceStore, some (.New "no rows were affected during the delete")) ∧
    RoleRepository.Update aliceStore 200 ⟨7, "Editor"⟩ = (aliceStore, none) ∧
    RoleRepository.Delete aliceStore 7 = (aliceStore, none) ∧
    AccessRepository.Update aliceStore ⟨7, "share"⟩ = (aliceStore, none) ∧
    AccessRepository.Delete aliceStore 7 = (aliceStore, none) :=
  ⟨(update_delete_without_row aliceStore 200).2.2.1 ⟨7, "dave", "5550103", "dave@example.org"⟩
      _ rfl (by decide),
    (update_delete_without_row aliceStore 200).2.2.2.1 7 _ rfl (by decide),
    (update_delete_without_row aliceStore 200).2.2.2.2.1 ⟨7, "Editor"⟩ _ rfl (by decide),
    (update_delete_without_row aliceStore 200).2.2.2.2.2.1 7 _ rfl (by decide),
    (update_delete_without_row aliceStore 200).2.2.2.2.2.2.1 ⟨7, "share"⟩ _ rfl (by decide),
    (update_delete_without_row aliceStore 200).2.2.2.2.2.2.2 7 _ rfl (by decide)⟩

/-- Claim C14, on the code: the role and access stores, and the user store on a server
that is not in strict mode, behave as claimed on the value the column takes (the name
itself when it has at most 255 characters, its first 255 characters otherwise): with a
stored row of that name `Create` fails with the duplicate-key error and leaves the store and
the entity unchanged; otherwise it succeeds, appends exactly one row and sets the id to the
generated one, which no stored row has.  When the column rejects the name (strict mode, a
name longer than 255 characters) `Create` fails with error 1406 and leaves the store and the
entity unchanged.  On a server in strict mode `UserRepository.Create` fails for every user:
its `INSERT` names no value for the column `password`, declared `NOT NULL` without
default. -/
theorem create_duplicate_or_fresh (db : DB) (now : Int) (hwf : db.WF) :
    (∀ (e : Role) rows name, db.roles = some rows →
      fitColumn db.strict "role_name" 255 e.Name = .ok name →
      ((∃ r ∈ rows, r.role_name = name) →
        RoleRepository.Create db now e = (db, e, some (.duplicateEntry "roles"))) ∧
      ((∀ r ∈ rows, r.role_name ≠ name) →
        ∃ db' e', RoleRepository.Create db now e = (db', e', none) ∧
          db'.roles = some (rows ++ [⟨e'.ID, name, now, now⟩]) ∧
          e'.Name = e.Name ∧ ∀ r ∈ rows, r.role_id ≠ e'.ID)) ∧
    (∀ (e : Access) rows name, db.access = some rows →
      fitColumn db.strict "access_name" 255 e.Name = .ok name →
      ((∃ r ∈ rows, r.access_name = name) →
        AccessRepository.Create db now e = (db, e, some (.duplicateEntry "access"))) ∧
      ((∀ r ∈ rows, r.access_name ≠ name) →
        ∃ db' e', AccessRepository.Create db now e = (db', e', none) ∧
          db'.access = some (rows ++ [⟨e'.ID, name, now, now⟩]) ∧
          e'.Name = e.Name ∧ ∀ r ∈ rows, r.access_id ≠ e'.ID)) ∧
    (∀ (e : User) rows, db.users = some rows → db.strict = false →
      ((∃ r ∈ rows, r.user_name = cutColumn 255 e.UserName) →
        UserRepository.Create db now e = (db, e, some (.duplicateEntry "users"))) ∧
      ((∀ r ∈ rows, r.user_name ≠ cutColumn 255 e.UserName) →
        ∃ db' e', UserRepository.Create db now e = (db', e', none) ∧
          db'.users = some (rows ++
            [⟨e'.ID, cutColumn 255 e.UserName, cutColumn 10 e.Mobile,
              cutColumn 255 e.EmailID, "", now, now⟩]) ∧
          e'.UserName = e.UserName ∧ ∀ r ∈ rows, r.user_id ≠ e'.ID)) ∧
    (∀ (e : User) rows, db.users = some rows → db.strict = true →
      UserRepository.Create db now e = (db, e, some (.noDefaultValue "password"))) ∧
    (∀ (column : String) (n : Nat) (s : String), s.length ≤ n →
      fitColumn db.strict column n s = .ok s ∧ cutColumn n s = s) ∧
    (∀ (column : String) (n : Nat) (s name : String),
      fitColumn db.strict column n s = .ok name → name = cutColumn n s) ∧
    (∀ (e : Role) rows err, db.roles = some rows →
      fitColumn db.strict "role_name" 255 e.Name = .error err →
      RoleRepository.Create db now e = (db, e, some (.dataTooLong "role_name")) ∧
      db.strict = true ∧ 255 < e.Name.length) ∧
    (∀ (e : Access) rows err, db.access = some rows →
      fitColumn db.strict "access_name" 255 e.Name = .error err →
      AccessRepository.Create db now e = (db, e, some (.dataTooLong "access_name")) ∧
      db.strict = true ∧ 255 < e.Name.length) := by
  obtain ⟨-, -, -, -, -, -, -, -, h9, h10, h11⟩ := hwf
  refine ⟨?_, ?_, ?_, ?_, ?_, ?_, ?_, ?_⟩
  · intro e rows name hu hfit
    rw [hu] at h10
    refine ⟨roleCreate_of_dup now e hu hfit, fun hfresh => ?_⟩
    exact ⟨_, _, roleCreate_of_fresh now e hu hfit hfresh, rfl, rfl,
      fun r hr => ne_of_lt (h10 r hr)⟩
  · intro e rows name hu hfit
    rw [hu] at h11
    refine ⟨accessCreate_of_dup now e hu hfit, fun hfresh => ?_⟩
    exact ⟨_, _, accessCreate_of_fresh now e hu hfit hfresh, rfl, rfl,
      fun r hr => ne_of_lt (h11 r hr)⟩
  · intro e rows hu hs
    rw [hu] at h9
    refine ⟨userCreate_of_dup now e hu hs, fun hfresh => ?_⟩
    exact ⟨_, _, userCreate_of_fresh now e hu hs hfresh, rfl, rfl,
      fun r hr => ne_of_lt (h9 r hr)⟩
  · intro e rows hu hs
    exact userCreate_of_strict now e hu hs
  · intro column n s h
    exact ⟨fitColumn_of_le db.strict column h, cutColumn_of_le h⟩
  · intro column n s name h
    exact fitColumn_ok h
  · intro e rows err hu hfit
    obtain ⟨herr, hs, hlen⟩ := fitColumn_error hfit
    refine ⟨?_, hs, hlen⟩
    rw [roleCreate_of_long now e hu hfit, herr]
  · intro e rows err hu hfit
    obtain ⟨herr, hs, hlen⟩ := fitColumn_error hfit
    refine ⟨?_, hs, hlen⟩
    rw [accessCreate_of_long now e hu hfit, herr]

/-- On a strict server with empty tables `Create` of the first role succeeds and `Create`
of the first user fails; in `aliceStore` the role name "Admin" is a duplicate. -/
theorem create_duplicate_or_fresh_witness :
    (DB.created true true false).WF ∧
    UserRepository.Create (DB.created true true false) 100
        ⟨0, "alice", "5550100", "alice@example.org"⟩ =
      (DB.created true true false, ⟨0, "alice", "5550100", "alice@example.org"⟩,
        some (.noDefaultValue "password")) ∧
    (∃ db' e', RoleRepository.Create (DB.created true true false) 100 ⟨0, "Admin"⟩ =
        (db', e', none) ∧
      db'.roles = some ([] ++ [⟨e'.ID, "Admin", 100, 100⟩]) ∧
      e'.Name = "Admin" ∧ ∀ r ∈ ([] : List RolesRow), r.role_id ≠ e'.ID) ∧
    RoleRepository.Create aliceStore 200 ⟨0, "Admin"⟩ =
      (aliceStore, ⟨0, "Admin"⟩, some (.duplicateEntry "roles")) :=
  ⟨by decide,
    (create_duplicate_or_fresh (DB.created true true false) 100 (by decide)).2.2.2.1
      ⟨0, "alice", "5550100", "alice@example.org"⟩ [] rfl rfl,
    ((create_duplicate_or_fresh (DB.created true true false) 100 (by decide)).1
      ⟨0, "Admin"⟩ [] "Admin" rfl rfl).2 (by decide),
    ((create_duplicate_or_fresh aliceStore 200 (by decide)).1 ⟨0, "Admin"⟩ _ "Admin" rfl
      rfl).1 ⟨⟨1, "Admin", 101, 101⟩, by decide, rfl⟩⟩

/-- Claim C15 as stated fails: at Unix time 1700000000 every membership row of alice in
`aliceStore` is expired (expiry timestamp 999), and `GetAllAccess` still returns the four
accesses reached through these rows. -/
theorem expired_memberships_still_grant :
    (∀ ur ∈ aliceStore.user_role.getD [], ur.expiry_date < 1700000000) ∧
    (∀ ur ∈ aliceStore.user_roles.getD [], ur.expiry_date < 1700000000) ∧
    userRoleRepository.GetAllAccess aliceStore 1 =
      .ok [⟨2, "write"⟩, ⟨3, "delete"⟩, ⟨1, "read"⟩, ⟨4, "export"⟩] :=
  ⟨by decide, by decide, rfl⟩

/-- Claim C15, amended: the effective access set takes no account of expiry.  For every
store, user and time `now`, `GetAllAccess` returns what it returns on the store in which no
membership is expired at `now` (every expiry timestamp of `user_roles` and `user_role` set
to `now + 1`), and so do the login and the user-access endpoint: a membership whose expiry
timestamp is before `now` counts exactly as one that is not expired. -/
theorem getAllAccess_counts_expired (db : DB) (u now : Int) :
    userRoleRepository.GetAllAccess db u =
      userRoleRepository.GetAllAccess (db.unexpired now) u ∧
    (∀ ur ∈ (db.unexpired now).user_roles.getD [], now < ur.expiry_date) ∧
    (∀ ur ∈ (db.unexpired now).user_role.getD [], now < ur.expiry_date) ∧
    (∀ utils e t, LoginExecutor.Controller utils e db t =
      LoginExecutor.Controller utils e (db.unexpired now) t) ∧
    (∀ e, UserAccessExecutor.Controller e db =
      UserAccessExecutor.Controller e (db.unexpired now)) ∧
    (∀ (a : Access) accesses,
      userRoleRepository.GetAllAccess (db.unexpired now) u = .ok accesses → a ∈ accesses →
      ∃ accesses', userRoleRepository.GetAllAccess db u = .ok accesses' ∧ a ∈ accesses') := by
  have h := DB.sameUpToExpiry_unexpired db now
  have hacc : ∀ v, userRoleRepository.GetAllAccess db v =
      userRoleRepository.GetAllAccess (db.unexpired now) v := by
    intro v
    simp only [userRoleRepository.GetAllAccess, query_of_sameUpToExpiry h v]
  obtain ⟨husers, -, -, -⟩ := h.tables
  refine ⟨hacc u, (DB.unexpired_not_expired db now).1, (DB.unexpired_not_expired db now).2,
    ?_, ?_, ?_⟩
  · intro utils e t
    simp only [LoginExecutor.Controller, UserRepository.GetUserByUserName,
      UserRepository.GetPassword, husers, hacc]
  · intro e
    simp only [UserAccessExecutor.Controller, hacc]
  · intro a accesses hok ha
    exact ⟨accesses, (hacc u).trans hok, ha⟩

/-- In `aliceStore` at Unix time 1700000000 both memberships of alice are expired; with
the expiry timestamps set to 1700000001 `GetAllAccess` returns the same four accesses, and
"export", reached only through the membership in Viewer, is among them. -/
theorem getAllAccess_counts_expired_witness :
    (aliceStore.unexpired 1700000000).user_roles =
      some [⟨1, 1, 1700000001, 107, 107⟩, ⟨1, 2, 1700000001, 108, 108⟩] ∧
    userRoleRepository.GetAllAccess (aliceStore.unexpired 1700000000) 1 =
      .ok [⟨2, "write"⟩, ⟨3, "delete"⟩, ⟨1, "read"⟩, ⟨4, "export"⟩] ∧
    userRoleRepository.GetAllAccess aliceStore 1 =
      userRoleRepository.GetAllAccess (aliceStore.unexpired 1700000000) 1 ∧
    ∃ accesses', userRoleRepository.GetAllAccess aliceStore 1 = .ok accesses' ∧
      (⟨4, "export"⟩ : Access) ∈ accesses' :=
  ⟨rfl, rfl, (getAllAccess_counts_expired aliceStore 1 1700000000).1,
    (getAllAccess_counts_expired aliceStore 1 1700000000).2.2.2.2.2 ⟨4, "export"⟩ _ rfl
      (by decide)⟩

/-- Claim C16: on two stores that differ at most in the expiry timestamps of the rows of
`user_roles` and `user_role`, `GetAllAccess` returns the same result for every user, and
so do the login and the user-access endpoint: expired memberships count. -/
theorem getAllAccess_ignores_expiry (db1 db2 : DB) (h : db1.sameUpToExpiry db2) :
    (∀ u, userRoleRepository.GetAllAccess db1 u = userRoleRepository.GetAllAccess db2 u) ∧
    (∀ utils e now, LoginExecutor.Controller utils e db1 now =
      LoginExecutor.Controller utils e db2 now) ∧
    (∀ e, UserAccessExecutor.Controller e db1 = UserAccessExecutor.Controller e db2) := by
  have hacc : ∀ u, userRoleRepository.GetAllAccess db1 u =
      userRoleRepository.GetAllAccess db2 u := by
    intro u
    simp only [userRoleRepository.GetAllAccess, query_of_sameUpToExpiry h u]
  obtain ⟨husers, -, -, -⟩ := h.tables
  refine ⟨hacc, ?_, ?_⟩
  · intro utils e now
    simp only [LoginExecutor.Controller, UserRepository.GetUserByUserName,
      UserRepository.GetPassword, husers, hacc]
  · intro e
    simp only [UserAccessExecutor.Controller, hacc]

/-- The store `aliceStore` against the same store with every expiry timestamp moved to
Unix time 4102444800: same accesses and same login for alice. -/
theorem getAllAccess_ignores_expiry_witness :
    userRoleRepository.GetAllAccess aliceStore 1 =
      userRoleRepository.GetAllAccess
        { aliceStore with
          user_roles := some [⟨1, 1, 4102444800, 107, 107⟩, ⟨1, 2, 4102444800, 108, 108⟩],
          user_role := some [⟨1, 1, 4102444800, 107, 107⟩, ⟨1, 2, 4102444800, 108, 108⟩] } 1 ∧
    userRoleRepository.GetAllAccess aliceStore 1 =
      .ok [⟨2, "write"⟩, ⟨3, "delete"⟩, ⟨1, "read"⟩, ⟨4, "export"⟩] :=
  ⟨(getAllAccess_ignores_expiry aliceStore
      { aliceStore with
        user_roles := some [⟨1, 1, 4102444800, 107, 107⟩, ⟨1, 2, 4102444800, 108, 108⟩],
        user_role := some [⟨1, 1, 4102444800, 107, 107⟩, ⟨1, 2, 4102444800, 108, 108⟩] }
      ⟨rfl, rfl, rfl⟩).1 1,
    rfl⟩

/-- Claim C17, on the code: `RoleRepository.Delete` removes no row of `access_role`.  The
statement deletes from `roles`, while the cascading foreign key of `access_role.role_id`
references the table `role`; so the grants of a deleted role stay and
`GetAccessesForRole` returns after the delete what it returned before. -/
theorem role_delete_keeps_grants (db : DB) (id : Int) :
    (RoleRepository.Delete db id).1.access_role = db.access_role ∧
    (RoleRepository.Delete db id).1.access = db.access ∧
    ∀ r, RoleRepository.GetAccessesForRole (RoleRepository.Delete db id).1 r =
      RoleRepository.GetAccessesForRole db r := by
  have h : (RoleRepository.Delete db id).1.access_role = db.access_role ∧
      (RoleRepository.Delete db id).1.access = db.access := by
    unfold RoleRepository.Delete RoleRepository.Delete.exec
    cases db.roles with
    | none => exact ⟨rfl, rfl⟩
    | some rows =>
      by_cases hc : (db.foreignKeyChecks && rows.any (fun r => decide (r.role_id = id)) &&
          (db.user_roles.getD []).any (fun ur => decide (ur.role_id = id))) = true
      · simp [hc]
      · simp [hc]
  refine ⟨h.1, h.2, fun r => ?_⟩
  simp only [RoleRepository.GetAccessesForRole, RoleRepository.GetAccessesForRole.query,
    h.1, h.2]

/-- In `viewerStore`, with foreign key checks on: deleting the role Viewer succeeds, the
role is gone and its two grants are still returned. -/
theorem role_delete_keeps_grants_witness :
    (RoleRepository.Delete viewerStore 2).2 = none ∧
    (RoleRepository.Delete viewerStore 2).1.roles = some [⟨1, "Admin", 101, 101⟩] ∧
    (RoleRepository.Delete viewerStore 2).1.access_role =
      some [⟨1, 1, 109, 109⟩, ⟨1, 2, 110, 110⟩, ⟨1, 3, 111, 111⟩,
            ⟨2, 1, 112, 112⟩, ⟨2, 4, 113, 113⟩] ∧
    RoleRepository.GetAccessesForRole (RoleRepository.Delete viewerStore 2).1 2 =
      .ok [⟨1, "read"⟩, ⟨4, "export"⟩] :=
  ⟨rfl, rfl, rfl,
    ((role_delete_keeps_grants viewerStore 2).2.2 2).trans rfl⟩

/-- Claim C18, on the code: only `Access.ValidateRequest` rejects an empty name.
`Role.ValidateRequest` returns `nil` for every role, and `User.ValidateRequest` does not
look at the name: it returns `nil` whenever email and mobile are empty or well formed.  It
rejects a non-empty malformed email, and a non-empty malformed mobile. -/
theorem validate_request_names (utils : Validators) :
    (∀ a : handlers.Access, a.Name = "" →
      a.ValidateRequest = some (.New "access name is required")) ∧
    (∀ a : handlers.Access, a.Name ≠ "" → a.ValidateRequest = none) ∧
    (∀ r : handlers.Role, r.ValidateRequest = none) ∧
    (∀ u : handlers.User, (u.Email = "" ∨ utils.ValidateEmail u.Email = true) →
      (u.Mobile = "" ∨ utils.ValidateMobile u.Mobile = true) →
      u.ValidateRequest utils = none) ∧
    (∀ u : handlers.User, u.Email ≠ "" → utils.ValidateEmail u.Email = false →
      u.ValidateRequest utils = some (.New "email format is invalid")) ∧
    (∀ u : handlers.User, (u.Email = "" ∨ utils.ValidateEmail u.Email = true) →
      u.Mobile ≠ "" → utils.ValidateMobile u.Mobile = false →
      u.ValidateRequest utils = some (.New "mobile format is invalid")) := by
  refine ⟨?_, ?_, fun _ => rfl, ?_, ?_, ?_⟩
  · intro a h
    simp [handlers.Access.ValidateRequest, h]
  · intro a h
    simp [handlers.Access.ValidateRequest, h]
  · intro u he hm
    rcases he with he | he <;> rcases hm with hm | hm <;>
      simp [handlers.User.ValidateRequest, he, hm]
  · intro u he hv
    simp [handlers.User.ValidateRequest, he, hv]
  · intro u he hm hv
    rcases he with he | he <;> simp [handlers.User.ValidateRequest, he, hm, hv]

/-- A role and a user with empty names pass validation, and `CreateRoleExecutor` then
stores a role whose name is empty. -/
theorem validate_request_names_witness :
    handlers.Role.ValidateRequest ⟨0, ""⟩ = none ∧
    handlers.User.ValidateRequest exampleValidators ⟨0, "", "", ""⟩ = none ∧
    handlers.User.ValidateRequest exampleValidators ⟨0, "", "a@b.example", "5550100123"⟩ = none ∧
    handlers.Access.ValidateRequest ⟨0, ""⟩ = some (.New "access name is required") ∧
    (CreateRoleExecutor.Controller ⟨0, ""⟩ (DB.created true true false) 100).1.roles =
      some [⟨1, "", 100, 100⟩] :=
  ⟨(validate_request_names exampleValidators).2.2.1 ⟨0, ""⟩,
    (validate_request_names exampleValidators).2.2.2.1 ⟨0, "", "", ""⟩ (Or.inl rfl) (Or.inl rfl),
    (validate_request_names exampleValidators).2.2.2.1 ⟨0, "", "a@b.example", "5550100123"⟩
      (Or.inr (by decide)) (Or.inr (by decide)),
    (validate_request_names exampleValidators).1 ⟨0, ""⟩ rfl,
    rfl⟩

/-- Claim C19, on the code: starting from empty tables, after any history of `Create`
calls `RoleRepository.GetAll` and `AccessRepository.GetAll` return exactly the entities of
the successful calls as stored (names cut to the 255 characters of the column), in the order
of the calls, with pairwise distinct ids; so does `UserRepository.List`, which reads
`users`.  When the fields of the created entities fit their columns these are the entities
behind the pointers.  `UserRepository.GetAll` reads the table `user`, which no `Create`
writes: it returns what it returned before the calls, the missing-table error when `user`
does not exist. -/
theorem getAll_after_creates (db : DB) (calls : List (Int × CreateCall)) (hwf : db.WF) :
    (db.roles = some [] →
      RoleRepository.GetAll (createAll db calls) =
        .ok ((createdRoles db calls).map Role.stored) ∧
      ((createdRoles db calls).map repositories.Role.ID).Nodup ∧
      ((∀ r ∈ createdRoles db calls, r.Name.length ≤ 255) →
        RoleRepository.GetAll (createAll db calls) = .ok (createdRoles db calls))) ∧
    (db.access = some [] →
      AccessRepository.GetAll (createAll db calls) =
        (some ((createdAccesses db calls).map Access.stored), none) ∧
      ((createdAccesses db calls).map repositories.Access.ID).Nodup ∧
      ((∀ a ∈ createdAccesses db calls, a.Name.length ≤ 255) →
        AccessRepository.GetAll (createAll db calls) =
          (some (createdAccesses db calls), none))) ∧
    (db.users = some [] →
      UserRepository.List (createAll db calls) =
        .ok ((createdUsers db calls).map User.stored) ∧
      ((createdUsers db calls).map repositories.User.ID).Nodup ∧
      ((∀ u ∈ createdUsers db calls,
          u.UserName.length ≤ 255 ∧ u.Mobile.length ≤ 10 ∧ u.EmailID.length ≤ 255) →
        UserRepository.List (createAll db calls) = .ok (createdUsers db calls))) ∧
    UserRepository.GetAll (createAll db calls) = UserRepository.GetAll db ∧
    (db.user = none →
      UserRepository.GetAll (createAll db calls) = .error (.tableMissing "user")) := by
  have hfinal := createAll_WF calls hwf
  obtain ⟨h1, -, h3, -, h5, -, -, -, -, -, -⟩ := hfinal
  have hget : UserRepository.GetAll (createAll db calls) = UserRepository.GetAll db := by
    simp only [UserRepository.GetAll, createAll_user]
  refine ⟨?_, ?_, ?_, hget, ?_⟩
  · intro hu
    have hg := getAll_roles_createAll calls db [] hu
    simp only [List.map_nil, List.nil_append] at hg
    refine ⟨hg, ?_, fun hfit => by rw [hg, map_stored_roles hfit]⟩
    simp only [RoleRepository.GetAll, queryRows] at hg
    cases hr : (createAll db calls).roles with
    | none => simp [hr] at hg
    | some rows =>
      simp only [hr, Except.ok.injEq] at hg
      rw [hr] at h3
      have hid : (createdRoles db calls).map repositories.Role.ID =
          ((createdRoles db calls).map Role.stored).map repositories.Role.ID := by
        rw [List.map_map]
        rfl
      rw [hid, ← hg, List.map_map]
      exact h3
  · intro hu
    have hg := getAll_access_createAll calls db [] hu
    simp only [List.map_nil, List.nil_append] at hg
    refine ⟨hg, ?_, fun hfit => by rw [hg, map_stored_accesses hfit]⟩
    cases hr : (createAll db calls).access with
    | none =>
      simp [AccessRepository.GetAll, AccessRepository.GetAll.scan, queryAll, queryRows, hr]
        at hg
    | some rows =>
      rw [AccessRepository.GetAll_of_table hr] at hg
      simp only [Prod.mk.injEq, Option.some.injEq, and_true] at hg
      rw [hr] at h5
      have hid : (createdAccesses db calls).map repositories.Access.ID =
          ((createdAccesses db calls).map Access.stored).map repositories.Access.ID := by
        rw [List.map_map]
        rfl
      rw [hid, ← hg, List.map_map]
      exact h5
  · intro hu
    have hg := list_users_createAll calls db [] hu
    simp only [List.map_nil, List.nil_append] at hg
    refine ⟨hg, ?_, fun hfit => by rw [hg, map_stored_users hfit]⟩
    simp only [UserRepository.List, queryRows] at hg
    cases hr : (createAll db calls).users with
    | none => simp [hr] at hg
    | some rows =>
      simp only [hr, Except.ok.injEq] at hg
      rw [hr] at h1
      have hid : (createdUsers db calls).map repositories.User.ID =
          ((createdUsers db calls).map User.stored).map repositories.User.ID := by
        rw [List.map_map]
        rfl
      rw [hid, ← hg, List.map_map]
      exact h1
  · intro hu
    rw [hget]
    simp [UserRepository.GetAll, queryRows, hu]

/-- The history `aliceCalls` on empty tables: `GetAll` returns the two roles and the four
accesses in the order of creation, `List` returns alice, and `UserRepository.GetAll`
fails with the missing table `user`. -/
theorem getAll_after_creates_witness :
    (DB.created false false false).WF ∧
    RoleRepository.GetAll (createAll (DB.created false false false) aliceCalls) =
      .ok [⟨1, "Admin"⟩, ⟨2, "Viewer"⟩] ∧
    AccessRepository.GetAll (createAll (DB.created false false false) aliceCalls) =
      (some [⟨1, "read"⟩, ⟨2, "write"⟩, ⟨3, "delete"⟩, ⟨4, "export"⟩], none) ∧
    UserRepository.List (createAll (DB.created false false false) aliceCalls) =
      .ok [⟨1, "alice", "5550100", "alice@example.org"⟩] ∧
    UserRepository.GetAll (createAll (DB.created false false false) aliceCalls) =
      .error (.tableMissing "user") :=
  ⟨by decide,
    ((getAll_after_creates (DB.created false false false) aliceCalls (by decide)).1 rfl).1.trans
      rfl,
    ((getAll_after_creates (DB.created false false false) aliceCalls
      (by decide)).2.1 rfl).1.trans rfl,
    ((getAll_after_creates (DB.created false false false) aliceCalls
      (by decide)).2.2.1 rfl).1.trans rfl,
    (getAll_after_creates (DB.created false false false) aliceCalls (by decide)).2.2.2.2 rfl⟩

/-- Claim C20 as stated fails.  In `aliceStore` the statements for user 7 and for the user
name "carol" fail with `sql.ErrNoRows`; `UserRepository.Get` returns `nil, nil`,
`GetPassword` returns "invalid user id" and `GetUserByUserName` returns
"invalid user name".  Without the table `user_role` the query of `GetAllAccess` fails with
the missing table, `GetAllAccess` returns that error, and the login of bob returns a token
and no error.  When the iteration over the rows of `access` ends with an error after the row
of "read", `AccessRepository.GetAll` returns that access beside the error, not `nil`. -/
theorem storage_error_replaced_or_dropped :
    queryRow "users" aliceStore.users (fun r => decide (r.user_id = 7)) = .error .ErrNoRows ∧
    UserRepository.Get aliceStore 7 = (none, none) ∧
    UserRepository.GetPassword aliceStore 7 = .error (.New "invalid user id") ∧
    queryRow "users" aliceStore.users (fun r => decide (r.user_name = "carol")) =
      .error .ErrNoRows ∧
    UserRepository.GetUserByUserName aliceStore "carol" = .error (.New "invalid user name") ∧
    userRoleRepository.GetAllAccess.query { aliceStore with user_role := none } 2 =
      .error (.tableMissing "user_role") ∧
    userRoleRepository.GetAllAccess { aliceStore with user_role := none } 2 =
      .error (.tableMissing "user_role") ∧
    LoginExecutor.Controller exampleUtils ⟨"bob", "builder", "key"⟩
      { aliceStore with user_role := none } 0 = .ok [("token", "key/4")] ∧
    AccessRepository.GetAll.scan
        (.ok ⟨[⟨1, "read", 103, 103⟩], none, some (.driver "bad connection")⟩) =
      (some [⟨1, "read"⟩], some (.driver "bad connection")) :=
  ⟨rfl, rfl, rfl, rfl, rfl, rfl, rfl, rfl, rfl⟩

/-- Claim C20, amended.  An error `e` of the SQL statement is returned unchanged by the
repository method that ran it, except that `sql.ErrNoRows` becomes `nil, nil` in
`UserRepository.Get`, "invalid user id" in `GetPassword` and "invalid user name" in
`GetUserByUserName`; the `Create` methods return no error of their own, `UpdatePassword`
only the one for zero affected rows.  Every controller returns the error of the repository
method it calls with a `nil` result, except that `LoginExecutor.Controller` drops every
error of `GetAllAccess` and goes on to sign the claims with an empty access list, and that
`GetAllAccessesExecutor.Controller` returns both values of `AccessRepository.GetAll` as they
are.  `AccessRepository.GetAll` returns `nil` beside the error of the query or of a `Scan`,
but the accesses scanned so far beside the error `rows.Err()` of the iteration. -/
theorem storage_error_passed_on (db : DB) (now : Int) (e : Error) :
    -- single-row queries
    ((∀ id, queryRow "users" db.users (fun r => decide (r.user_id = id)) = .error e →
        UserRepository.Get db id = (none, if e = .ErrNoRows then none else some e)) ∧
      (∀ id, queryRow "users" db.users (fun r => decide (r.user_id = id)) = .error e →
        UserRepository.GetPassword db id =
          .error (if e = .ErrNoRows then .New "invalid user id" else e)) ∧
      (∀ name, queryRow "users" db.users (fun r => decide (r.user_name = name)) = .error e →
        UserRepository.GetUserByUserName db name =
          .error (if e = .ErrNoRows then .New "invalid user name" else e)) ∧
      (∀ id, queryRow "roles" db.roles (fun r => decide (r.role_id = id)) = .error e →
        RoleRepository.Get db id = (none, some e)) ∧
      (∀ id, queryRow "access" db.access (fun r => decide (r.access_id = id)) = .error e →
        AccessRepository.Get db id = (some ⟨0, ""⟩, some e)) ∧
      (∀ u r, queryRow "user_roles" db.user_roles
          (fun x => decide (x.user_id = u ∧ x.role_id = r)) = .error e →
        userRoleRepository.Get db u r = (none, some e)) ∧
      (∀ r a, queryRow "access_role" db.access_role
          (fun x => decide (x.role_id = r ∧ x.access_id = a)) = .error e →
        RoleAccessRepository.Get db r a = (none, some e))) ∧
    -- queries of several rows
    ((queryRows "user" db.user = .error e → UserRepository.GetAll db = .error e) ∧
      (queryRows "users" db.users = .error e → UserRepository.List db = .error e) ∧
      (queryRows "roles" db.roles = .error e → RoleRepository.GetAll db = .error e) ∧
      (queryAll "access" db.access = .error e →
        AccessRepository.GetAll db = (none, some e)) ∧
      (queryRows "user_roles" db.user_roles = .error e →
        userRoleRepository.GetAll db = .error e) ∧
      (queryRows "access_role" db.access_role = .error e →
        RoleAccessRepository.GetAll db = .error e) ∧
      (∀ u, userRoleRepository.GetRolesForUser.query db u = .error e →
        userRoleRepository.GetRolesForUser db u = .error e) ∧
      (∀ r, RoleRepository.GetAccessesForRole.query db r = .error e →
        RoleRepository.GetAccessesForRole db r = .error e) ∧
      (∀ u, userRoleRepository.GetAllAccess.query db u = .error e →
        userRoleRepository.GetAllAccess db u = .error e)) ∧
    -- statements that write
    ((∀ x, UserRepository.Update.exec db now x = .error e →
        UserRepository.Update db now x = (db, some e)) ∧
      (∀ id, UserRepository.Delete.exec db id = .error e →
        UserRepository.Delete db id = (db, some e)) ∧
      (∀ x, RoleRepository.Update.exec db now x = .error e →
        RoleRepository.Update db now x = (db, some e)) ∧
      (∀ id, RoleRepository.Delete.exec db id = .error e →
        RoleRepository.Delete db id = (db, some e)) ∧
      (∀ x, AccessRepository.Update.exec db x = .error e →
        AccessRepository.Update db x = (db, some e)) ∧
      (∀ id, AccessRepository.Delete.exec db id = .error e →
        AccessRepository.Delete db id = (db, some e)) ∧
      (∀ x, userRoleRepository.Update.exec db now x = .error e →
        userRoleRepository.Update db now x = (db, some e)) ∧
      (∀ u r, userRoleRepository.Delete.exec db u r = .error e →
        userRoleRepository.Delete db u r = (db, some e)) ∧
      (∀ r a, RoleAccessRepository.Delete.exec db r a = .error e →
        RoleAccessRepository.Delete db r a = (db, some e)) ∧
      (∀ text,
        (∀ x, (UserRepository.Create db now x).2.2 ≠ some (.New text)) ∧
        (∀ x, (RoleRepository.Create db now x).2.2 ≠ some (.New text)) ∧
        (∀ x, (AccessRepository.Create db now x).2.2 ≠ some (.New text)) ∧
        (∀ x, (userRoleRepository.Create db now x).2 ≠ some (.New text)) ∧
        (∀ x, (RoleAccessRepository.Create db now x).2 ≠ some (.New text)) ∧
        (∀ id password, (UserRepository.UpdatePassword db now id password).2 =
            some (.New text) → text = "no rows were affected during the update"))) ∧
    -- controllers
    ((∀ req db' x, UserRepository.Create db now (createUserModel req) = (db', x, some e) →
        CreateUserExecutor.Controller req db now = (db', none, some e)) ∧
      (∀ req db', UserRepository.Update db now (createUserModel req) = (db', some e) →
        UpdateUserExecutor.Controller req db now = (db', none, some e)) ∧
      (∀ (req : handlers.User) db', UserRepository.Delete db req.ID = (db', some e) →
        DeleteUserExecutor.Controller req db = (db', some e)) ∧
      (∀ (req : handlers.User) x, UserRepository.Get db req.ID = (x, some e) →
        GetUserExecutor.Controller req db = (none, some e)) ∧
      (UserRepository.GetAll db = .error e → GetAllUsersExecutor.Controller db = .error e) ∧
      (∀ (req : handlers.User), userRoleRepository.GetAllAccess db req.ID = .error e →
        UserAccessExecutor.Controller req db = .error e) ∧
      (∀ req db' x, RoleRepository.Create db now (createRoleModel req) = (db', x, some e) →
        CreateRoleExecutor.Controller req db now = (db', none, some e)) ∧
      (∀ req db', RoleRepository.Update db now (createRoleModel req) = (db', some e) →
        UpdateRoleExecutor.Controller req db now = (db', none, some e)) ∧
      (∀ (req : handlers.Role) db', RoleRepository.Delete db req.ID = (db', some e) →
        DeleteRoleExecutor.Controller req db = (db', some e)) ∧
      (∀ (req : handlers.Role) x, RoleRepository.Get db req.ID = (x, some e) →
        GetRoleExecutor.Controller req db = (none, some e)) ∧
      (RoleRepository.GetAll db = .error e → GetAllRolesExecutor.Controller db = .error e) ∧
      (∀ req db' x, AccessRepository.Create db now (createAccessModel req) = (db', x, some e) →
        CreateAccessExecutor.Controller req db now = (db', none, some e)) ∧
      (∀ req db', AccessRepository.Update db (createAccessModel req) = (db', some e) →
        UpdateAccessExecutor.Controller req db = (db', none, some e)) ∧
      (∀ (req : handlers.Access) db', AccessRepository.Delete db req.ID = (db', some e) →
        DeleteAccessExecutor.Controller req db = (db', some e)) ∧
      (∀ (req : handlers.Access) x, AccessRepository.Get db req.ID = (x, some e) →
        GetAccessExecutor.Controller req db = (none, some e)) ∧
      (∀ x, AccessRepository.GetAll db = (x, some e) →
        GetAllAccessesExecutor.Controller db = (x, some e)) ∧
      (∀ utils (req : UserPassword), UserRepository.GetPassword db req.ID = .error e →
        UpdateUserPasswordExecutor.Controller utils req db now = (db, some e)) ∧
      (∀ utils (req : UserPassword) db',
        UserRepository.GetPassword db req.ID = .ok (utils.MD5Hash req.OldPassword) →
        UserRepository.UpdatePassword db now req.ID (utils.MD5Hash req.Password) =
          (db', some e) →
        UpdateUserPasswordExecutor.Controller utils req db now = (db', some e)) ∧
      (∀ utils (req : LoginExecutor) (t : Time),
        UserRepository.GetUserByUserName db req.UserName = .error e →
        LoginExecutor.Controller utils req db t = .error e) ∧
      (∀ utils (req : LoginExecutor) (t : Time) user,
        UserRepository.GetUserByUserName db req.UserName = .ok user →
        UserRepository.GetPassword db user.ID = .error e →
        LoginExecutor.Controller utils req db t = .error e) ∧
      (∀ MD5Hash (req : LoginExecutor) (t : Time) user,
        UserRepository.GetUserByUserName db req.UserName = .ok user →
        UserRepository.GetPassword db user.ID = .ok (MD5Hash req.Password) →
        userRoleRepository.GetAllAccess db user.ID = .error e →
        LoginExecutor.signs MD5Hash req db t
          [("user_id", .int user.ID), ("username", .string user.UserName),
           ("access", .accessSlice []), ("exp", .int64 (t.Unix + 86400))])) ∧
    -- the outcomes of the statement of `AccessRepository.GetAll`
    (AccessRepository.GetAll.scan (.error e) = (none, some e) ∧
      (∀ rows err, AccessRepository.GetAll.scan (.ok ⟨rows, some e, err⟩) = (none, some e)) ∧
      (∀ rows, AccessRepository.GetAll.scan (.ok ⟨rows, none, some e⟩) =
        (some (rows.map fun r => ⟨r.access_id, r.access_name⟩), some e)) ∧
      GetAllAccessesExecutor.Controller db =
        AccessRepository.GetAll.scan (queryAll "access" db.access)) := by
  refine ⟨⟨?_, ?_, ?_, ?_, ?_, ?_, ?_⟩, ⟨?_, ?_, ?_, ?_, ?_, ?_, ?_, ?_, ?_⟩,
    ⟨?_, ?_, ?_, ?_, ?_, ?_, ?_, ?_, ?_, ?_⟩,
    ⟨?_, ?_, ?_, ?_, ?_, ?_, ?_, ?_, ?_, ?_, ?_, ?_, ?_, ?_, ?_, ?_, ?_, ?_, ?_, ?_, ?_⟩,
    ⟨rfl, fun _ _ => rfl, fun _ => rfl, rfl⟩⟩
  -- single-row queries
  · intro id h
    by_cases he : e = .ErrNoRows <;> simp [UserRepository.Get, h, he]
  · intro id h
    by_cases he : e = .ErrNoRows <;> simp [UserRepository.GetPassword, h, he]
  · intro name h
    by_cases he : e = .ErrNoRows <;> simp [UserRepository.GetUserByUserName, h, he]
  · intro id h
    simp [RoleRepository.Get, h]
  · intro id h
    simp [AccessRepository.Get, h]
  · intro u r h
    simp only [userRoleRepository.Get, h]
  · intro r a h
    simp only [RoleAccessRepository.Get, h]
  -- queries of several rows
  · intro h
    simp only [UserRepository.GetAll, h]
  · intro h
    simp only [UserRepository.List, h]
  · intro h
    simp only [RoleRepository.GetAll, h]
  · intro h
    simp only [AccessRepository.GetAll, AccessRepository.GetAll.scan, h]
  · intro h
    simp only [userRoleRepository.GetAll, h]
  · intro h
    simp only [RoleAccessRepository.GetAll, h]
  · intro u h
    simp only [userRoleRepository.GetRolesForUser, h]
  · intro r h
    simp only [RoleRepository.GetAccessesForRole, h]
  · intro u h
    simp only [userRoleRepository.GetAllAccess, h]
  -- statements that write
  · intro x h
    simp only [UserRepository.Update, h]
  · intro id h
    simp only [UserRepository.Delete, h]
  · intro x h
    simp only [RoleRepository.Update, h]
  · intro id h
    simp only [RoleRepository.Delete, h]
  · intro x h
    simp only [AccessRepository.Update, h]
  · intro id h
    simp only [AccessRepository.Delete, h]
  · intro x h
    simp only [userRoleRepository.Update, h]
  · intro u r h
    simp only [userRoleRepository.Delete, h]
  · intro r a h
    simp only [RoleAccessRepository.Delete, h]
  · intro text
    obtain ⟨h1, h2, h3, h4, h5⟩ := create_error_not_new db now text
    exact ⟨h1, h2, h3, h4, h5, fun id password h => updatePassword_error db now id password text h⟩
  -- controllers
  · intro req db' x h
    simp only [CreateUserExecutor.Controller, h]
  · intro req db' h
    simp only [UpdateUserExecutor.Controller, h]
  · intro req db' h
    simp only [DeleteUserExecutor.Controller, h]
  · intro req x h
    simp only [GetUserExecutor.Controller, h]
  · intro h
    exact h
  · intro req h
    simp only [UserAccessExecutor.Controller, h]
  · intro req db' x h
    simp only [CreateRoleExecutor.Controller, h]
  · intro req db' h
    simp only [UpdateRoleExecutor.Controller, h]
  · intro req db' h
    simp only [DeleteRoleExecutor.Controller, h]
  · intro req x h
    simp only [GetRoleExecutor.Controller, h]
  · intro h
    exact h
  · intro req db' x h
    simp only [CreateAccessExecutor.Controller, h]
  · intro req db' h
    simp only [UpdateAccessExecutor.Controller, h]
  · intro req db' h
    simp only [DeleteAccessExecutor.Controller, h]
  · intro req x h
    simp only [GetAccessExecutor.Controller, h]
  · intro x h
    exact h
  · intro utils req h
    simp only [UpdateUserPasswordExecutor.Controller, h]
  · intro utils req db' hp hup
    simp only [UpdateUserPasswordExecutor.Controller, hp, ne_eq, not_true_eq_false, if_false,
      hup]
  · intro utils req t h
    exact Controller_of_user_error t h
  · intro utils req t user hu hp
    simp only [LoginExecutor.Controller, hu, hp]
  · intro MD5Hash req t user hu hp hacc
    have hs := Controller_of_credentials t hu hp
    rw [hacc] at hs
    exact hs

/-- In `aliceStore` no user has id 7: the statement fails with `sql.ErrNoRows`, which
`UserRepository.Get` replaces by `nil, nil` and `GetPassword` by "invalid user id", while
`RoleRepository.Get` returns it.  Without the table `user_role` the statement of
`GetAllAccess` fails with the missing table: `GetAllAccess` and
`UserAccessExecutor.Controller` return that error, and the login of bob signs the claims
with an empty access list.  Without the table `access` the query of
`AccessRepository.GetAll` fails and the method and its controller return `nil` beside the
error. -/
theorem storage_error_passed_on_witness :
    AccessRepository.GetAll { aliceStore with access := none } =
      (none, some (.tableMissing "access")) ∧
    GetAllAccessesExecutor.Controller { aliceStore with access := none } =
      (none, some (.tableMissing "access")) ∧
    UserRepository.Get aliceStore 7 = (none, none) ∧
    UserRepository.GetPassword aliceStore 7 = .error (.New "invalid user id") ∧
    RoleRepository.Get aliceStore 7 = (none, some .ErrNoRows) ∧
    userRoleRepository.GetAllAccess { aliceStore with user_role := none } 2 =
      .error (.tableMissing "user_role") ∧
    UserAccessExecutor.Controller ⟨2, "", "", ""⟩ { aliceStore with user_role := none } =
      .error (.tableMissing "user_role") ∧
    LoginExecutor.signs exampleUtils.MD5Hash ⟨"bob", "builder", "key"⟩
      { aliceStore with user_role := none } 0
      [("user_id", .int 2), ("username", .string "bob"), ("access", .accessSlice []),
       ("exp", .int64 86400)] :=
  ⟨(storage_error_passed_on { aliceStore with access := none } 0
      (.tableMissing "access")).2.1.2.2.2.1 rfl,
    (storage_error_passed_on { aliceStore with access := none } 0
      (.tableMissing "access")).2.2.2.1.2.2.2.2.2.2.2.2.2.2.2.2.2.2.2.1 none rfl,
    (storage_error_passed_on aliceStore 0 .ErrNoRows).1.1 7 rfl,
    (storage_error_passed_on aliceStore 0 .ErrNoRows).1.2.1 7 rfl,
    (storage_error_passed_on aliceStore 0 .ErrNoRows).1.2.2.2.1 7 rfl,
    (storage_error_passed_on { aliceStore with user_role := none } 0
      (.tableMissing "user_role")).2.1.2.2.2.2.2.2.2.2 2 rfl,
    (storage_error_passed_on { aliceStore with user_role := none } 0
      (.tableMissing "user_role")).2.2.2.1.2.2.2.2.2.1 ⟨2, "", "", ""⟩ rfl,
    (storage_error_passed_on { aliceStore with user_role := none } 0
      (.tableMissing "user_role")).2.2.2.1.2.2.2.2.2.2.2.2.2.2.2.2.2.2.2.2.2.2.2.2
      exampleUtils.MD5Hash ⟨"bob", "builder", "key"⟩ 0
      ⟨2, "bob", "5550101", "bob@example.org"⟩ rfl rfl rfl⟩

/-! ## Lemmas: the user-access endpoint -/

/-- A list returned by `GetAllAccess` without error is not empty. -/
theorem GetAllAccess_ok_ne_nil {db : DB} {u : Int} {accesses : List Access}
    (h : userRoleRepository.GetAllAccess db u = .ok accesses) : accesses ≠ [] := by
  obtain ⟨rows, -, hne, rfl⟩ := GetAllAccess_ok_iff.mp h
  simpa using hne

/-- The only error `GetAllAccess` makes itself is "no access found for the user". -/
theorem GetAllAccess_error_new {db : DB} {u : Int} {text : String}
    (h : userRoleRepository.GetAllAccess db u = .error (.New text)) :
    text = "no access found for the user" := by
  unfold userRoleRepository.GetAllAccess at h
  cases hq : userRoleRepository.GetAllAccess.query db u with
  | error err =>
    rw [hq] at h
    simp only [Except.error.injEq] at h
    subst h
    unfold userRoleRepository.GetAllAccess.query at hq
    repeat' split at hq
    all_goals simp at hq
  | ok rows =>
    rw [hq] at h
    simp only at h
    split at h
    · simp only [Except.error.injEq, Error.New.injEq] at h
      exact h.symm
    · simp at h

/-- Claim C21: `UserAccessExecutor.Controller` returns exactly what `GetAllAccess` returns
for the user id of the request, which is an error or a non-empty list.  The controller
never returns an empty list without error; `GetAllAccess` never succeeds with a list of
length zero, so the branch `len(accesses) == 0` of the controller is never taken and its
error "no accesses found for user" is never returned. -/
theorem userAccess_never_empty (e : handlers.User) (db : DB) :
    UserAccessExecutor.Controller e db = userRoleRepository.GetAllAccess db e.ID ∧
    ((∃ err, UserAccessExecutor.Controller e db = .error err) ∨
      (∃ accesses, accesses ≠ [] ∧
        userRoleRepository.GetAllAccess db e.ID = .ok accesses ∧
        UserAccessExecutor.Controller e db = .ok accesses)) ∧
    UserAccessExecutor.Controller e db ≠ .ok [] ∧
    (¬ ∃ accesses, userRoleRepository.GetAllAccess db e.ID = .ok accesses ∧
      accesses.length = 0) ∧
    UserAccessExecutor.Controller e db ≠ .error (.New "no accesses found for user") := by
  have heq : UserAccessExecutor.Controller e db =
      userRoleRepository.GetAllAccess db e.ID := by
    unfold UserAccessExecutor.Controller
    cases h : userRoleRepository.GetAllAccess db e.ID with
    | error err => rfl
    | ok accesses =>
      have hne : accesses.length ≠ 0 := by
        simpa using GetAllAccess_ok_ne_nil h
      simp only [hne, if_false]
  refine ⟨heq, ?_, ?_, ?_, ?_⟩
  · rw [heq]
    cases h : userRoleRepository.GetAllAccess db e.ID with
    | error err => exact Or.inl ⟨err, rfl⟩
    | ok accesses => exact Or.inr ⟨accesses, GetAllAccess_ok_ne_nil h, rfl, rfl⟩
  · rw [heq]
    intro h
    exact GetAllAccess_ok_ne_nil h rfl
  · rintro ⟨accesses, h, hlen⟩
    exact GetAllAccess_ok_ne_nil h (List.length_eq_zero.mp hlen)
  · rw [heq]
    intro h
    exact absurd (GetAllAccess_error_new h) (by decide)

/-- In `aliceStore` the endpoint returns the four accesses of alice (user 1), the error of
`GetAllAccess` for bob (user 2), who holds no role, and the missing-table error when the
table `user_role` is absent. -/
theorem userAccess_never_empty_witness :
    UserAccessExecutor.Controller ⟨1, "", "", ""⟩ aliceStore =
      .ok [⟨2, "write"⟩, ⟨3, "delete"⟩, ⟨1, "read"⟩, ⟨4, "export"⟩] ∧
    UserAccessExecutor.Controller ⟨2, "", "", ""⟩ aliceStore =
      .error (.New "no access found for the user") ∧
    UserAccessExecutor.Controller ⟨1, "", "", ""⟩ { aliceStore with role := none } =
      .error (.tableMissing "role") ∧
    UserAccessExecutor.Controller ⟨2, "", "", ""⟩ aliceStore ≠ .ok [] :=
  ⟨(userAccess_never_empty ⟨1, "", "", ""⟩ aliceStore).1.trans rfl,
    (userAccess_never_empty ⟨2, "", "", ""⟩ aliceStore).1.trans rfl,
    (userAccess_never_empty ⟨1, "", "", ""⟩ { aliceStore with role := none }).1.trans rfl,
    (userAccess_never_empty ⟨2, "", "", ""⟩ aliceStore).2.2.1⟩
